import Mathlib

/-!
# query-builder: the condition / placeholder engine of `query_builder.go`

A shallow embedding of `queryBuilder` and its methods.  The Go program works
on references: a `*queryBuilder` is a pointer, `[]string` and
`[]map[string]string` are slice headers over shared backing arrays, and a
`map[string]string` is a reference to a shared table.  The embedding keeps this
explicit: every method takes the heap it runs in and returns the heap it
leaves, so that writes through one reference are seen through every alias.

Go `int` is modelled by `Int` without wrap-around: the only arithmetic is
`argNum + 1` and `i + 1`, which would need 2^63 rendered tokens to overflow.
Memory is unbounded: an allocation fails only on a negative capacity, not on
one beyond the allocator's limit.
-/

namespace QueryBuilder

/-! ## Constants declared outside `query_builder.go` -/

/-- Modelled from the spec: the default placeholder mode (Positional, `?`).
The declaration of the three mode constants is not among the sources; only
their being pairwise distinct is used. -/
def Question : Int := 0

/-- Modelled from the spec: the Named placeholder mode (`:name`). -/
def Named : Int := 1

/-- Modelled from the spec: the Sequential numbered placeholder mode (`$n`). -/
def DollarNumber : Int := 2

/-- Modelled from the spec: the operator `=`. -/
def Equal : String := "="

/-- Modelled from the spec: the operator `IN`. -/
def In : String := "IN"

/-- Modelled from the spec: the operator `NOT IN`. -/
def NotIn : String := "NOT IN"

/-- Modelled from the spec: the operator `IS NULL`. -/
def IsNull : String := "IS NULL"

/-- Modelled from the spec: the operator `IS NOT NULL`. -/
def IsNotNull : String := "IS NOT NULL"

/-- Modelled from the spec: the struct tag key naming a field's column
(`db:"user_id"` in the tests). -/
def DBTag : String := "db"

/-- Modelled from the spec: the struct tag key naming a field's table
(`table:"users"` in the tests). -/
def TableTag : String := "table"

/-! ## Go library functions -/

/-- Go `strconv.Itoa`: the decimal text of an integer. -/
def Itoa (n : Int) : String := toString n

/-- The digits of `strconv.Atoi`: `n = n*10 + int(ch - '0')` over the bytes,
a syntax error on any byte that is not a digit. -/
def atoiDigits : List Char → Nat → Option Nat
  | [], acc => some acc
  | c :: cs, acc => if c.isDigit then atoiDigits cs (acc * 10 + (c.toNat - 48)) else none

/-- An unsigned digit string read by `strconv.Atoi`; the empty string is a
syntax error. -/
def atoiUnsigned (cs : List Char) : Option Nat :=
  if cs = [] then none else atoiDigits cs 0

/-- Go `strconv.Atoi` with its error dropped, as in
`listLength, _ := strconv.Atoi(...)`: an optional sign and decimal digits; on
a syntax error the value is 0. -/
def Atoi (s : String) : Int :=
  match s.data with
  | '-' :: cs => match atoiUnsigned cs with
    | some n => - (n : Int)
    | none => 0
  | '+' :: cs => match atoiUnsigned cs with
    | some n => (n : Int)
    | none => 0
  | cs => match atoiUnsigned cs with
    | some n => (n : Int)
    | none => 0

/-- The capacity the Go runtime gives a slice that has to grow
(`runtime.nextslicecap`): the requested length when it exceeds twice the old
capacity, twice the old capacity below 256 elements, and a step of
`(cap + 768) / 4` above.  The rounding up to an allocation size class is left
out; it changes nothing below 256 elements of 8 or 16 bytes. -/
def growslice (oldCap newLen : Nat) : Nat :=
  if 2 * oldCap < newLen then newLen
  else if oldCap < 256 then 2 * oldCap
  else oldCap + (oldCap + 768) / 4

/-! ## Data model -/

/-- A Go slice header.  No slice of this program is ever re-sliced, so the
header always starts at offset 0 of its backing array; `cap = 0` is the nil
slice, whose `arr` is not read. -/
structure Slice where
  arr : Nat
  len : Nat
  cap : Nat
  deriving DecidableEq, Repr

/-- The nil slice. -/
def nilSlice : Slice := ⟨0, 0, 0⟩

/-- One `map[string]string` of `whereConditions`.  The program reads and
writes only these six keys; a key that was never written reads as `""`, as a
missing key of a Go map does. -/
structure Condition where
  column : String
  operator : String
  bind : String
  logical : String
  listLength : String
  subQuery : String
  deriving DecidableEq, Repr

/-- The struct `queryBuilder`. -/
structure queryBuilder where
  query : Slice
  tableName : String
  columns : Slice
  whereConditions : Slice
  placeholderType : Int
  argNum : Int
  ignoreZeroValue : Bool
  deriving DecidableEq, Repr

/-- The heap: the `queryBuilder` structs behind the `*queryBuilder` pointers,
the backing arrays of the `[]string` slices, the backing arrays of the
`[]map[string]string` slices (holding map references) and the maps.  Addresses
are natural numbers; the `next` fields are the allocation frontiers. -/
structure Heap where
  builders : Nat → queryBuilder
  nextBuilder : Nat
  strArrays : Nat → Nat → String
  nextStrArray : Nat
  mapArrays : Nat → Nat → Nat
  nextMapArray : Nat
  maps : Nat → Condition
  nextMap : Nat

/-- The zero value of `queryBuilder`. -/
def zeroBuilder : queryBuilder :=
  { query := nilSlice, tableName := "", columns := nilSlice, whereConditions := nilSlice,
    placeholderType := 0, argNum := 0, ignoreZeroValue := false }

/-- The heap before anything is allocated. -/
def emptyHeap : Heap :=
  { builders := fun _ => zeroBuilder, nextBuilder := 0,
    strArrays := fun _ _ => "", nextStrArray := 0,
    mapArrays := fun _ _ => 0, nextMapArray := 0,
    maps := fun _ => ⟨"", "", "", "", "", ""⟩, nextMap := 0 }

/-- The elements of a `[]string` slice, read through the heap. -/
def strView (h : Heap) (s : Slice) : List String :=
  (List.range s.len).map (h.strArrays s.arr)

/-- The map references held by a `[]map[string]string` slice. -/
def mapAddrs (h : Heap) (s : Slice) : List Nat :=
  (List.range s.len).map (h.mapArrays s.arr)

/-- The conditions of a `[]map[string]string` slice, read through the heap. -/
def condView (h : Heap) (s : Slice) : List Condition :=
  (mapAddrs h s).map h.maps

/-- The columns of the builder at `p`. -/
def columnsOf (h : Heap) (p : Nat) : List String :=
  strView h (h.builders p).columns

/-- The conditions of the builder at `p`. -/
def conditionsOf (h : Heap) (p : Nat) : List Condition :=
  condView h (h.builders p).whereConditions

/-- Go `append(s, x)` on a `[]string`: with spare capacity the element is
written into the shared backing array at index `len(s)`; otherwise a new
array is allocated, the elements are copied and `x` is written after them. -/
def appendStr (h : Heap) (s : Slice) (x : String) : Heap × Slice :=
  if s.len < s.cap then
    ({ h with strArrays := fun a => if a = s.arr
                then fun i => if i = s.len then x else h.strArrays s.arr i
                else h.strArrays a },
     { s with len := s.len + 1 })
  else
    ({ h with strArrays := fun a => if a = h.nextStrArray
                then fun i => if i < s.len then h.strArrays s.arr i
                              else if i = s.len then x else ""
                else h.strArrays a,
              nextStrArray := h.nextStrArray + 1 },
     ⟨h.nextStrArray, s.len + 1, growslice s.cap (s.len + 1)⟩)

/-- Go `append(s, m)` on a `[]map[string]string`, `m` a map reference. -/
def appendMap (h : Heap) (s : Slice) (m : Nat) : Heap × Slice :=
  if s.len < s.cap then
    ({ h with mapArrays := fun a => if a = s.arr
                then fun i => if i = s.len then m else h.mapArrays s.arr i
                else h.mapArrays a },
     { s with len := s.len + 1 })
  else
    ({ h with mapArrays := fun a => if a = h.nextMapArray
                then fun i => if i < s.len then h.mapArrays s.arr i
                              else if i = s.len then m else 0
                else h.mapArrays a,
              nextMapArray := h.nextMapArray + 1 },
     ⟨h.nextMapArray, s.len + 1, growslice s.cap (s.len + 1)⟩)

/-- A map literal `map[string]string{...}`: a fresh map on the heap. -/
def newMap (h : Heap) (c : Condition) : Heap × Nat :=
  ({ h with maps := fun a => if a = h.nextMap then c else h.maps a,
            nextMap := h.nextMap + 1 }, h.nextMap)

/-- A write to the struct behind the pointer `p`. -/
def setBuilder (h : Heap) (p : Nat) (b : queryBuilder) : Heap :=
  { h with builders := fun q => if q = p then b else h.builders q }

/-- A composite literal `&queryBuilder{...}`: a fresh struct on the heap. -/
def newBuilder (h : Heap) (b : queryBuilder) : Heap × Nat :=
  ({ h with builders := fun q => if q = h.nextBuilder then b else h.builders q,
            nextBuilder := h.nextBuilder + 1 }, h.nextBuilder)

/-! ## Builder state and mutators -/

/-- `newQueryBuilder`. -/
def newQueryBuilder (h : Heap) : Heap × Nat :=
  newBuilder h { zeroBuilder with ignoreZeroValue := true }

/-- `copy`: a new struct with six of the seven fields of the receiver; the
slice headers are copied, not the arrays, and `argNum` is left at zero. -/
def copy (h : Heap) (builder : Nat) : Heap × Nat :=
  newBuilder h
    { query := (h.builders builder).query,
      tableName := (h.builders builder).tableName,
      columns := (h.builders builder).columns,
      whereConditions := (h.builders builder).whereConditions,
      placeholderType := (h.builders builder).placeholderType,
      argNum := 0,
      ignoreZeroValue := (h.builders builder).ignoreZeroValue }

/-- `placeholder`. -/
def placeholder (h : Heap) (builder : Nat) (placeholderType : Int) : Heap × Nat :=
  let (h1, copied) := copy h builder
  (setBuilder h1 copied { h1.builders copied with placeholderType := placeholderType }, copied)

/-- `table`. -/
def table (h : Heap) (builder : Nat) (tableName : String) : Heap × Nat :=
  let (h1, copied) := copy h builder
  (setBuilder h1 copied { h1.builders copied with tableName := tableName }, copied)

/-- The loop of `column`: `copied.columns = append(copied.columns, column)`
for each argument. -/
def columnLoop (copied : Nat) : List String → Heap → Heap
  | [], h => h
  | column :: rest, h =>
    let (h1, s) := appendStr h (h.builders copied).columns column
    columnLoop copied rest (setBuilder h1 copied { h1.builders copied with columns := s })

/-- `column`. -/
def column (h : Heap) (builder : Nat) (columns : List String) : Heap × Nat :=
  let (h1, copied) := copy h builder
  (columnLoop copied columns h1, copied)

/-! ## Struct reflection for `model` -/

/-- The value of a struct field as `reflect` sees it: the kinds the program
distinguishes are pointer and non-pointer, nil and non-nil, zero and
non-zero.  `other` is a value of any further non-pointer kind (a float, a
nested struct, a `time.Time`), given with whether it is the zero value of its
type. -/
inductive FieldValue where
  | int (i : Int)
  | str (s : String)
  | bool (b : Bool)
  | ptr (target : Option FieldValue)
  | other (zero : Bool)
  deriving Repr

/-- `fieldValue.Type().Kind() == reflect.Ptr`. -/
def FieldValue.kindIsPtr : FieldValue → Bool
  | .ptr _ => true
  | _ => false

/-- `fieldValue.IsNil()`, called on pointers only. -/
def FieldValue.IsNil : FieldValue → Bool
  | .ptr none => true
  | _ => false

/-- `fieldValue.IsZero()`. -/
def FieldValue.IsZero : FieldValue → Bool
  | .int i => i == 0
  | .str s => s == ""
  | .bool b => !b
  | .ptr t => t.isNone
  | .other zero => zero

/-- A struct field: its tag as key/value pairs and its value. -/
structure StructField where
  tag : List (String × String)
  value : FieldValue
  deriving Repr

/-- `field.Tag.Get(key)`: the value of the first pair with that key, `""` when
there is none. -/
def tagGet (tag : List (String × String)) (key : String) : String :=
  match tag.lookup key with
  | some v => v
  | none => ""

/-- The `interface{}` argument of `model` as `reflect` sees it. -/
inductive Interface where
  | structValue (fields : List StructField)
  | structPtr (fields : List StructField)
  | nilStructPtr (tags : List (List (String × String)))
  | other
  deriving Repr

/-- The loop of `model` over the fields, in declaration order. -/
def modelLoop (builder copied : Nat) : List StructField → Heap → Heap
  | [], h => h
  | field :: rest, h =>
    if tagGet field.tag DBTag = "" then modelLoop builder copied rest h
    else if tagGet field.tag TableTag ≠ (h.builders builder).tableName then
      modelLoop builder copied rest h
    else if field.value.kindIsPtr && field.value.IsNil then modelLoop builder copied rest h
    else if field.value.kindIsPtr then modelLoop builder copied rest h
    else if (h.builders builder).ignoreZeroValue && field.value.IsZero then
      modelLoop builder copied rest h
    else
      let (h1, s) := appendStr h (h.builders copied).columns (tagGet field.tag DBTag)
      modelLoop builder copied rest (setBuilder h1 copied { h1.builders copied with columns := s })

/-- `model`.  The variadic `notIgnoreZeroValue` is `none` when no argument is
passed (a nil slice) and `some l` for a non-nil slice.  A panic leaves the heap
as it was when it was raised. -/
def model (h : Heap) (builder : Nat) (model : Interface)
    (notIgnoreZeroValue : Option (List Bool)) : Heap × Except String Nat :=
  match notIgnoreZeroValue with
  | some [] => (h, .error "index out of range [0] with length 0")
  | _ =>
    let h0 := match notIgnoreZeroValue with
      | some (true :: _) =>
        setBuilder h builder { h.builders builder with ignoreZeroValue := false }
      | _ => h
    let (h1, copied) := copy h0 builder
    match model with
    | .other => (h1, .error "model should be struct")
    | .nilStructPtr [] => (h1, .ok copied)
    | .nilStructPtr (_ :: _) => (h1, .error "reflect: call of reflect.Value.Field on zero Value")
    | .structValue fields => (modelLoop builder copied fields h1, .ok copied)
    | .structPtr fields => (modelLoop builder copied fields h1, .ok copied)

/-! ## Conditions -/

/-- The `bd` of the `where` family: the column, or the first bind name. -/
def bindOf (column : String) (bind : List String) : String :=
  match bind with
  | [] => column
  | b :: _ => b

/-- The shared body of the `where` family: copy the receiver, allocate the map
literal and append its reference to the copy's `whereConditions`. -/
def appendCondition (h : Heap) (builder : Nat) (c : Condition) : Heap × Nat :=
  let (h1, copied) := copy h builder
  let (h2, m) := newMap h1 c
  let (h3, s) := appendMap h2 (h2.builders copied).whereConditions m
  (setBuilder h3 copied { h3.builders copied with whereConditions := s }, copied)

/-- `where`. -/
def «where» (h : Heap) (builder : Nat) (column operator : String) (bind : List String) :
    Heap × Nat :=
  appendCondition h builder
    { column := column, operator := operator, bind := bindOf column bind, logical := "AND",
      listLength := "", subQuery := "" }

/-- `or`. -/
def or (h : Heap) (builder : Nat) (column operator : String) (bind : List String) :
    Heap × Nat :=
  appendCondition h builder
    { column := column, operator := operator, bind := bindOf column bind, logical := "OR",
      listLength := "", subQuery := "" }

/-- `whereIn`. -/
def whereIn (h : Heap) (builder : Nat) (column : String) (listLength : Int)
    (bind : List String) : Heap × Nat :=
  appendCondition h builder
    { column := column, operator := In, bind := bindOf column bind, logical := "AND",
      listLength := Itoa listLength, subQuery := "" }

/-- `whereNotIn`. -/
def whereNotIn (h : Heap) (builder : Nat) (column : String) (listLength : Int)
    (bind : List String) : Heap × Nat :=
  appendCondition h builder
    { column := column, operator := NotIn, bind := bindOf column bind, logical := "AND",
      listLength := Itoa listLength, subQuery := "" }

/-! ## Clause renderer -/

/-- `builder.argNum += 1`. -/
def incArgNum (h : Heap) (builder : Nat) : Heap :=
  setBuilder h builder { h.builders builder with argNum := (h.builders builder).argNum + 1 }

/-- The loop of `buildListBind` over `i = 0, 1, ...`; `list` is local to the
call. -/
def buildListBindLoop (builder : Nat) (bind : String) :
    List Nat → Heap → List String → Heap × List String
  | [], h, list => (h, list)
  | i :: rest, h, list =>
    if (h.builders builder).placeholderType = Named then
      buildListBindLoop builder bind rest h (list ++ [bind ++ Itoa ((i : Int) + 1)])
    else if (h.builders builder).placeholderType = DollarNumber then
      buildListBindLoop builder bind rest (incArgNum h builder)
        (list ++ ["$" ++ Itoa ((h.builders builder).argNum + 1)])
    else
      buildListBindLoop builder bind rest h (list ++ [bind])

/-- `buildListBind`.  `make([]string, 0, listLength)` panics on a negative
capacity. -/
def buildListBind (h : Heap) (builder : Nat) (bind : String) (listLength : Int) :
    Heap × Except String String :=
  if listLength < 0 then (h, .error "makeslice: cap out of range")
  else
    let (h1, list) := buildListBindLoop builder bind (List.range listLength.toNat) h []
    (h1, .ok ("(" ++ ", ".intercalate list ++ ")"))

/-- `getWhereParagraph`; `condition` is a map reference.  `fmt.Sprintf` with
`%s` verbs is concatenation; `logical`, which is spliced into the format
string, is one of `AND`, `OR` and `WHERE` in every map the program builds and
holds no formatting verb. -/
def getWhereParagraph (h : Heap) (builder : Nat) (condition : Nat) (bind : String) :
    Heap × Except String String :=
  let logical := (h.maps condition).logical
  let column := (h.maps condition).column
  let op := (h.maps condition).operator
  let sub := (h.maps condition).subQuery
  if sub ≠ "" then
    (h, .ok (logical ++ " " ++ column ++ " " ++ op ++ " (" ++ sub ++ ")"))
  else if op = IsNull ∨ op = IsNotNull then
    (h, .ok (logical ++ " " ++ column ++ " " ++ op))
  else if op = In ∨ op = NotIn then
    match buildListBind h builder bind (Atoi (h.maps condition).listLength) with
    | (h1, .ok list) => (h1, .ok (logical ++ " " ++ column ++ " " ++ op ++ " " ++ list))
    | (h1, .error e) => (h1, .error e)
  else
    (h, .ok (logical ++ " " ++ column ++ " " ++ op ++ " " ++ bind))

/-- The bind computed at the head of the loop body of `getWhereParagraphs`,
with the heap after `builder.argNum += 1`. -/
def computeBind (h : Heap) (builder : Nat) (condition : Nat) : Heap × String :=
  let op := (h.maps condition).operator
  let bind := if (h.builders builder).placeholderType = Named
    then ":" ++ (h.maps condition).bind else "?"
  if (h.builders builder).placeholderType = DollarNumber then
    if op ≠ In ∧ op ≠ NotIn then
      (incArgNum h builder, "$" ++ Itoa ((h.builders builder).argNum + 1))
    else (h, "$")
  else (h, bind)

/-- `condition["logical"] = "WHERE"`: a write through the map reference. -/
def setLogical (h : Heap) (condition : Nat) (logical : String) : Heap :=
  { h with maps := fun a => if a = condition
              then { h.maps condition with logical := logical } else h.maps a }

/-- The loop of `getWhereParagraphs` over `(index, condition)`. -/
def getWhereParagraphsLoop (builder : Nat) :
    List (Nat × Nat) → Heap → List String → Heap × Except String (List String)
  | [], h, paragraphs => (h, .ok paragraphs)
  | (index, condition) :: rest, h, paragraphs =>
    let (h1, bind) := computeBind h builder condition
    let h2 := if index = 0 then setLogical h1 condition "WHERE" else h1
    match getWhereParagraph h2 builder condition bind with
    | (h3, .ok paragraph) => getWhereParagraphsLoop builder rest h3 (paragraphs ++ [paragraph])
    | (h3, .error e) => (h3, .error e)

/-- `getWhereParagraphs`.  `range` evaluates the slice header once; the loop
body writes to no backing array, so the map references it visits are those of
the slice at entry. -/
def getWhereParagraphs (h : Heap) (builder : Nat) : Heap × Except String (List String) :=
  getWhereParagraphsLoop builder
    ((mapAddrs h (h.builders builder).whereConditions).enum) h []

/-! ## The renderer as a function of the condition values

`getWhereParagraphs` reads of the heap only the placeholder mode and the
counter of the builder and the maps its slice refers to, and writes only the
counter and the `logical` entry of the first map.  The functions below compute
the same fragments and the same final counter from these values alone
(`getWhereParagraphs_eq`). -/

/-- The heap with `builder.argNum` set to `k`: the net effect of the
increments of a render that leaves the counter at `k`. -/
def setArgNum (h : Heap) (builder : Nat) (k : Int) : Heap :=
  setBuilder h builder { h.builders builder with argNum := k }

/-- The heap after the write `condition["logical"] = "WHERE"` of the first
iteration of `getWhereParagraphs`. -/
def markFirst (h : Heap) (builder : Nat) : Heap :=
  match mapAddrs h (h.builders builder).whereConditions with
  | [] => h
  | a :: _ => setLogical h a "WHERE"

/-- The bind and the counter that `computeBind` yields for a condition `c`
under `mode` at counter `k`. -/
def bindFor (mode : Int) (k : Int) (c : Condition) : String × Int :=
  if mode = DollarNumber then
    if c.operator ≠ In ∧ c.operator ≠ NotIn then ("$" ++ Itoa (k + 1), k + 1) else ("$", k)
  else (if mode = Named then ":" ++ c.bind else "?", k)

/-- The elements that `buildListBindLoop` appends for a list of `n`
placeholders at counter `k`. -/
def listBinds (mode : Int) (bind : String) (k : Int) (n : Nat) : List String :=
  (List.range n).map fun (i : Nat) =>
    if mode = Named then bind ++ Itoa ((i : Int) + 1)
    else if mode = DollarNumber then "$" ++ Itoa (k + (i : Int) + 1)
    else bind

/-- The counter after `buildListBindLoop` has appended `n` placeholders. -/
def listCounter (mode : Int) (k : Int) (n : Nat) : Int :=
  if mode = Named then k else if mode = DollarNumber then k + (n : Int) else k

/-- The fragment and the counter that `getWhereParagraph` yields for a
condition `c` and a bind under `mode` at counter `k`. -/
def paragraphWith (mode : Int) (k : Int) (c : Condition) (bind : String) :
    Except String String × Int :=
  if c.subQuery ≠ "" then
    (.ok (c.logical ++ " " ++ c.column ++ " " ++ c.operator ++ " (" ++ c.subQuery ++ ")"), k)
  else if c.operator = IsNull ∨ c.operator = IsNotNull then
    (.ok (c.logical ++ " " ++ c.column ++ " " ++ c.operator), k)
  else if c.operator = In ∨ c.operator = NotIn then
    if Atoi c.listLength < 0 then (.error "makeslice: cap out of range", k)
    else
      (.ok (c.logical ++ " " ++ c.column ++ " " ++ c.operator ++ " " ++
          ("(" ++ ", ".intercalate (listBinds mode bind k (Atoi c.listLength).toNat) ++ ")")),
        listCounter mode k (Atoi c.listLength).toNat)
  else
    (.ok (c.logical ++ " " ++ c.column ++ " " ++ c.operator ++ " " ++ bind), k)

/-- One iteration of the loop of `getWhereParagraphs` on a condition whose
`logical` entry is already final. -/
def paragraphOf (mode : Int) (k : Int) (c : Condition) : Except String String × Int :=
  paragraphWith mode (bindFor mode k c).2 c (bindFor mode k c).1

/-- The fragments of a sequence of conditions and the counter the render
stops at, from the counter `k`. -/
def paragraphsOf (mode : Int) : Int → List Condition → Except String (List String) × Int
  | k, [] => (.ok [], k)
  | k, c :: cs =>
    match (paragraphOf mode k c).1 with
    | .ok p =>
      match (paragraphsOf mode (paragraphOf mode k c).2 cs).1 with
      | .ok ps => (.ok (p :: ps), (paragraphsOf mode (paragraphOf mode k c).2 cs).2)
      | .error e => (.error e, (paragraphsOf mode (paragraphOf mode k c).2 cs).2)
    | .error e => (.error e, (paragraphOf mode k c).2)

/-- The result of a render with `acc` in front of its fragments. -/
def prependOk (acc : List String) : Except String (List String) → Except String (List String)
  | .ok ps => .ok (acc ++ ps)
  | .error e => .error e

/-- Every map reference held by the builder at `p` is allocated, and no
reference is held twice: what `copy` and the `where` family maintain. -/
def CondsOK (h : Heap) (p : Nat) : Prop :=
  (mapAddrs h (h.builders p).whereConditions).Nodup ∧
  ∀ a ∈ mapAddrs h (h.builders p).whereConditions, a < h.nextMap

instance (h : Heap) (p : Nat) : Decidable (CondsOK h p) := by
  unfold CondsOK; infer_instance

/-- An operator that is a plain comparison: none of `IN`, `NOT IN`,
`IS NULL`, `IS NOT NULL`. -/
def plainOp (op : String) : Prop :=
  op ≠ In ∧ op ≠ NotIn ∧ op ≠ IsNull ∧ op ≠ IsNotNull

instance (op : String) : Decidable (plainOp op) := by
  unfold plainOp; infer_instance

/-- The arguments of one call `where(column, operator, bind...)`. -/
structure WhereCall where
  column : String
  operator : String
  bind : List String
  deriving Repr

/-- A chain `b.where(...).where(...)...`, one call per element. -/
def whereChain : List WhereCall → Heap → Nat → Heap × Nat
  | [], h, b => (h, b)
  | w :: ws, h, b => whereChain ws («where» h b w.column w.operator w.bind).1
      («where» h b w.column w.operator w.bind).2

/-! ## Vocabulary of the statements -/

/-- The builder `r.2` in the heap `r.1` holds the conditions of the builder `b`
in `h` followed by `c`, and has the table, columns, placeholder mode and
zero-value-skip flag of `b`. -/
def AppendsOne (h : Heap) (b : Nat) (r : Heap × Nat) (c : Condition) : Prop :=
  conditionsOf r.1 r.2 = conditionsOf h b ++ [c] ∧
  (r.1.builders r.2).tableName = (h.builders b).tableName ∧
  columnsOf r.1 r.2 = columnsOf h b ∧
  (r.1.builders r.2).placeholderType = (h.builders b).placeholderType ∧
  (r.1.builders r.2).ignoreZeroValue = (h.builders b).ignoreZeroValue

/-- The map that `where(column, operator, bind...)` allocates. -/
def whereCondition (w : WhereCall) : Condition :=
  { column := w.column, operator := w.operator, bind := bindOf w.column w.bind,
    logical := "AND", listLength := "", subQuery := "" }

/-- The conditions as the renderer's loop reads them: the `logical` entry of
the first one overwritten with `WHERE`. -/
def markHead : List Condition → List Condition
  | [] => []
  | c :: cs => { c with logical := "WHERE" } :: cs

/-- The flag that a call of `model` passes after the struct: the first of the
variadic arguments, `false` when there is none. -/
def forceFlag : Option (List Bool) → Bool
  | some (x :: _) => x
  | _ => false

/-! ## Builders of the tests and of the examples -/

/-- The chain `newQueryBuilder().placeholder(mode)`. -/
def start (mode : Int) : Heap × Nat :=
  placeholder (newQueryBuilder emptyHeap).1 (newQueryBuilder emptyHeap).2 mode

/-- The chain `newQueryBuilder().table("users")`. -/
def usersTable : Heap × Nat :=
  table (newQueryBuilder emptyHeap).1 (newQueryBuilder emptyHeap).2 "users"

/-- The struct `User` of the tests with the given field values. -/
def User (userID name : String) (age : Int) (sex : String) : List StructField :=
  [⟨[("db", "user_id"), ("table", "users")], .str userID⟩,
   ⟨[("db", "name"), ("table", "users")], .str name⟩,
   ⟨[("db", "age"), ("table", "users")], .int age⟩,
   ⟨[("db", "sex"), ("table", "users")], .str sex⟩]

/-- The chain `start(DollarNumber).where("a", "=")`. -/
def oneScalar : Heap × Nat :=
  «where» (start DollarNumber).1 (start DollarNumber).2 "a" "=" []

/-- The chain `start(DollarNumber).where("a", IsNull).where("b", "=")`. -/
def nullThenScalar : Heap × Nat :=
  whereChain [⟨"a", IsNull, []⟩, ⟨"b", "=", []⟩] (start DollarNumber).1 (start DollarNumber).2

/-- The chain `start(DollarNumber).where("b", "=").where("a", IsNull)
.whereIn("c", 2).where("d", "=")`. -/
def nullThenList : Heap × Nat :=
  let r1 := whereChain [⟨"b", "=", []⟩, ⟨"a", IsNull, []⟩]
    (start DollarNumber).1 (start DollarNumber).2
  let r2 := whereIn r1.1 r1.2 "c" 2 []
  «where» r2.1 r2.2 "d" "=" []

/-- The chain `newQueryBuilder().column("a", "b", "c")`: the base `B` of two
sibling mutations. -/
def threeColumns : Heap × Nat :=
  column (newQueryBuilder emptyHeap).1 (newQueryBuilder emptyHeap).2 ["a", "b", "c"]

/-- The sibling `B1 = B.column("x")`. -/
def siblingX : Heap × Nat := column threeColumns.1 threeColumns.2 ["x"]

/-- The sibling `B2 = B.column("y")`, made after `B1`. -/
def siblingY : Heap × Nat := column siblingX.1 threeColumns.2 ["y"]

/-- The chain `start(Named).where("user_name", "=")` of
`Test_SelectQueryBuilder_WhereIn`. -/
def userName : Heap × Nat :=
  «where» (start Named).1 (start Named).2 "user_name" "=" []

/-- The chain `start(Question).or("a", "=").or("b", ">")`: the first
condition is stored with the connector `OR`. -/
def orFirst : Heap × Nat :=
  or (or (start Question).1 (start Question).2 "a" "=" []).1
    (or (start Question).1 (start Question).2 "a" "=" []).2 "b" ">" []

/-! ## Constants and types of the second half of `query_builder.go` -/

/-- Modelled from the spec: the operator `>`. -/
def GraterThan : String := ">"

/-- Modelled from the spec: the operator `>=`. -/
def GraterThanEqual : String := ">="

/-- Modelled from the spec: the operator `<`. -/
def LessThan : String := "<"

/-- Modelled from the spec: the operator `<=`. -/
def LessThanEqual : String := "<="

/-- Modelled from the spec: the operator `!=`. -/
def NotEqual : String := "!="

/-- Modelled from the spec: the operator `LIKE`. -/
def Like : String := "LIKE"

/-- Modelled from the spec: the operator `NOT LIKE`. -/
def NotLike : String := "NOT LIKE"

/-- Modelled from the spec: the struct tag key holding a field's operator code
(`operator:"eq"` in the tests). -/
def OperatorTag : String := "operator"

/-- The message of `SubQueryEmptyErr`. -/
def SubQueryEmptyErr : String := "subQuery is required. this should be not empty"

/-- The message of `SubQueryReturnMultiRowsErr`. -/
def SubQueryReturnMultiRowsErr : String :=
  "subQuery returns multi rows. set limit and specify single row"

/-- The message of `UnspecifiedColumnErr`. -/
def UnspecifiedColumnErr : String := "subQuery column should be specified"

/-- Modelled from the spec: what `whereSubQuery` reads of a
`*SelectQueryBuilder`, whose declaration and `Build` method are not among the
sources: the selected columns, the entry `limit["use"]` (`none` when it is nil,
otherwise the boolean it holds) and the statement that `Build()` returns. -/
structure SelectQueryBuilder where
  columns : List String
  limitUse : Option Bool
  built : String
  deriving Repr

/-- Go `strings.TrimRight(s, ";")`: `s` without its trailing `;` characters. -/
def TrimRight (s : String) : String :=
  ⟨(s.data.reverse.dropWhile fun c => c == ';').reverse⟩

/-! ## `omit` -/

/-- Go `make([]string, 0, cap)`: a fresh backing array. -/
def makeStr (h : Heap) (cap : Nat) : Heap × Slice :=
  ({ h with strArrays := fun a => if a = h.nextStrArray then fun _ => "" else h.strArrays a,
            nextStrArray := h.nextStrArray + 1 },
   ⟨h.nextStrArray, 0, cap⟩)

/-- The first loop of `omit`: `m[column] = &np` for every column.  The local
`map[string]*string` is a function to the string pointed to, `none` for a
missing key (a nil pointer); `dic` receives the columns themselves. -/
def omitIndex : List String → (String → Option String) → (String → Option String)
  | [], m => m
  | column :: rest, m => omitIndex rest (fun k => if k = column then some column else m k)

/-- The second loop of `omit`: `delete(m, target)` for every target that is a
key. -/
def omitDelete : List String → (String → Option String) → (String → Option String)
  | [], m => m
  | target :: rest, m =>
    if m target = none then omitDelete rest m
    else omitDelete rest (fun k => if k = target then none else m k)

/-- The third loop of `omit`: `sorted = append(sorted, *m[column])` for every
column of `dic` that is still a key. -/
def omitCollect : List String → (String → Option String) → Heap → Slice → Heap × Slice
  | [], _, h, sorted => (h, sorted)
  | column :: rest, m, h, sorted =>
    match m column with
    | none => omitCollect rest m h sorted
    | some v => omitCollect rest m (appendStr h sorted v).1 (appendStr h sorted v).2

/-- `omit`.  `make([]string, 0, len(copied.columns)-len(targets))` panics on a
negative capacity. -/
def «omit» (h : Heap) (builder : Nat) (targets : List String) : Heap × Except String Nat :=
  let (h1, copied) := copy h builder
  let dic := strView h1 (h1.builders copied).columns
  let m := omitDelete targets (omitIndex dic (fun _ => none))
  if ((h1.builders copied).columns.len : Int) - (targets.length : Int) < 0 then
    (h1, .error "makeslice: cap out of range")
  else
    let (h2, sorted0) := makeStr h1 ((h1.builders copied).columns.len - targets.length)
    let (h3, sorted) := omitCollect dic m h2 sorted0
    (setBuilder h3 copied { h3.builders copied with columns := sorted }, .ok copied)

/-! ## `whereMultiByStruct` -/

/-- `getOperatorFromTag`. -/
def getOperatorFromTag (tag : String) : String :=
  if tag = "eq" then Equal
  else if tag = "gt" then GraterThan
  else if tag = "gte" then GraterThanEqual
  else if tag = "lt" then LessThan
  else if tag = "lte" then LessThanEqual
  else if tag = "ne" then NotEqual
  else if tag = "like" then Like
  else if tag = "not-like" then NotLike
  else if tag = "is-null" then IsNull
  else if tag = "not-null" then IsNotNull
  else ""

/-- One inner map of `buildBindMap`, with the keys `target`, `operator` and
`bind`; a key that was never written reads as `""`. -/
structure BindInfo where
  target : String
  operator : String
  bind : String
  deriving DecidableEq, Repr

/-- The first loop of `buildBindMap` over the fields: `bindMap`, keyed by the
bind tag, and `dic`, the bind tags in field order. -/
def buildBindMapLoop (targetTag : String) :
    List StructField → (String → BindInfo) → List String → (String → BindInfo) × List String
  | [], bindMap, dic => (bindMap, dic)
  | field :: rest, bindMap, dic =>
    if field.value.kindIsPtr && field.value.IsNil then
      buildBindMapLoop targetTag rest bindMap dic
    else if tagGet field.tag DBTag = "" ∨ tagGet field.tag targetTag = "" ∨
        tagGet field.tag OperatorTag = "" then
      buildBindMapLoop targetTag rest bindMap dic
    else
      buildBindMapLoop targetTag rest
        (fun k => if k = tagGet field.tag targetTag
          then ⟨tagGet field.tag DBTag, tagGet field.tag OperatorTag, ""⟩ else bindMap k)
        (dic ++ [tagGet field.tag targetTag])

/-- `buildBindMap` with `getReflectTypeAndValue`: the second loop writes
`bindMap[key]["bind"] = key` and collects `bindMap[key]` for every key of
`dic`.  The builder is not read. -/
def buildBindMap (targetTag : String) (src : Interface) : Except String (List BindInfo) :=
  match src with
  | .other => .error "reflect: NumField of non-struct type"
  | .nilStructPtr [] => .ok []
  | .nilStructPtr (_ :: _) => .error "reflect: call of reflect.Value.Field on zero Value"
  | .structValue fields =>
    .ok ((buildBindMapLoop targetTag fields (fun _ => ⟨"", "", ""⟩) []).2.map fun key =>
      { (buildBindMapLoop targetTag fields (fun _ => ⟨"", "", ""⟩) []).1 key with bind := key })
  | .structPtr fields =>
    .ok ((buildBindMapLoop targetTag fields (fun _ => ⟨"", "", ""⟩) []).2.map fun key =>
      { (buildBindMapLoop targetTag fields (fun _ => ⟨"", "", ""⟩) []).1 key with bind := key })

/-- The loop of `whereMultiByStruct`: `copied = copied.where(...)` for every
entry whose operator code is mapped. -/
def whereMultiByStructLoop : List BindInfo → Heap → Nat → Heap × Nat
  | [], h, copied => (h, copied)
  | info :: rest, h, copied =>
    if getOperatorFromTag info.operator = "" then whereMultiByStructLoop rest h copied
    else whereMultiByStructLoop rest
      («where» h copied info.target (getOperatorFromTag info.operator) [info.bind]).1
      («where» h copied info.target (getOperatorFromTag info.operator) [info.bind]).2

/-- `whereMultiByStruct`. -/
def whereMultiByStruct (h : Heap) (builder : Nat) (targetTag : String) (src : Interface) :
    Heap × Except String Nat :=
  let (h1, copied) := copy h builder
  match buildBindMap targetTag src with
  | .error e => (h1, .error e)
  | .ok searchMap =>
    ((whereMultiByStructLoop searchMap h1 copied).1,
     .ok (whereMultiByStructLoop searchMap h1 copied).2)

/-! ## `whereSubQuery` -/

/-- `whereSubQuery`; a nil `subQueryBuilder` is `none`. -/
def whereSubQuery (h : Heap) (builder : Nat) (column operator : String)
    (subQueryBuilder : Option SelectQueryBuilder) : Heap × Except String Nat :=
  let (h1, copied) := copy h builder
  match subQueryBuilder with
  | none => (h1, .error SubQueryEmptyErr)
  | some sub =>
    if sub.columns.length = 0 ∨ sub.columns.length > 1 then (h1, .error UnspecifiedColumnErr)
    else if sub.limitUse ≠ none ∧ sub.limitUse = some false then
      (h1, .error SubQueryReturnMultiRowsErr)
    else
      let (h2, m) := newMap h1
        { column := column, operator := operator, bind := "", logical := "AND",
          listLength := "", subQuery := TrimRight sub.built }
      let (h3, s) := appendMap h2 (h2.builders copied).whereConditions m
      (setBuilder h3 copied { h3.builders copied with whereConditions := s }, .ok copied)

/-- A field that `buildBindMap` records: not an absent pointer, and carrying a
column tag, a bind-label tag named `targetTag` and an operator-code tag. -/
def carriesTags (targetTag : String) (f : StructField) : Bool :=
  !(f.value.kindIsPtr && f.value.IsNil) && decide (tagGet f.tag DBTag ≠ "") &&
  decide (tagGet f.tag targetTag ≠ "") && decide (tagGet f.tag OperatorTag ≠ "")

/-- A field accepted by `whereMultiByStruct`: recorded by `buildBindMap` and
with an operator code of the fixed table. -/
def acceptedField (targetTag : String) (f : StructField) : Bool :=
  carriesTags targetTag f && decide (getOperatorFromTag (tagGet f.tag OperatorTag) ≠ "")

/-- The condition that `where(column tag, mapped operator, bind-label tag)`
appends for a field. -/
def fieldCondition (targetTag : String) (f : StructField) : Condition :=
  { column := tagGet f.tag DBTag, operator := getOperatorFromTag (tagGet f.tag OperatorTag),
    bind := tagGet f.tag targetTag, logical := "AND", listLength := "", subQuery := "" }

/-- The conditions of the builder that a mutator returned, read in the heap it
left; `none` when the mutator panicked. -/
def resultConditions (r : Heap × Except String Nat) : Option (List Condition) :=
  match r.2 with
  | .ok c => some (conditionsOf r.1 c)
  | .error _ => none

/-- A struct with one pointer-typed field `Name *string` tagged
`db:"name" table:"users"`, pointing to `"hoge"`. -/
def pointerName : List StructField :=
  [⟨[("db", "name"), ("table", "users")], .ptr (some (.str "hoge"))⟩]

/-- The chain `newQueryBuilder().table("users").column("user_id", "name",
"age", "sex")`. -/
def userColumns : Heap × Nat :=
  column usersTable.1 usersTable.2 ["user_id", "name", "age", "sex"]

/-- A search struct with two present fields that share the bind label `x`:
`db:"a" search:"x" operator:"eq"` and `db:"b" search:"x"` with the given
operator code. -/
def sharedLabel (code : String) : List StructField :=
  [⟨[("db", "a"), ("search", "x"), ("operator", "eq")], .int 1⟩,
   ⟨[("db", "b"), ("search", "x"), ("operator", code)], .int 1⟩]

/-- A search struct with three present fields with the bind labels `x`, `y`
and `z`; the code of the second one is not in the table. -/
def threeLabels : List StructField :=
  [⟨[("db", "a"), ("search", "x"), ("operator", "eq")], .int 1⟩,
   ⟨[("db", "b"), ("search", "y"), ("operator", "bogus")], .int 1⟩,
   ⟨[("db", "c"), ("search", "z"), ("operator", "not-null")], .int 1⟩]

/-- The struct of the example: `search:"price" operator:"gt"` and
`search:"owner" operator:"not"`, both pointers present; `withDB` adds the tags
`db:"price"` and `db:"owner"`. -/
def priceOwner (withDB : Bool) : List StructField :=
  [⟨(if withDB then [("db", "price")] else []) ++ [("search", "price"), ("operator", "gt")],
      .ptr (some (.int 1000))⟩,
   ⟨(if withDB then [("db", "owner")] else []) ++ [("search", "owner"), ("operator", "not")],
      .ptr (some (.str "owner1"))⟩]

/-- A sub-builder that selects one column and on which no limit was set. -/
def unlimitedSub : SelectQueryBuilder :=
  { columns := ["id"], limitUse := none, built := "SELECT tasks.id FROM tasks;" }

/-- The fragments of the builder that a mutator returned, rendered in the heap
it left; `none` when the mutator panicked. -/
def resultParagraphs (r : Heap × Except String Nat) : Option (Except String (List String)) :=
  match r.2 with
  | .ok c => some (getWhereParagraphs r.1 c).2
  | .error _ => none

/-- The chain `start(DollarNumber).where("a", IsNull)` followed by
`whereSubQuery("b", "IN", sub)` with the built statement `SELECT t.b FROM t;`
and `limit["use"]` true. -/
def nullThenSub : Heap × Nat :=
  let r1 := «where» (start DollarNumber).1 (start DollarNumber).2 "a" IsNull []
  match whereSubQuery r1.1 r1.2 "b" In (some ⟨["b"], some true, "SELECT t.b FROM t;"⟩) with
  | (h, .ok c) => (h, c)
  | (h, .error _) => (h, r1.2)

/-- The amount by which the render of one condition advances the counter in
Sequential mode: 1 when the operator is neither `IN` nor `NOT IN`
(`computeBind`), the list length for a list without subquery text
(`buildListBindLoop`), nothing for a list with subquery text. -/
def counterStep (c : Condition) : Int :=
  if c.operator ≠ In ∧ c.operator ≠ NotIn then 1
  else if c.subQuery = "" then Atoi c.listLength else 0

/-- The chain `start(DollarNumber).where("a", IsNull)`, rendered once: the base
`B` with the heap its render left. -/
def renderedNull : Heap × Nat :=
  ((getWhereParagraphs («where» (start DollarNumber).1 (start DollarNumber).2 "a" IsNull []).1
      («where» (start DollarNumber).1 (start DollarNumber).2 "a" IsNull []).2).1,
   («where» (start DollarNumber).1 (start DollarNumber).2 "a" IsNull []).2)

/-- The builder `B.where("b", "=")` derived from the rendered `B`. -/
def derivedScalar : Heap × Nat := «where» renderedNull.1 renderedNull.2 "b" "=" []

/-- The chain `start(DollarNumber).where("a", IsNull).whereIn("c", 2)
.where("d", "=")` followed by `whereSubQuery("e", "IN", sub)`. -/
def mixedConditions : Heap × Nat :=
  let r1 := «where» (start DollarNumber).1 (start DollarNumber).2 "a" IsNull []
  let r2 := whereIn r1.1 r1.2 "c" 2 []
  let r3 := «where» r2.1 r2.2 "d" "=" []
  match whereSubQuery r3.1 r3.2 "e" In (some ⟨["e"], some true, "SELECT t.e FROM t;"⟩) with
  | (h, .ok c) => (h, c)
  | (h, .error _) => (h, r3.2)

/-! ## Chains of the methods that add a condition -/

/-- A call of one of the five methods that add one condition, with its
arguments. -/
inductive AddCall
  | viaWhere (column operator : String) (bind : List String)
  | viaOr (column operator : String) (bind : List String)
  | viaWhereIn (column : String) (listLength : Int) (bind : List String)
  | viaWhereNotIn (column : String) (listLength : Int) (bind : List String)
  | viaWhereSubQuery (column operator : String) (subQueryBuilder : Option SelectQueryBuilder)

/-- The call `builder.m(args...)` of the method and arguments that `call`
names; of the five methods only `whereSubQuery` can fail. -/
def runCall (h : Heap) (builder : Nat) : AddCall → Heap × Except String Nat
  | .viaWhere column operator bind =>
    ((«where» h builder column operator bind).1, .ok («where» h builder column operator bind).2)
  | .viaOr column operator bind =>
    ((or h builder column operator bind).1, .ok (or h builder column operator bind).2)
  | .viaWhereIn column listLength bind =>
    ((whereIn h builder column listLength bind).1,
      .ok (whereIn h builder column listLength bind).2)
  | .viaWhereNotIn column listLength bind =>
    ((whereNotIn h builder column listLength bind).1,
      .ok (whereNotIn h builder column listLength bind).2)
  | .viaWhereSubQuery column operator subQueryBuilder =>
    whereSubQuery h builder column operator subQueryBuilder

/-- A chain `builder.m1(...).m2(...)...`, each call made on the builder the
call before it returned; the chain ends at the first call that fails. -/
def addChain : List AddCall → Heap → Nat → Heap × Except String Nat
  | [], h, builder => (h, .ok builder)
  | call :: rest, h, builder =>
    match (runCall h builder call).2 with
    | .ok next => addChain rest (runCall h builder call).1 next
    | .error e => ((runCall h builder call).1, .error e)

/-- The connector that the specification gives to the condition a call adds:
`OR` for `or`, `AND` for the four other methods. -/
def claimedConnector : AddCall → String
  | .viaOr _ _ _ => "OR"
  | _ => "AND"

/-- The map literal in the body of the method that `call` names. -/
def addedCondition : AddCall → Condition
  | .viaWhere column operator bind =>
    { column := column, operator := operator, bind := bindOf column bind, logical := "AND",
      listLength := "", subQuery := "" }
  | .viaOr column operator bind =>
    { column := column, operator := operator, bind := bindOf column bind, logical := "OR",
      listLength := "", subQuery := "" }
  | .viaWhereIn column listLength bind =>
    { column := column, operator := In, bind := bindOf column bind, logical := "AND",
      listLength := Itoa listLength, subQuery := "" }
  | .viaWhereNotIn column listLength bind =>
    { column := column, operator := NotIn, bind := bindOf column bind, logical := "AND",
      listLength := Itoa listLength, subQuery := "" }
  | .viaWhereSubQuery column operator (some sub) =>
    { column := column, operator := operator, bind := "", logical := "AND",
      listLength := "", subQuery := TrimRight sub.built }
  | .viaWhereSubQuery column operator none =>
    { column := column, operator := operator, bind := "", logical := "AND",
      listLength := "", subQuery := "" }

/-- A condition on which `getWhereParagraph` reaches
`make([]string, 0, listLength)` with a negative `listLength`: no subquery
text, operator `IN` or `NOT IN`, and a stored length that reads as a negative
number. -/
def negativeList (c : Condition) : Prop :=
  c.subQuery = "" ∧ (c.operator = In ∨ c.operator = NotIn) ∧ Atoi c.listLength < 0

instance (c : Condition) : Decidable (negativeList c) := by
  unfold negativeList; infer_instance

/-- The calls `or("a", "=")`, `where("b", ">")`, `whereIn("c", 2)`,
`or("d", "<")`, `whereSubQuery("e", "IN", sub)`, `whereNotIn("f", 1)`. -/
def sixCalls : List AddCall :=
  [.viaOr "a" "=" [], .viaWhere "b" ">" [], .viaWhereIn "c" 2 [], .viaOr "d" "<" [],
    .viaWhereSubQuery "e" In (some ⟨["e"], some true, "SELECT t.e FROM t;"⟩),
    .viaWhereNotIn "f" 1 []]

/-- The calls `where("a", "=")`, `whereIn("c", 0)`, `or("d", "<")`. -/
def zeroListCalls : List AddCall :=
  [.viaWhere "a" "=" [], .viaWhereIn "c" 0 [], .viaOr "d" "<" []]

/-- The calls `whereIn("c", -1)`, `where("d", "=")`. -/
def negativeListCalls : List AddCall :=
  [.viaWhereIn "c" (-1) [], .viaWhere "d" "=" []]

/-! # Library facts: `strconv.Atoi` inverts `strconv.Itoa` -/

theorem digitChar_isDigit (d : Nat) (hd : d < 10) :
    (Nat.digitChar d).isDigit = true ∧ (Nat.digitChar d).toNat - 48 = d := by
  interval_cases d <;> exact ⟨by decide, by decide⟩

theorem atoiDigits_toDigitsCore (fuel : Nat) : ∀ (n : Nat) (ds : List Char), n < fuel →
    atoiDigits (Nat.toDigitsCore 10 fuel n ds) 0 = atoiDigits ds n := by
  induction fuel with
  | zero => intro n ds hn; omega
  | succ fuel ih =>
    intro n ds hn
    have hd := digitChar_isDigit (n % 10) (Nat.mod_lt _ (by decide))
    simp only [Nat.toDigitsCore]
    split
    · rename_i h0
      have : n % 10 = n := by omega
      simp only [atoiDigits, hd.1, if_true, hd.2]
      congr 1; omega
    · rename_i h0
      rw [ih (n / 10) _ (by omega)]
      simp only [atoiDigits, hd.1, if_true, hd.2]
      congr 1; omega

theorem toDigitsCore_head (fuel : Nat) : ∀ (n : Nat) (ds : List Char), n < fuel →
    ∃ c cs, Nat.toDigitsCore 10 fuel n ds = c :: cs ∧ c.isDigit = true := by
  induction fuel with
  | zero => intro n ds hn; omega
  | succ fuel ih =>
    intro n ds hn
    have hd := digitChar_isDigit (n % 10) (Nat.mod_lt _ (by decide))
    simp only [Nat.toDigitsCore]
    split
    · exact ⟨_, _, rfl, hd.1⟩
    · exact ih (n / 10) _ (by omega)

theorem atoiUnsigned_toDigits (n : Nat) : atoiUnsigned (Nat.toDigits 10 n) = some n := by
  obtain ⟨c, cs, hc, _⟩ := toDigitsCore_head (n + 1) n [] (by omega)
  have h := atoiDigits_toDigitsCore (n + 1) n [] (by omega)
  unfold atoiUnsigned Nat.toDigits
  rw [if_neg (by rw [hc]; simp)]
  rw [h]; rfl

theorem Atoi_Itoa (n : Int) : Atoi (Itoa n) = n := by
  cases n with
  | ofNat m =>
    obtain ⟨c, cs, hc, hdig⟩ := toDigitsCore_head (m + 1) m [] (by omega)
    have hdata : (Itoa (Int.ofNat m)).data = Nat.toDigits 10 m := rfl
    have hu := atoiUnsigned_toDigits m
    unfold Atoi
    rw [hdata]
    unfold Nat.toDigits at hu ⊢
    rw [hc] at hu ⊢
    split
    · rename_i heq; injection heq with h1 h2; subst h1; exact absurd hdig (by decide)
    · rename_i heq; injection heq with h1 h2; subst h1; exact absurd hdig (by decide)
    · simp [hu]
  | negSucc m =>
    have hdata : (Itoa (Int.negSucc m)).data = '-' :: Nat.toDigits 10 (m + 1) := rfl
    unfold Atoi
    rw [hdata]
    simp only [atoiUnsigned_toDigits]
    rfl

/-! ### Heap algebra -/

theorem setBuilder_setBuilder (h : Heap) (p : Nat) (x y : queryBuilder) :
    setBuilder (setBuilder h p x) p y = setBuilder h p y := by
  unfold setBuilder
  congr 1
  funext q
  by_cases hq : q = p <;> simp [hq]

theorem setBuilder_self (h : Heap) (p : Nat) : setBuilder h p (h.builders p) = h := by
  cases h
  unfold setBuilder
  congr 1
  funext q
  by_cases hq : q = p <;> simp [hq]

theorem setArgNum_self (h : Heap) (p : Nat) : setArgNum h p (h.builders p).argNum = h :=
  setBuilder_self h p

theorem setArgNum_setArgNum (h : Heap) (p : Nat) (j k : Int) :
    setArgNum (setArgNum h p j) p k = setArgNum h p k := by
  unfold setArgNum
  rw [setBuilder_setBuilder]
  simp [setBuilder]

theorem setArgNum_builders (h : Heap) (p : Nat) (k : Int) :
    (setArgNum h p k).builders p = { h.builders p with argNum := k } := by
  simp [setArgNum, setBuilder]

theorem setArgNum_maps (h : Heap) (p : Nat) (k : Int) : (setArgNum h p k).maps = h.maps := rfl

theorem incArgNum_eq (h : Heap) (p : Nat) :
    incArgNum h p = setArgNum h p ((h.builders p).argNum + 1) := rfl

/-! ### The list loop -/

theorem buildListBindLoop_eq (b : Nat) (bind : String) :
    ∀ (n s : Nat) (h : Heap) (list : List String),
      buildListBindLoop b bind (List.range' s n) h list =
        (setArgNum h b (listCounter (h.builders b).placeholderType (h.builders b).argNum n),
         list ++ (List.range' s n).map fun (i : Nat) =>
            if (h.builders b).placeholderType = Named then bind ++ Itoa ((i : Int) + 1)
            else if (h.builders b).placeholderType = DollarNumber then
              "$" ++ Itoa ((h.builders b).argNum + ((i : Int) - (s : Int)) + 1)
            else bind) := by
  intro n
  induction n with
  | zero =>
    intro s h list
    simp [buildListBindLoop, listCounter, setArgNum_self]
  | succ n ih =>
    intro s h list
    rw [List.range'_succ]
    by_cases hN : (h.builders b).placeholderType = Named
    · rw [buildListBindLoop, if_pos hN, ih]
      simp [hN, listCounter, setArgNum_self]
    · by_cases hD : (h.builders b).placeholderType = DollarNumber
      · rw [buildListBindLoop, if_neg hN, if_pos hD, ih]
        have hpt : ((incArgNum h b).builders b).placeholderType = (h.builders b).placeholderType := by
          simp [incArgNum_eq, setArgNum_builders]
        have han : ((incArgNum h b).builders b).argNum = (h.builders b).argNum + 1 := by
          simp [incArgNum_eq, setArgNum_builders]
        rw [hpt, han, incArgNum_eq, setArgNum_setArgNum]
        refine Prod.ext ?_ ?_
        · simp only [listCounter, if_neg hN, if_pos hD]
          congr 1; push_cast; ring
        · simp only [List.map_cons, List.append_assoc, List.singleton_append, if_neg hN,
            if_pos hD]
          congr 2
          · simp
          · apply List.map_congr_left
            intro i hi
            congr 2
            push_cast; ring
      · rw [buildListBindLoop, if_neg hN, if_neg hD, ih]
        simp [hN, hD, listCounter, setArgNum_self]

theorem buildListBind_eq (h : Heap) (b : Nat) (bind : String) (n : Int) :
    buildListBind h b bind n =
      if n < 0 then (h, .error "makeslice: cap out of range")
      else (setArgNum h b (listCounter (h.builders b).placeholderType (h.builders b).argNum n.toNat),
            .ok ("(" ++ ", ".intercalate
              (listBinds (h.builders b).placeholderType bind (h.builders b).argNum n.toNat) ++ ")")) := by
  unfold buildListBind
  by_cases hn : n < 0
  · simp [hn]
  · rw [if_neg hn, if_neg hn, List.range_eq_range', buildListBindLoop_eq]
    simp [listBinds, List.range_eq_range']

theorem getWhereParagraph_eq (h : Heap) (b a : Nat) (bind : String) :
    getWhereParagraph h b a bind =
      (setArgNum h b
        (paragraphWith (h.builders b).placeholderType (h.builders b).argNum (h.maps a) bind).2,
       (paragraphWith (h.builders b).placeholderType (h.builders b).argNum (h.maps a) bind).1) := by
  unfold getWhereParagraph paragraphWith
  by_cases hs : (h.maps a).subQuery ≠ ""
  · simp only [if_pos hs, setArgNum_self]
  · simp only [if_neg hs]
    by_cases hnull : (h.maps a).operator = IsNull ∨ (h.maps a).operator = IsNotNull
    · simp only [if_pos hnull, setArgNum_self]
    · simp only [if_neg hnull]
      by_cases hin : (h.maps a).operator = In ∨ (h.maps a).operator = NotIn
      · simp only [if_pos hin, buildListBind_eq]
        by_cases hn : Atoi (h.maps a).listLength < 0
        · simp only [if_pos hn, setArgNum_self]
        · simp only [if_neg hn]
      · simp only [if_neg hin, setArgNum_self]

theorem computeBind_eq (h : Heap) (b a : Nat) :
    computeBind h b a =
      (setArgNum h b (bindFor (h.builders b).placeholderType (h.builders b).argNum (h.maps a)).2,
       (bindFor (h.builders b).placeholderType (h.builders b).argNum (h.maps a)).1) := by
  unfold computeBind bindFor
  by_cases hD : (h.builders b).placeholderType = DollarNumber
  · simp only [if_pos hD]
    by_cases hop : (h.maps a).operator ≠ In ∧ (h.maps a).operator ≠ NotIn
    · simp only [if_pos hop, incArgNum_eq]
    · simp only [if_neg hop, setArgNum_self]
  · simp only [if_neg hD, setArgNum_self]

theorem prependOk_prependOk (acc acc2 : List String) (r : Except String (List String)) :
    prependOk acc (prependOk acc2 r) = prependOk (acc ++ acc2) r := by
  cases r <;> simp [prependOk]

theorem prependOk_nil (r : Except String (List String)) : prependOk [] r = r := by
  cases r <;> simp [prependOk]

/-- The loop over conditions that are not the first: no map is written. -/
theorem getWhereParagraphsLoop_tail (b : Nat) :
    ∀ (l : List (Nat × Nat)) (h : Heap) (acc : List String), (∀ x ∈ l, x.1 ≠ 0) →
      getWhereParagraphsLoop b l h acc =
        (setArgNum h b
          (paragraphsOf (h.builders b).placeholderType (h.builders b).argNum
            (l.map fun x => h.maps x.2)).2,
         prependOk acc
          (paragraphsOf (h.builders b).placeholderType (h.builders b).argNum
            (l.map fun x => h.maps x.2)).1) := by
  intro l
  induction l with
  | nil => intro h acc _; simp [getWhereParagraphsLoop, paragraphsOf, prependOk, setArgNum_self]
  | cons x rest ih =>
    intro h acc hx
    obtain ⟨index, condition⟩ := x
    have h0 : index ≠ 0 := hx (index, condition) (by simp)
    have hrest : ∀ y ∈ rest, y.1 ≠ 0 := fun y hy => hx y (by simp [hy])
    simp only [getWhereParagraphsLoop, computeBind_eq, if_neg h0, getWhereParagraph_eq,
      setArgNum_builders, setArgNum_maps, setArgNum_setArgNum, List.map_cons, paragraphsOf]
    rw [← paragraphOf]
    cases hp : (paragraphOf (h.builders b).placeholderType (h.builders b).argNum (h.maps condition)).1 with
    | error e => simp [prependOk]
    | ok p =>
      simp only
      rw [ih _ _ hrest]
      simp only [setArgNum_builders, setArgNum_maps, setArgNum_setArgNum]
      cases hq : (paragraphsOf (h.builders b).placeholderType
          (paragraphOf (h.builders b).placeholderType (h.builders b).argNum (h.maps condition)).2
          (rest.map fun x => h.maps x.2)).1 with
      | error e => simp [prependOk]
      | ok ps => simp [prependOk]

theorem setLogical_setArgNum (h : Heap) (b a : Nat) (k : Int) (l : String) :
    setLogical (setArgNum h b k) a l = setArgNum (setLogical h a l) b k := rfl

theorem setLogical_builders (h : Heap) (a : Nat) (l : String) :
    (setLogical h a l).builders = h.builders := rfl

theorem setLogical_maps_self (h : Heap) (a : Nat) (l : String) :
    (setLogical h a l).maps a = { h.maps a with logical := l } := by
  simp [setLogical]

theorem mapAddrs_setLogical (h : Heap) (a : Nat) (l : String) (s : Slice) :
    mapAddrs (setLogical h a l) s = mapAddrs h s := rfl

theorem enumFrom_fst_ne_zero (l : List Nat) (n : Nat) :
    ∀ x ∈ List.enumFrom (n + 1) l, x.1 ≠ 0 := by
  intro x hx
  have := List.le_fst_of_mem_enumFrom hx
  omega

theorem map_snd_enumFrom {α : Type} (f : Nat → α) (l : List Nat) :
    ∀ n : Nat, (List.enumFrom n l).map (fun x => f x.2) = l.map f := by
  induction l with
  | nil => intro n; rfl
  | cons a l ih => intro n; simp [List.enumFrom_cons, ih]

/-- The renderer computes `paragraphsOf` on the conditions of the builder as
they stand after the first one has been marked `WHERE`, and leaves the heap
with that mark and the counter `paragraphsOf` stops at. -/
theorem getWhereParagraphs_eq (h : Heap) (b : Nat) :
    getWhereParagraphs h b =
      (setArgNum (markFirst h b) b
        (paragraphsOf (h.builders b).placeholderType (h.builders b).argNum
          (conditionsOf (markFirst h b) b)).2,
       (paragraphsOf (h.builders b).placeholderType (h.builders b).argNum
          (conditionsOf (markFirst h b) b)).1) := by
  unfold getWhereParagraphs markFirst conditionsOf condView
  cases haddr : mapAddrs h (h.builders b).whereConditions with
  | nil =>
    simp [getWhereParagraphsLoop, haddr, paragraphsOf, setArgNum_self]
  | cons a0 rest =>
    simp only [List.enum, List.enumFrom_cons, getWhereParagraphsLoop, computeBind_eq, if_true,
      getWhereParagraph_eq, setLogical_setArgNum, setArgNum_builders, setArgNum_maps,
      setArgNum_setArgNum, setLogical_builders, mapAddrs_setLogical, haddr, List.map_cons,
      paragraphsOf]
    have hb : bindFor (h.builders b).placeholderType (h.builders b).argNum
        ((setLogical h a0 "WHERE").maps a0) =
        bindFor (h.builders b).placeholderType (h.builders b).argNum (h.maps a0) := by
      simp [bindFor, setLogical_maps_self]
    rw [paragraphOf, hb]
    cases hp : (paragraphWith (h.builders b).placeholderType
        (bindFor (h.builders b).placeholderType (h.builders b).argNum (h.maps a0)).2
        ((setLogical h a0 "WHERE").maps a0)
        (bindFor (h.builders b).placeholderType (h.builders b).argNum (h.maps a0)).1).1 with
    | error e => simp
    | ok p =>
      simp only
      rw [getWhereParagraphsLoop_tail b _ _ _ (enumFrom_fst_ne_zero rest 0)]
      simp only [setArgNum_builders, setArgNum_maps, setArgNum_setArgNum, setLogical_builders]
      have hm : (List.enumFrom (0 + 1) rest).map (fun x => (setLogical h a0 "WHERE").maps x.2) =
          rest.map (setLogical h a0 "WHERE").maps := map_snd_enumFrom _ _ _
      rw [hm]
      cases hq : (paragraphsOf (h.builders b).placeholderType
        (paragraphWith (h.builders b).placeholderType
          (bindFor (h.builders b).placeholderType (h.builders b).argNum (h.maps a0)).2
          ((setLogical h a0 "WHERE").maps a0)
          (bindFor (h.builders b).placeholderType (h.builders b).argNum (h.maps a0)).1).2
        (rest.map (setLogical h a0 "WHERE").maps)).1 with
      | error e => simp [prependOk]
      | ok ps => simp [prependOk]

/-! ### `append` -/

theorem appendStr_view (h : Heap) (s : Slice) (x : String) :
    strView (appendStr h s x).1 (appendStr h s x).2 = strView h s ++ [x] := by
  unfold appendStr strView
  by_cases hc : s.len < s.cap
  · simp only [if_pos hc, if_true, List.range_succ, List.map_append, List.map_cons, List.map_nil]
    congr 1
    apply List.map_congr_left
    intro i hi
    have : i ≠ s.len := by have := List.mem_range.mp hi; omega
    simp [this]
  · simp only [if_neg hc, if_true, List.range_succ, List.map_append, List.map_cons, List.map_nil]
    congr 1
    · apply List.map_congr_left
      intro i hi
      have : i < s.len := List.mem_range.mp hi
      simp [this]
    · simp

theorem appendMap_addrs (h : Heap) (s : Slice) (m : Nat) :
    mapAddrs (appendMap h s m).1 (appendMap h s m).2 = mapAddrs h s ++ [m] := by
  unfold appendMap mapAddrs
  by_cases hc : s.len < s.cap
  · simp only [if_pos hc, if_true, List.range_succ, List.map_append, List.map_cons, List.map_nil]
    congr 1
    apply List.map_congr_left
    intro i hi
    have : i ≠ s.len := by have := List.mem_range.mp hi; omega
    simp [this]
  · simp only [if_neg hc, if_true, List.range_succ, List.map_append, List.map_cons, List.map_nil]
    congr 1
    · apply List.map_congr_left
      intro i hi
      have : i < s.len := List.mem_range.mp hi
      simp [this]
    · simp

theorem appendMap_frame (h : Heap) (s : Slice) (m : Nat) :
    (appendMap h s m).1.builders = h.builders ∧ (appendMap h s m).1.maps = h.maps ∧
    (appendMap h s m).1.strArrays = h.strArrays ∧ (appendMap h s m).1.nextMap = h.nextMap ∧
    (appendMap h s m).1.nextBuilder = h.nextBuilder := by
  unfold appendMap
  by_cases hc : s.len < s.cap
  · simp [if_pos hc]
  · simp [if_neg hc]

theorem appendStr_frame (h : Heap) (s : Slice) (x : String) :
    (appendStr h s x).1.builders = h.builders ∧ (appendStr h s x).1.maps = h.maps ∧
    (appendStr h s x).1.mapArrays = h.mapArrays ∧ (appendStr h s x).1.nextMap = h.nextMap ∧
    (appendStr h s x).1.nextBuilder = h.nextBuilder := by
  unfold appendStr
  by_cases hc : s.len < s.cap
  · simp [if_pos hc]
  · simp [if_neg hc]

/-! ### `appendCondition`, the body of the `where` family -/

theorem appendCondition_ptr (h : Heap) (b : Nat) (c : Condition) :
    (appendCondition h b c).2 = h.nextBuilder := rfl

theorem appendCondition_maps (h : Heap) (b : Nat) (c : Condition) :
    (appendCondition h b c).1.maps = (fun a => if a = h.nextMap then c else h.maps a) ∧
    (appendCondition h b c).1.nextMap = h.nextMap + 1 := by
  simp only [appendCondition, copy, newBuilder, newMap, setBuilder]
  exact ⟨(appendMap_frame _ _ _).2.1, (appendMap_frame _ _ _).2.2.2.1⟩

theorem appendCondition_builder (h : Heap) (b : Nat) (c : Condition) :
    ((appendCondition h b c).1.builders (appendCondition h b c).2).tableName =
      (h.builders b).tableName ∧
    ((appendCondition h b c).1.builders (appendCondition h b c).2).placeholderType =
      (h.builders b).placeholderType ∧
    ((appendCondition h b c).1.builders (appendCondition h b c).2).ignoreZeroValue =
      (h.builders b).ignoreZeroValue ∧
    ((appendCondition h b c).1.builders (appendCondition h b c).2).argNum = 0 ∧
    ((appendCondition h b c).1.builders (appendCondition h b c).2).columns =
      (h.builders b).columns ∧
    (appendCondition h b c).1.strArrays = h.strArrays := by
  simp only [appendCondition, copy, newBuilder, newMap, setBuilder, if_true,
    (appendMap_frame _ _ _).1, (appendMap_frame _ _ _).2.2.1]
  simp

theorem appendCondition_addrs (h : Heap) (b : Nat) (c : Condition) :
    mapAddrs (appendCondition h b c).1
        ((appendCondition h b c).1.builders (appendCondition h b c).2).whereConditions =
      mapAddrs h (h.builders b).whereConditions ++ [h.nextMap] := by
  simp only [appendCondition, copy, newBuilder, newMap, setBuilder, if_true]
  exact appendMap_addrs _ _ _

theorem appendCondition_conditions (h : Heap) (b : Nat) (c : Condition)
    (hok : ∀ a ∈ mapAddrs h (h.builders b).whereConditions, a < h.nextMap) :
    conditionsOf (appendCondition h b c).1 (appendCondition h b c).2 =
      conditionsOf h b ++ [c] := by
  unfold conditionsOf condView
  rw [appendCondition_addrs, (appendCondition_maps h b c).1]
  simp only [List.map_append, List.map_cons, List.map_nil, if_true]
  congr 1
  apply List.map_congr_left
  intro a ha
  have := hok a ha
  have hne : a ≠ h.nextMap := by omega
  simp [hne]

theorem appendCondition_columns (h : Heap) (b : Nat) (c : Condition) :
    columnsOf (appendCondition h b c).1 (appendCondition h b c).2 = columnsOf h b := by
  unfold columnsOf strView
  rw [(appendCondition_builder h b c).2.2.2.2.1, (appendCondition_builder h b c).2.2.2.2.2]

theorem appendCondition_CondsOK (h : Heap) (b : Nat) (c : Condition) (hok : CondsOK h b) :
    CondsOK (appendCondition h b c).1 (appendCondition h b c).2 := by
  unfold CondsOK at hok ⊢
  rw [appendCondition_addrs, (appendCondition_maps h b c).2]
  constructor
  · rw [List.nodup_append]
    refine ⟨hok.1, by simp, ?_⟩
    intro a ha hb
    simp only [List.mem_singleton] at hb
    have := hok.2 a ha
    omega
  · intro a ha
    rcases List.mem_append.mp ha with ha | ha
    · have := hok.2 a ha; omega
    · simp only [List.mem_singleton] at ha; omega

theorem bindOf_eq (column : String) (bind : List String) : bindOf column bind = bind.headD column := by
  cases bind <;> rfl

theorem conditionsOf_markFirst (h : Heap) (b : Nat)
    (hnd : (mapAddrs h (h.builders b).whereConditions).Nodup) :
    conditionsOf (markFirst h b) b = markHead (conditionsOf h b) := by
  unfold markFirst conditionsOf condView
  cases haddr : mapAddrs h (h.builders b).whereConditions with
  | nil => simp [haddr, markHead]
  | cons a0 rest =>
    rw [haddr] at hnd
    have hnot : a0 ∉ rest := (List.nodup_cons.mp hnd).1
    simp only [setLogical_builders, mapAddrs_setLogical, haddr, List.map_cons,
      setLogical_maps_self, markHead]
    congr 1
    apply List.map_congr_left
    intro a ha
    have hne : a ≠ a0 := fun e => hnot (e ▸ ha)
    simp [setLogical, hne]

theorem paragraphsOf_plain (mode : Int) (hD : mode ≠ DollarNumber) :
    ∀ (cs : List Condition) (k : Int),
      (∀ c ∈ cs, plainOp c.operator ∧ c.subQuery = "") →
      paragraphsOf mode k cs =
        (.ok (cs.map fun c => c.logical ++ " " ++ c.column ++ " " ++ c.operator ++ " " ++
            (if mode = Named then ":" ++ c.bind else "?")), k) := by
  intro cs
  induction cs with
  | nil => intro k _; rfl
  | cons c cs ih =>
    intro k hc
    have h1 := hc c (by simp)
    obtain ⟨⟨hIn, hNotIn, hNull, hNotNull⟩, hsub⟩ := h1
    have hp : paragraphOf mode k c =
        (.ok (c.logical ++ " " ++ c.column ++ " " ++ c.operator ++ " " ++
            (if mode = Named then ":" ++ c.bind else "?")), k) := by
      simp [paragraphOf, paragraphWith, bindFor, hD, hsub, hIn, hNotIn, hNull, hNotNull]
    rw [paragraphsOf, hp]
    simp only
    rw [ih k (fun c hc' => hc c (by simp [hc']))]
    simp

theorem appendCondition_appendsOne (h : Heap) (b : Nat) (c : Condition) (hok : CondsOK h b) :
    AppendsOne h b (appendCondition h b c) c :=
  ⟨appendCondition_conditions h b c hok.2, (appendCondition_builder h b c).1,
    appendCondition_columns h b c, (appendCondition_builder h b c).2.1,
    (appendCondition_builder h b c).2.2.1⟩

theorem where_eq (h : Heap) (b : Nat) (w : WhereCall) :
    «where» h b w.column w.operator w.bind = appendCondition h b (whereCondition w) := rfl

theorem whereChain_spec : ∀ (ws : List WhereCall) (h : Heap) (b : Nat), CondsOK h b →
    conditionsOf (whereChain ws h b).1 (whereChain ws h b).2 =
      conditionsOf h b ++ ws.map whereCondition ∧
    CondsOK (whereChain ws h b).1 (whereChain ws h b).2 ∧
    ((whereChain ws h b).1.builders (whereChain ws h b).2).placeholderType =
      (h.builders b).placeholderType := by
  intro ws
  induction ws with
  | nil => intro h b hok; simp [whereChain, hok]
  | cons w ws ih =>
    intro h b hok
    have h1 := appendCondition_conditions h b (whereCondition w) hok.2
    have h2 := appendCondition_CondsOK h b (whereCondition w) hok
    have h3 := (appendCondition_builder h b (whereCondition w)).2.1
    obtain ⟨i1, i2, i3⟩ := ih (appendCondition h b (whereCondition w)).1
      (appendCondition h b (whereCondition w)).2 h2
    simp only [whereChain, where_eq]
    refine ⟨?_, i2, ?_⟩
    · rw [i1, h1]; simp
    · rw [i3, h3]

theorem CondsOK_of_empty (h : Heap) (b : Nat) (hlen : (h.builders b).whereConditions.len = 0) :
    CondsOK h b := by
  unfold CondsOK mapAddrs
  rw [hlen]
  simp

theorem conditionsOf_of_empty (h : Heap) (b : Nat)
    (hlen : (h.builders b).whereConditions.len = 0) : conditionsOf h b = [] := by
  unfold conditionsOf condView mapAddrs
  rw [hlen]
  simp

theorem colon_append_injective (x y : String) (hxy : x ≠ y) : ":" ++ x ≠ ":" ++ y := by
  intro he
  apply hxy
  have := congrArg String.data he
  simp only [String.data_append] at this
  exact String.ext (List.append_cancel_left this)

/-! ### The pure renderer -/

theorem paragraphOf_nonDollar (mode : Int) (hD : mode ≠ DollarNumber) (k k2 : Int)
    (c : Condition) :
    (paragraphOf mode k c).2 = k ∧ (paragraphOf mode k c).1 = (paragraphOf mode k2 c).1 := by
  unfold paragraphOf paragraphWith bindFor listCounter listBinds
  simp only [if_neg hD]
  by_cases hs : c.subQuery ≠ ""
  · simp [if_pos hs]
  · simp only [if_neg hs]
    by_cases hnull : c.operator = IsNull ∨ c.operator = IsNotNull
    · simp [if_pos hnull]
    · simp only [if_neg hnull]
      by_cases hin : c.operator = In ∨ c.operator = NotIn
      · simp only [if_pos hin]
        by_cases hn : Atoi c.listLength < 0
        · simp [if_pos hn]
        · simp only [if_neg hn]
          by_cases hN : mode = Named
          · simp [hN]
          · simp [hN]
      · simp [if_neg hin]

theorem paragraphsOf_nonDollar (mode : Int) (hD : mode ≠ DollarNumber) :
    ∀ (cs : List Condition) (k k2 : Int),
      (paragraphsOf mode k cs).2 = k ∧ (paragraphsOf mode k cs).1 = (paragraphsOf mode k2 cs).1 := by
  intro cs
  induction cs with
  | nil => intro k k2; simp [paragraphsOf]
  | cons c cs ih =>
    intro k k2
    have h1 := paragraphOf_nonDollar mode hD k k2 c
    have h2 := (paragraphOf_nonDollar mode hD k2 k2 c).1
    have i1 := ih k k2
    simp only [paragraphsOf, h1.1, h2, ← h1.2]
    cases hp : (paragraphOf mode k c).1 with
    | error e => simp
    | ok p =>
      simp only [i1.1, (ih k2 k2).1, ← i1.2]
      cases hq : (paragraphsOf mode k cs).1 with
      | error e => simp
      | ok ps => simp

theorem paragraphsOf_append (mode : Int) :
    ∀ (cs ds : List Condition) (k : Int) (ps : List String),
      (paragraphsOf mode k cs).1 = .ok ps →
      paragraphsOf mode k (cs ++ ds) =
        (prependOk ps (paragraphsOf mode (paragraphsOf mode k cs).2 ds).1,
         (paragraphsOf mode (paragraphsOf mode k cs).2 ds).2) := by
  intro cs
  induction cs with
  | nil =>
    intro ds k ps hps
    simp only [paragraphsOf, Except.ok.injEq] at hps
    subst hps
    simp [paragraphsOf, prependOk_nil]
  | cons c cs ih =>
    intro ds k ps hps
    simp only [paragraphsOf] at hps
    simp only [List.cons_append, paragraphsOf]
    cases hp : (paragraphOf mode k c).1 with
    | error e => rw [hp] at hps; simp at hps
    | ok p =>
      rw [hp] at hps
      simp only at hps ⊢
      cases hq : (paragraphsOf mode (paragraphOf mode k c).2 cs).1 with
      | error e => rw [hq] at hps; simp at hps
      | ok qs =>
        rw [hq] at hps
        simp only [Except.ok.injEq] at hps
        subst hps
        have hi := ih ds _ qs hq
        rw [List.append_eq, hi]
        simp only
        cases hr : (paragraphsOf mode (paragraphsOf mode (paragraphOf mode k c).2 cs).2 ds).1 with
        | error e => simp [prependOk]
        | ok rs => simp [prependOk]

theorem paragraphOf_total (mode : Int) (k : Int) (c : Condition) (hn : 0 ≤ Atoi c.listLength) :
    ∃ p, (paragraphOf mode k c).1 = .ok p := by
  unfold paragraphOf paragraphWith
  by_cases hs : c.subQuery ≠ ""
  · simp [if_pos hs]
  · simp only [if_neg hs]
    by_cases hnull : c.operator = IsNull ∨ c.operator = IsNotNull
    · simp [if_pos hnull]
    · simp only [if_neg hnull]
      by_cases hin : c.operator = In ∨ c.operator = NotIn
      · simp only [if_pos hin]
        have hn2 : ¬ Atoi c.listLength < 0 := by omega
        simp [if_neg hn2]
      · simp [if_neg hin]

theorem paragraphsOf_total (mode : Int) :
    ∀ (cs : List Condition) (k : Int), (∀ c ∈ cs, 0 ≤ Atoi c.listLength) →
      ∃ ps, (paragraphsOf mode k cs).1 = .ok ps := by
  intro cs
  induction cs with
  | nil => intro k _; exact ⟨[], rfl⟩
  | cons c cs ih =>
    intro k hc
    obtain ⟨p, hp⟩ := paragraphOf_total mode k c (hc c (by simp))
    obtain ⟨ps, hps⟩ := ih (paragraphOf mode k c).2 (fun d hd => hc d (by simp [hd]))
    exact ⟨p :: ps, by simp [paragraphsOf, hp, hps]⟩

theorem paragraphOf_shape (mode : Int) (k : Int) (c : Condition) (p : String)
    (hp : (paragraphOf mode k c).1 = .ok p) : ∃ t, p = c.logical ++ " " ++ t := by
  unfold paragraphOf paragraphWith at hp
  by_cases hs : c.subQuery ≠ ""
  · simp only [if_pos hs, Except.ok.injEq] at hp
    exact ⟨c.column ++ " " ++ c.operator ++ " (" ++ c.subQuery ++ ")", by
      rw [← hp]; simp [String.append_assoc]⟩
  · simp only [if_neg hs] at hp
    by_cases hnull : c.operator = IsNull ∨ c.operator = IsNotNull
    · simp only [if_pos hnull, Except.ok.injEq] at hp
      exact ⟨c.column ++ " " ++ c.operator, by rw [← hp]; simp [String.append_assoc]⟩
    · simp only [if_neg hnull] at hp
      by_cases hin : c.operator = In ∨ c.operator = NotIn
      · simp only [if_pos hin] at hp
        by_cases hn : Atoi c.listLength < 0
        · simp [if_pos hn] at hp
        · simp only [if_neg hn, Except.ok.injEq] at hp
          exact ⟨c.column ++ " " ++ c.operator ++ " " ++ ("(" ++ ", ".intercalate
            (listBinds mode (bindFor mode k c).1 (bindFor mode k c).2 (Atoi c.listLength).toNat)
            ++ ")"), by rw [← hp]; simp only [String.append_assoc]⟩
      · simp only [if_neg hin, Except.ok.injEq] at hp
        exact ⟨c.column ++ " " ++ c.operator ++ " " ++ (bindFor mode k c).1, by
          rw [← hp]; simp only [String.append_assoc]⟩

theorem paragraphsOf_shape (mode : Int) :
    ∀ (cs : List Condition) (k : Int) (ps : List String),
      (paragraphsOf mode k cs).1 = .ok ps →
      ps.length = cs.length ∧
      ∀ (i : Nat) (c : Condition), cs[i]? = some c →
        ∃ t, ps[i]? = some (c.logical ++ " " ++ t) := by
  intro cs
  induction cs with
  | nil =>
    intro k ps hps
    simp only [paragraphsOf, Except.ok.injEq] at hps
    subst hps
    simp
  | cons c cs ih =>
    intro k ps hps
    simp only [paragraphsOf] at hps
    cases hp : (paragraphOf mode k c).1 with
    | error e => rw [hp] at hps; simp at hps
    | ok p =>
      rw [hp] at hps
      simp only at hps
      cases hq : (paragraphsOf mode (paragraphOf mode k c).2 cs).1 with
      | error e => rw [hq] at hps; simp at hps
      | ok qs =>
        rw [hq] at hps
        simp only [Except.ok.injEq] at hps
        subst hps
        obtain ⟨i1, i2⟩ := ih _ qs hq
        refine ⟨by simp [i1], ?_⟩
        intro i d hd
        cases i with
        | zero =>
          simp only [List.getElem?_cons_zero, Option.some.injEq] at hd
          subst hd
          obtain ⟨t, ht⟩ := paragraphOf_shape mode k c p hp
          exact ⟨t, by simp [ht]⟩
        | succ i =>
          simp only [List.getElem?_cons_succ] at hd ⊢
          exact i2 i d hd

theorem paragraphsOf_snoc_nonDollar (mode : Int) (hD : mode ≠ DollarNumber)
    (cs : List Condition) (c : Condition) (k k2 : Int) (ps : List String) (p : String)
    (hps : (paragraphsOf mode k (markHead cs)).1 = .ok ps)
    (hp : (paragraphOf mode k2 (if cs = [] then { c with logical := "WHERE" } else c)).1 = .ok p) :
    (paragraphsOf mode k2 (markHead (cs ++ [c]))).1 = .ok (ps ++ [p]) := by
  cases cs with
  | nil =>
    simp only [markHead, paragraphsOf, Except.ok.injEq] at hps
    subst hps
    simp only [if_true] at hp
    simp [markHead, paragraphsOf, hp]
  | cons d ds =>
    have hne : ¬ (d :: ds = []) := by simp
    rw [if_neg hne] at hp
    have h1 : (paragraphsOf mode k2 (markHead (d :: ds))).1 = .ok ps := by
      rw [(paragraphsOf_nonDollar mode hD _ k2 k).2]; exact hps
    have h2 : markHead (d :: ds ++ [c]) = markHead (d :: ds) ++ [c] := rfl
    have hk : (paragraphsOf mode k2 (markHead (d :: ds))).2 = k2 :=
      (paragraphsOf_nonDollar mode hD _ k2 k2).1
    have h3 : (paragraphsOf mode k2 [c]).1 = .ok [p] := by simp [paragraphsOf, hp]
    rw [h2, paragraphsOf_append mode _ _ _ ps h1, hk]
    simp only [h3, prependOk]

theorem paragraphOf_list_nonDollar (mode : Int) (hD : mode ≠ DollarNumber) (k : Int)
    (c : Condition) (n : Nat) (hop : c.operator = In ∨ c.operator = NotIn)
    (hsub : c.subQuery = "") (hlen : c.listLength = Itoa n) :
    (paragraphOf mode k c).1 =
      .ok (c.logical ++ " " ++ c.column ++ " " ++ c.operator ++ " " ++
        ("(" ++ ", ".intercalate ((List.range n).map fun (i : Nat) =>
            if mode = Named then ":" ++ c.bind ++ Itoa ((i : Int) + 1) else "?") ++ ")")) := by
  have hnull : ¬ (c.operator = IsNull ∨ c.operator = IsNotNull) := by
    rcases hop with h | h <;> rw [h] <;> decide
  have hn : ¬ Atoi c.listLength < 0 := by rw [hlen, Atoi_Itoa]; omega
  have ht : (Atoi c.listLength).toNat = n := by rw [hlen, Atoi_Itoa]; simp
  have hl : listBinds mode (if mode = Named then ":" ++ c.bind else "?") k n =
      (List.range n).map fun (i : Nat) =>
        if mode = Named then ":" ++ c.bind ++ Itoa ((i : Int) + 1) else "?" := by
    unfold listBinds
    apply List.map_congr_left
    intro i _
    by_cases hN : mode = Named
    · simp [hN]
    · simp [hN, hD]
  simp only [paragraphOf, paragraphWith, bindFor, hsub, if_neg hD, ne_eq, not_true_eq_false,
    if_false, if_neg hnull, if_pos hop, if_neg hn, ht, hl]

theorem markFirst_markFirst (h : Heap) (b : Nat) : markFirst (markFirst h b) b = markFirst h b := by
  unfold markFirst
  cases haddr : mapAddrs h (h.builders b).whereConditions with
  | nil => simp [haddr]
  | cons a0 rest =>
    simp only [setLogical_builders, mapAddrs_setLogical, haddr]
    unfold setLogical
    congr 1
    funext a
    by_cases ha : a = a0 <;> simp [ha]

theorem markFirst_builders (h : Heap) (b : Nat) : (markFirst h b).builders = h.builders := by
  unfold markFirst
  split <;> rfl

theorem render_nonDollar_heap (h : Heap) (b : Nat)
    (hD : (h.builders b).placeholderType ≠ DollarNumber) :
    (getWhereParagraphs h b).1 = markFirst h b := by
  rw [getWhereParagraphs_eq]
  simp only [(paragraphsOf_nonDollar _ hD _ _ 0).1]
  have : (h.builders b).argNum = ((markFirst h b).builders b).argNum := by
    rw [markFirst_builders]
  rw [this, setArgNum_self]

theorem mem_conditionsOf_markFirst (h : Heap) (b : Nat) (c : Condition)
    (hc : c ∈ conditionsOf (markFirst h b) b) :
    ∃ d ∈ conditionsOf h b, c.listLength = d.listLength := by
  unfold markFirst conditionsOf condView at *
  cases haddr : mapAddrs h (h.builders b).whereConditions with
  | nil => rw [haddr] at hc; simp [haddr] at hc
  | cons a0 rest =>
    rw [haddr] at hc
    simp only [setLogical_builders, mapAddrs_setLogical, haddr, List.mem_map] at hc
    obtain ⟨a, ha, rfl⟩ := hc
    refine ⟨h.maps a, List.mem_map.mpr ⟨a, ha, rfl⟩, ?_⟩
    by_cases hq : a = a0
    · subst hq; simp [setLogical]
    · simp [setLogical, hq]

theorem columnsOf_set_append (h : Heap) (c : Nat) (x : String) :
    columnsOf (setBuilder (appendStr h (h.builders c).columns x).1 c
        { (appendStr h (h.builders c).columns x).1.builders c with
          columns := (appendStr h (h.builders c).columns x).2 }) c =
      columnsOf h c ++ [x] := by
  unfold columnsOf
  simp only [setBuilder, if_true]
  exact appendStr_view h _ x

theorem modelLoop_spec (b c : Nat) :
    ∀ (fields : List StructField) (h : Heap),
      (∀ f ∈ fields, f.value.kindIsPtr = false) →
      columnsOf (modelLoop b c fields h) c =
        columnsOf h c ++ (fields.filter fun f =>
            decide (tagGet f.tag DBTag ≠ "") &&
            decide (tagGet f.tag TableTag = (h.builders b).tableName) &&
            (!f.value.IsZero || !(h.builders b).ignoreZeroValue)).map
          fun f => tagGet f.tag DBTag := by
  intro fields
  induction fields with
  | nil => intro h _; simp [modelLoop]
  | cons f fs ih =>
    intro h hnp
    have hf : f.value.kindIsPtr = false := hnp f (by simp)
    have hfs : ∀ g ∈ fs, g.value.kindIsPtr = false := fun g hg => hnp g (by simp [hg])
    rw [modelLoop, List.filter_cons]
    by_cases h1 : tagGet f.tag DBTag = ""
    · rw [if_pos h1, ih h hfs]; simp [h1]
    · rw [if_neg h1]
      by_cases h2 : tagGet f.tag TableTag ≠ (h.builders b).tableName
      · rw [if_pos h2, ih h hfs]; simp [h2]
      · rw [if_neg h2]
        have h2' : tagGet f.tag TableTag = (h.builders b).tableName := not_not.mp h2
        simp only [hf, Bool.false_and, Bool.false_eq_true, if_false]
        by_cases h3 : ((h.builders b).ignoreZeroValue && f.value.IsZero) = true
        · rw [if_pos h3, ih h hfs]
          simp only [Bool.and_eq_true] at h3
          simp [h3.1, h3.2]
        · rw [if_neg h3]
          rw [ih _ hfs, columnsOf_set_append]
          have hb : ∀ s : Slice,
              ((setBuilder (appendStr h (h.builders c).columns (tagGet f.tag DBTag)).1 c
                { (appendStr h (h.builders c).columns (tagGet f.tag DBTag)).1.builders c with
                  columns := s }).builders b).tableName = (h.builders b).tableName ∧
              ((setBuilder (appendStr h (h.builders c).columns (tagGet f.tag DBTag)).1 c
                { (appendStr h (h.builders c).columns (tagGet f.tag DBTag)).1.builders c with
                  columns := s }).builders b).ignoreZeroValue =
                (h.builders b).ignoreZeroValue := by
            intro s
            simp only [setBuilder, (appendStr_frame _ _ _).1]
            by_cases hbc : b = c
            · subst hbc; simp
            · simp [hbc]
          rw [(hb _).1, (hb _).2]
          have hkeep : (decide (tagGet f.tag DBTag ≠ "") &&
              decide (tagGet f.tag TableTag = (h.builders b).tableName) &&
              (!f.value.IsZero || !(h.builders b).ignoreZeroValue)) = true := by
            simp only [Bool.and_eq_true, Bool.not_eq_true] at h3
            simp only [h1, h2', ne_eq, not_false_eq_true, decide_True, Bool.true_and,
              Bool.or_eq_true, Bool.not_eq_true']
            cases hz : f.value.IsZero
            · simp
            · cases hi : (h.builders b).ignoreZeroValue
              · simp
              · exact absurd hz (by simpa [hi] using h3)
          rw [if_pos hkeep]
          simp

theorem copy_spec (h : Heap) (b : Nat) :
    (copy h b).2 = h.nextBuilder ∧
    (copy h b).1.builders (copy h b).2 = { h.builders b with argNum := 0 } ∧
    ((copy h b).1.builders b).tableName = (h.builders b).tableName ∧
    ((copy h b).1.builders b).ignoreZeroValue = (h.builders b).ignoreZeroValue ∧
    (copy h b).1.strArrays = h.strArrays := by
  refine ⟨rfl, ?_, ?_, ?_, rfl⟩
  · simp [copy, newBuilder]
  · simp only [copy, newBuilder]
    by_cases hb : b = h.nextBuilder <;> simp [hb]
  · simp only [copy, newBuilder]
    by_cases hb : b = h.nextBuilder <;> simp [hb]

/-! ### `CondsOK` is kept by the mutators -/

theorem CondsOK_congr (h h2 : Heap) (p p2 : Nat) (h1 : h2.mapArrays = h.mapArrays)
    (hn : h2.nextMap = h.nextMap)
    (hw : (h2.builders p2).whereConditions = (h.builders p).whereConditions)
    (hok : CondsOK h p) : CondsOK h2 p2 := by
  unfold CondsOK mapAddrs at *
  rw [h1, hn, hw]
  exact hok

theorem newQueryBuilder_CondsOK (h : Heap) :
    CondsOK (newQueryBuilder h).1 (newQueryBuilder h).2 := by
  apply CondsOK_of_empty
  simp [newQueryBuilder, newBuilder, zeroBuilder, nilSlice]

theorem copy_whereConditions (h : Heap) (b : Nat) :
    ((copy h b).1.builders (copy h b).2).whereConditions = (h.builders b).whereConditions := by
  rw [(copy_spec h b).2.1]

theorem placeholder_CondsOK (h : Heap) (b : Nat) (mode : Int) (hok : CondsOK h b) :
    CondsOK (placeholder h b mode).1 (placeholder h b mode).2 := by
  refine CondsOK_congr h _ b _ ?_ ?_ ?_ hok
  · rfl
  · rfl
  · simp [placeholder, setBuilder, copy, newBuilder]

theorem table_CondsOK (h : Heap) (b : Nat) (tableName : String) (hok : CondsOK h b) :
    CondsOK (table h b tableName).1 (table h b tableName).2 := by
  refine CondsOK_congr h _ b _ ?_ ?_ ?_ hok
  · rfl
  · rfl
  · simp [table, setBuilder, copy, newBuilder]

theorem appendStr_mapArrays (h : Heap) (s : Slice) (x : String) :
    (appendStr h s x).1.mapArrays = h.mapArrays ∧ (appendStr h s x).1.nextMap = h.nextMap ∧
    (appendStr h s x).1.builders = h.builders :=
  ⟨(appendStr_frame h s x).2.2.1, (appendStr_frame h s x).2.2.2.1, (appendStr_frame h s x).1⟩

theorem columnLoop_frame (c : Nat) : ∀ (cols : List String) (h : Heap),
    (columnLoop c cols h).mapArrays = h.mapArrays ∧
    (columnLoop c cols h).nextMap = h.nextMap ∧
    ((columnLoop c cols h).builders c).whereConditions = (h.builders c).whereConditions := by
  intro cols
  induction cols with
  | nil => intro h; exact ⟨rfl, rfl, rfl⟩
  | cons x rest ih =>
    intro h
    obtain ⟨a1, a2, a3⟩ := appendStr_mapArrays h (h.builders c).columns x
    obtain ⟨i1, i2, i3⟩ := ih (setBuilder (appendStr h (h.builders c).columns x).1 c
      { (appendStr h (h.builders c).columns x).1.builders c with
        columns := (appendStr h (h.builders c).columns x).2 })
    rw [columnLoop]
    refine ⟨i1.trans a1, i2.trans a2, i3.trans ?_⟩
    simp [setBuilder, a3]

theorem column_CondsOK (h : Heap) (b : Nat) (cols : List String) (hok : CondsOK h b) :
    CondsOK (column h b cols).1 (column h b cols).2 := by
  obtain ⟨i1, i2, i3⟩ := columnLoop_frame (copy h b).2 cols (copy h b).1
  exact CondsOK_congr h _ b _ i1 i2 (i3.trans (copy_whereConditions h b)) hok

theorem modelLoop_frame (b c : Nat) : ∀ (fields : List StructField) (h : Heap),
    (modelLoop b c fields h).mapArrays = h.mapArrays ∧
    (modelLoop b c fields h).nextMap = h.nextMap ∧
    ((modelLoop b c fields h).builders c).whereConditions = (h.builders c).whereConditions := by
  intro fields
  induction fields with
  | nil => intro h; exact ⟨rfl, rfl, rfl⟩
  | cons f rest ih =>
    intro h
    rw [modelLoop]
    split
    · exact ih h
    · split
      · exact ih h
      · split
        · exact ih h
        · split
          · exact ih h
          · split
            · exact ih h
            · obtain ⟨a1, a2, a3⟩ :=
                appendStr_mapArrays h (h.builders c).columns (tagGet f.tag DBTag)
              obtain ⟨i1, i2, i3⟩ := ih (setBuilder
                (appendStr h (h.builders c).columns (tagGet f.tag DBTag)).1 c
                { (appendStr h (h.builders c).columns (tagGet f.tag DBTag)).1.builders c with
                  columns := (appendStr h (h.builders c).columns (tagGet f.tag DBTag)).2 })
              refine ⟨i1.trans a1, i2.trans a2, i3.trans ?_⟩
              simp [setBuilder, a3]

theorem model_CondsOK (h : Heap) (b : Nat) (arg : Interface) (nz : Option (List Bool))
    (c : Nat) (hc : (model h b arg nz).2 = .ok c) (hok : CondsOK h b) :
    CondsOK (model h b arg nz).1 c := by
  have key : ∀ (h0 : Heap) (fields : List StructField), h0.mapArrays = h.mapArrays →
      h0.nextMap = h.nextMap →
      (h0.builders b).whereConditions = (h.builders b).whereConditions →
      CondsOK (modelLoop b (copy h0 b).2 fields (copy h0 b).1) (copy h0 b).2 := by
    intro h0 fields e1 e2 e3
    obtain ⟨i1, i2, i3⟩ := modelLoop_frame b (copy h0 b).2 fields (copy h0 b).1
    exact CondsOK_congr h _ b _ (i1.trans e1) (i2.trans e2)
      (i3.trans ((copy_whereConditions h0 b).trans e3)) hok
  have key0 : ∀ (h0 : Heap), h0.mapArrays = h.mapArrays →
      h0.nextMap = h.nextMap →
      (h0.builders b).whereConditions = (h.builders b).whereConditions →
      CondsOK (copy h0 b).1 (copy h0 b).2 := fun h0 e1 e2 e3 => key h0 [] e1 e2 e3
  have hset : ((setBuilder h b { h.builders b with ignoreZeroValue := false }).builders
      b).whereConditions = (h.builders b).whereConditions := by
    simp [setBuilder]
  cases nz with
  | none =>
    cases arg with
    | other => simp [model] at hc
    | nilStructPtr tags =>
      cases tags with
      | nil => simp only [model, Except.ok.injEq] at hc; subst hc; exact key0 h rfl rfl rfl
      | cons t ts => simp [model] at hc
    | structValue fields =>
      simp only [model, Except.ok.injEq] at hc; subst hc; exact key h fields rfl rfl rfl
    | structPtr fields =>
      simp only [model, Except.ok.injEq] at hc; subst hc; exact key h fields rfl rfl rfl
  | some l =>
    cases l with
    | nil => simp [model] at hc
    | cons x rest =>
      cases x with
      | false =>
        cases arg with
        | other => simp [model] at hc
        | nilStructPtr tags =>
          cases tags with
          | nil => simp only [model, Except.ok.injEq] at hc; subst hc; exact key0 h rfl rfl rfl
          | cons t ts => simp [model] at hc
        | structValue fields =>
          simp only [model, Except.ok.injEq] at hc; subst hc; exact key h fields rfl rfl rfl
        | structPtr fields =>
          simp only [model, Except.ok.injEq] at hc; subst hc; exact key h fields rfl rfl rfl
      | true =>
        cases arg with
        | other => simp [model] at hc
        | nilStructPtr tags =>
          cases tags with
          | nil =>
            simp only [model, Except.ok.injEq] at hc; subst hc
            exact key0 (setBuilder h b { h.builders b with ignoreZeroValue := false })
              rfl rfl hset
          | cons t ts => simp [model] at hc
        | structValue fields =>
          simp only [model, Except.ok.injEq] at hc; subst hc
          exact key (setBuilder h b { h.builders b with ignoreZeroValue := false }) fields
            rfl rfl hset
        | structPtr fields =>
          simp only [model, Except.ok.injEq] at hc; subst hc
          exact key (setBuilder h b { h.builders b with ignoreZeroValue := false }) fields
            rfl rfl hset

/-! ### Numbering of a list in Sequential mode -/

/-- In Sequential mode the list of an `IN` / `NOT IN` condition of length `n`
is numbered `$(k+1), ..., $(k+n)` from the counter `k` of the builder, and
leaves the counter at `k + n`. -/
theorem getWhereParagraph_list_dollar (h : Heap) (b a : Nat) (bind : String) (n : Nat)
    (hD : (h.builders b).placeholderType = DollarNumber)
    (hop : (h.maps a).operator = In ∨ (h.maps a).operator = NotIn)
    (hsub : (h.maps a).subQuery = "") (hlen : (h.maps a).listLength = Itoa n) :
    getWhereParagraph h b a bind =
      (setArgNum h b ((h.builders b).argNum + n),
       .ok ((h.maps a).logical ++ " " ++ (h.maps a).column ++ " " ++ (h.maps a).operator ++ " " ++
        ("(" ++ ", ".intercalate ((List.range n).map fun (i : Nat) =>
            "$" ++ Itoa ((h.builders b).argNum + (i : Int) + 1)) ++ ")"))) := by
  have hnull : ¬ ((h.maps a).operator = IsNull ∨ (h.maps a).operator = IsNotNull) := by
    rcases hop with e | e <;> rw [e] <;> decide
  have hn : ¬ Atoi (h.maps a).listLength < 0 := by rw [hlen, Atoi_Itoa]; omega
  have ht : (Atoi (h.maps a).listLength).toNat = n := by rw [hlen, Atoi_Itoa]; simp
  have hN : ¬ DollarNumber = Named := by decide
  rw [getWhereParagraph_eq]
  simp only [paragraphWith, hsub, ne_eq, not_true_eq_false, if_false, if_neg hnull, if_pos hop,
    if_neg hn, ht, listCounter, listBinds, hD, if_neg hN, if_true]

/-! ### `omit` -/

theorem omitIndex_spec : ∀ (cols : List String) (m : String → Option String) (k : String),
    omitIndex cols m k = if k ∈ cols then some k else m k := by
  intro cols
  induction cols with
  | nil => intro m k; simp [omitIndex]
  | cons c rest ih =>
    intro m k
    rw [omitIndex, ih]
    by_cases h1 : k ∈ rest
    · simp [h1]
    · by_cases h2 : k = c
      · subst h2; simp [h1]
      · simp [h1, h2]

theorem omitDelete_spec : ∀ (ts : List String) (m : String → Option String) (k : String),
    omitDelete ts m k = if k ∈ ts then none else m k := by
  intro ts
  induction ts with
  | nil => intro m k; simp [omitDelete]
  | cons t rest ih =>
    intro m k
    rw [omitDelete]
    by_cases hm : m t = none
    · rw [if_pos hm, ih]
      by_cases h1 : k ∈ rest
      · simp [h1]
      · by_cases h2 : k = t
        · subst h2; simp [h1, hm]
        · simp [h1, h2]
    · rw [if_neg hm, ih]
      by_cases h1 : k ∈ rest
      · simp [h1]
      · by_cases h2 : k = t
        · subst h2; simp [h1]
        · simp [h1, h2]

theorem omitCollect_view : ∀ (cols : List String) (m : String → Option String) (h : Heap)
    (s : Slice),
    strView (omitCollect cols m h s).1 (omitCollect cols m h s).2 =
      strView h s ++ cols.filterMap m := by
  intro cols
  induction cols with
  | nil => intro m h s; simp [omitCollect]
  | cons c rest ih =>
    intro m h s
    rw [omitCollect]
    cases hc : m c with
    | none => simp only [List.filterMap_cons, hc]; exact ih m h s
    | some v =>
      simp only [List.filterMap_cons, hc]
      rw [ih, appendStr_view]
      simp

theorem omitCollect_frame : ∀ (cols : List String) (m : String → Option String) (h : Heap)
    (s : Slice),
    (omitCollect cols m h s).1.builders = h.builders ∧
    (omitCollect cols m h s).1.maps = h.maps ∧
    (omitCollect cols m h s).1.mapArrays = h.mapArrays := by
  intro cols
  induction cols with
  | nil => intro m h s; exact ⟨rfl, rfl, rfl⟩
  | cons c rest ih =>
    intro m h s
    rw [omitCollect]
    cases hc : m c with
    | none => exact ih m h s
    | some v =>
      obtain ⟨i1, i2, i3⟩ := ih m (appendStr h s v).1 (appendStr h s v).2
      obtain ⟨a1, a2, a3, _, _⟩ := appendStr_frame h s v
      exact ⟨i1.trans a1, i2.trans a2, i3.trans a3⟩

theorem filterMap_omit (dic ts : List String) :
    dic.filterMap (omitDelete ts (omitIndex dic (fun _ => none))) =
      dic.filter (fun x => decide (x ∉ ts)) := by
  have key : ∀ l : List String, (∀ x ∈ l, x ∈ dic) →
      l.filterMap (omitDelete ts (omitIndex dic (fun _ => none))) =
        l.filter (fun x => decide (x ∉ ts)) := by
    intro l
    induction l with
    | nil => intro _; rfl
    | cons x rest ih =>
      intro hl
      have hx : x ∈ dic := hl x (by simp)
      have hrest := ih (fun y hy => hl y (by simp [hy]))
      rw [List.filterMap_cons, List.filter_cons, omitDelete_spec, omitIndex_spec, hrest]
      by_cases hxt : x ∈ ts
      · simp [hxt]
      · simp [hxt, hx]
  exact key dic (fun x hx => hx)

theorem strView_length (h : Heap) (s : Slice) : (strView h s).length = s.len := by
  simp [strView]

theorem omit_eq (h : Heap) (b : Nat) (ts : List String) :
    «omit» h b ts =
      if (((copy h b).1.builders h.nextBuilder).columns.len : Int) - (ts.length : Int) < 0 then
        ((copy h b).1, .error "makeslice: cap out of range")
      else
        (setBuilder
          (omitCollect (strView (copy h b).1 ((copy h b).1.builders h.nextBuilder).columns)
            (omitDelete ts (omitIndex
              (strView (copy h b).1 ((copy h b).1.builders h.nextBuilder).columns) (fun _ => none)))
            (makeStr (copy h b).1
              (((copy h b).1.builders h.nextBuilder).columns.len - ts.length)).1
            (makeStr (copy h b).1
              (((copy h b).1.builders h.nextBuilder).columns.len - ts.length)).2).1
          h.nextBuilder
          { (omitCollect (strView (copy h b).1 ((copy h b).1.builders h.nextBuilder).columns)
              (omitDelete ts (omitIndex
                (strView (copy h b).1 ((copy h b).1.builders h.nextBuilder).columns)
                (fun _ => none)))
              (makeStr (copy h b).1
                (((copy h b).1.builders h.nextBuilder).columns.len - ts.length)).1
              (makeStr (copy h b).1
                (((copy h b).1.builders h.nextBuilder).columns.len - ts.length)).2).1.builders
              h.nextBuilder with
            columns :=
              (omitCollect (strView (copy h b).1 ((copy h b).1.builders h.nextBuilder).columns)
                (omitDelete ts (omitIndex
                  (strView (copy h b).1 ((copy h b).1.builders h.nextBuilder).columns)
                  (fun _ => none)))
                (makeStr (copy h b).1
                  (((copy h b).1.builders h.nextBuilder).columns.len - ts.length)).1
                (makeStr (copy h b).1
                  (((copy h b).1.builders h.nextBuilder).columns.len - ts.length)).2).2 },
         .ok h.nextBuilder) := rfl

theorem omit_spec (h : Heap) (b : Nat) (ts : List String)
    (hlen : ts.length ≤ (h.builders b).columns.len) :
    («omit» h b ts).2 = .ok h.nextBuilder ∧
    columnsOf («omit» h b ts).1 h.nextBuilder =
      (columnsOf h b).filter (fun x => decide (x ∉ ts)) ∧
    ((«omit» h b ts).1.builders h.nextBuilder).tableName = (h.builders b).tableName ∧
    conditionsOf («omit» h b ts).1 h.nextBuilder = conditionsOf h b ∧
    ((«omit» h b ts).1.builders h.nextBuilder).placeholderType =
      (h.builders b).placeholderType ∧
    ((«omit» h b ts).1.builders h.nextBuilder).ignoreZeroValue =
      (h.builders b).ignoreZeroValue := by
  have hc1 : ((copy h b).1.builders h.nextBuilder) = { h.builders b with argNum := 0 } :=
    (copy_spec h b).2.1
  have hneg : ¬ ((((copy h b).1.builders h.nextBuilder).columns.len : Int) -
      (ts.length : Int) < 0) := by
    rw [hc1]; simp only; omega
  have hdic : strView (copy h b).1 ((copy h b).1.builders h.nextBuilder).columns =
      columnsOf h b := by
    unfold columnsOf strView; rw [hc1, (copy_spec h b).2.2.2.2]
  rw [omit_eq, if_neg hneg, hdic]
  have hv := omitCollect_view (columnsOf h b)
    (omitDelete ts (omitIndex (columnsOf h b) (fun _ => none)))
    (makeStr (copy h b).1 (((copy h b).1.builders h.nextBuilder).columns.len - ts.length)).1
    (makeStr (copy h b).1 (((copy h b).1.builders h.nextBuilder).columns.len - ts.length)).2
  obtain ⟨f1, f2, f3⟩ := omitCollect_frame (columnsOf h b)
    (omitDelete ts (omitIndex (columnsOf h b) (fun _ => none)))
    (makeStr (copy h b).1 (((copy h b).1.builders h.nextBuilder).columns.len - ts.length)).1
    (makeStr (copy h b).1 (((copy h b).1.builders h.nextBuilder).columns.len - ts.length)).2
  have hm0 : strView
      (makeStr (copy h b).1 (((copy h b).1.builders h.nextBuilder).columns.len - ts.length)).1
      (makeStr (copy h b).1 (((copy h b).1.builders h.nextBuilder).columns.len - ts.length)).2
      = [] := by simp [makeStr, strView]
  rw [hm0, List.nil_append, filterMap_omit] at hv
  have g1 : (makeStr (copy h b).1
      (((copy h b).1.builders h.nextBuilder).columns.len - ts.length)).1.builders =
      (copy h b).1.builders := rfl
  have g2 : (makeStr (copy h b).1
      (((copy h b).1.builders h.nextBuilder).columns.len - ts.length)).1.maps = h.maps := rfl
  have g3 : (makeStr (copy h b).1
      (((copy h b).1.builders h.nextBuilder).columns.len - ts.length)).1.mapArrays =
      h.mapArrays := rfl
  rw [g1] at f1
  rw [g2] at f2
  rw [g3] at f3
  generalize omitCollect (columnsOf h b)
    (omitDelete ts (omitIndex (columnsOf h b) (fun _ => none)))
    (makeStr (copy h b).1 (((copy h b).1.builders h.nextBuilder).columns.len - ts.length)).1
    (makeStr (copy h b).1 (((copy h b).1.builders h.nextBuilder).columns.len - ts.length)).2
    = R at hv f1 f2 f3 ⊢
  have hb : (setBuilder R.1 h.nextBuilder
      { R.1.builders h.nextBuilder with columns := R.2 }).builders h.nextBuilder =
      { R.1.builders h.nextBuilder with columns := R.2 } := by simp [setBuilder]
  refine ⟨rfl, ?_, ?_, ?_, ?_, ?_⟩
  · unfold columnsOf
    rw [hb]
    exact hv
  · rw [hb, f1]; simp only; rw [hc1]
  · unfold conditionsOf condView mapAddrs
    rw [hb]
    simp only [setBuilder, f1, f2, f3, hc1]
  · rw [hb, f1]; simp only; rw [hc1]
  · rw [hb, f1]; simp only; rw [hc1]

theorem omit_panics (h : Heap) (b : Nat) (ts : List String)
    (hlen : (h.builders b).columns.len < ts.length) :
    («omit» h b ts).2 = .error "makeslice: cap out of range" := by
  have hc1 : ((copy h b).1.builders h.nextBuilder) = { h.builders b with argNum := 0 } :=
    (copy_spec h b).2.1
  have hneg : ((((copy h b).1.builders h.nextBuilder).columns.len : Int) -
      (ts.length : Int) < 0) := by
    rw [hc1]; simp only; omega
  rw [omit_eq, if_pos hneg]

/-! ### `buildBindMap` and `whereMultiByStruct` -/

theorem buildBindMapLoop_step (targetTag : String) (f : StructField) (rest : List StructField)
    (m : String → BindInfo) (dic : List String) :
    buildBindMapLoop targetTag (f :: rest) m dic =
      if carriesTags targetTag f = true then
        buildBindMapLoop targetTag rest
          (fun k => if k = tagGet f.tag targetTag
            then ⟨tagGet f.tag DBTag, tagGet f.tag OperatorTag, ""⟩ else m k)
          (dic ++ [tagGet f.tag targetTag])
      else buildBindMapLoop targetTag rest m dic := by
  rw [buildBindMapLoop]
  by_cases h1 : (f.value.kindIsPtr && f.value.IsNil) = true
  · rw [if_pos h1, if_neg (by simp [carriesTags, h1])]
  · rw [if_neg h1]
    by_cases h2 : tagGet f.tag DBTag = "" ∨ tagGet f.tag targetTag = "" ∨
        tagGet f.tag OperatorTag = ""
    · rw [if_pos h2, if_neg]
      simp only [carriesTags, Bool.and_eq_true, decide_eq_true_eq]
      rintro ⟨⟨⟨_, h3⟩, h4⟩, h5⟩
      rcases h2 with h2 | h2 | h2
      · exact h3 h2
      · exact h4 h2
      · exact h5 h2
    · rw [if_neg h2, if_pos]
      simp only [not_or] at h2
      simp [carriesTags, h1, h2.1, h2.2.1, h2.2.2]

theorem buildBindMapLoop_spec (targetTag : String) :
    ∀ (fields : List StructField) (m : String → BindInfo) (dic : List String),
      ((fields.filter (carriesTags targetTag)).map fun f => tagGet f.tag targetTag).Nodup →
      (buildBindMapLoop targetTag fields m dic).2 =
        dic ++ (fields.filter (carriesTags targetTag)).map (fun f => tagGet f.tag targetTag) ∧
      (∀ f ∈ fields.filter (carriesTags targetTag),
        (buildBindMapLoop targetTag fields m dic).1 (tagGet f.tag targetTag) =
          ⟨tagGet f.tag DBTag, tagGet f.tag OperatorTag, ""⟩) ∧
      (∀ k, k ∉ (fields.filter (carriesTags targetTag)).map (fun f => tagGet f.tag targetTag) →
        (buildBindMapLoop targetTag fields m dic).1 k = m k) := by
  intro fields
  induction fields with
  | nil => intro m dic _; simp [buildBindMapLoop]
  | cons f rest ih =>
    intro m dic hnd
    rw [buildBindMapLoop_step]
    by_cases hc : carriesTags targetTag f = true
    · rw [if_pos hc]
      rw [List.filter_cons_of_pos hc, List.map_cons, List.nodup_cons] at hnd
      obtain ⟨i1, i2, i3⟩ := ih (fun k => if k = tagGet f.tag targetTag
            then ⟨tagGet f.tag DBTag, tagGet f.tag OperatorTag, ""⟩ else m k)
          (dic ++ [tagGet f.tag targetTag]) hnd.2
      rw [List.filter_cons_of_pos hc]
      refine ⟨by rw [i1]; simp, ?_, ?_⟩
      · intro g hg
        rcases List.mem_cons.mp hg with rfl | hg
        · rw [i3 _ hnd.1]; simp
        · exact i2 g hg
      · intro k hk
        simp only [List.map_cons, List.mem_cons, not_or] at hk
        rw [i3 k hk.2]; simp [hk.1]
    · rw [if_neg hc]
      rw [List.filter_cons_of_neg hc] at hnd ⊢
      exact ih m dic hnd

theorem buildBindMap_spec (targetTag : String) (fields : List StructField) (arg : Interface)
    (harg : arg = .structValue fields ∨ arg = .structPtr fields)
    (hnd : ((fields.filter (carriesTags targetTag)).map fun f => tagGet f.tag targetTag).Nodup) :
    buildBindMap targetTag arg =
      .ok ((fields.filter (carriesTags targetTag)).map fun f =>
        ⟨tagGet f.tag DBTag, tagGet f.tag OperatorTag, tagGet f.tag targetTag⟩) := by
  obtain ⟨i1, i2, _⟩ := buildBindMapLoop_spec targetTag fields (fun _ => ⟨"", "", ""⟩) [] hnd
  have key : (buildBindMapLoop targetTag fields (fun _ => ⟨"", "", ""⟩) []).2.map (fun key =>
      { (buildBindMapLoop targetTag fields (fun _ => ⟨"", "", ""⟩) []).1 key with bind := key }) =
      (fields.filter (carriesTags targetTag)).map fun f =>
        (⟨tagGet f.tag DBTag, tagGet f.tag OperatorTag, tagGet f.tag targetTag⟩ : BindInfo) := by
    rw [i1, List.nil_append, List.map_map]
    apply List.map_congr_left
    intro f hf
    simp only [Function.comp_apply, i2 f hf]
  rcases harg with rfl | rfl
  · simp only [buildBindMap, key]
  · simp only [buildBindMap, key]

theorem whereMultiByStructLoop_eq : ∀ (infos : List BindInfo) (h : Heap) (c : Nat),
    whereMultiByStructLoop infos h c =
      whereChain ((infos.filter fun i => decide (getOperatorFromTag i.operator ≠ "")).map
        fun i => ⟨i.target, getOperatorFromTag i.operator, [i.bind]⟩) h c := by
  intro infos
  induction infos with
  | nil => intro h c; rfl
  | cons i rest ih =>
    intro h c
    rw [whereMultiByStructLoop]
    by_cases hop : getOperatorFromTag i.operator = ""
    · rw [if_pos hop, ih, List.filter_cons_of_neg (by simp [hop])]
    · rw [if_neg hop, ih, List.filter_cons_of_pos (by simp [hop])]
      rfl

theorem copy_CondsOK (h : Heap) (b : Nat) (hok : CondsOK h b) :
    CondsOK (copy h b).1 (copy h b).2 :=
  CondsOK_congr h _ b _ rfl rfl (copy_whereConditions h b) hok

theorem copy_conditions (h : Heap) (b : Nat) :
    conditionsOf (copy h b).1 (copy h b).2 = conditionsOf h b := by
  unfold conditionsOf condView mapAddrs
  rw [copy_whereConditions]
  rfl

theorem copy_placeholderType (h : Heap) (b : Nat) :
    ((copy h b).1.builders (copy h b).2).placeholderType = (h.builders b).placeholderType := by
  rw [(copy_spec h b).2.1]

/-- What `whereMultiByStruct` appends, in terms of the entries that
`buildBindMap` returns. -/
theorem whereMultiByStruct_infos (h : Heap) (b : Nat) (targetTag : String) (arg : Interface)
    (infos : List BindInfo) (hok : CondsOK h b) (hb : buildBindMap targetTag arg = .ok infos) :
    ∃ c, (whereMultiByStruct h b targetTag arg).2 = .ok c ∧
      conditionsOf (whereMultiByStruct h b targetTag arg).1 c =
        conditionsOf h b ++
          (infos.filter fun i => decide (getOperatorFromTag i.operator ≠ "")).map
            (fun i => ⟨i.target, getOperatorFromTag i.operator, i.bind, "AND", "", ""⟩) ∧
      CondsOK (whereMultiByStruct h b targetTag arg).1 c ∧
      ((whereMultiByStruct h b targetTag arg).1.builders c).placeholderType =
        (h.builders b).placeholderType := by
  obtain ⟨s1, s2, s3⟩ := whereChain_spec
    ((infos.filter fun i => decide (getOperatorFromTag i.operator ≠ "")).map
        fun i => ⟨i.target, getOperatorFromTag i.operator, [i.bind]⟩)
    (copy h b).1 (copy h b).2 (copy_CondsOK h b hok)
  have hw : whereMultiByStruct h b targetTag arg =
      ((whereMultiByStructLoop infos (copy h b).1 (copy h b).2).1,
       .ok (whereMultiByStructLoop infos (copy h b).1 (copy h b).2).2) := by
    simp only [whereMultiByStruct, hb]
  rw [hw, whereMultiByStructLoop_eq]
  refine ⟨_, rfl, ?_, s2, ?_⟩
  · rw [s1, copy_conditions, List.map_map]
    rfl
  · rw [s3, copy_placeholderType]

theorem whereMultiByStruct_spec (h : Heap) (b : Nat) (targetTag : String)
    (fields : List StructField) (arg : Interface)
    (harg : arg = .structValue fields ∨ arg = .structPtr fields) (hok : CondsOK h b)
    (hnd : ((fields.filter (carriesTags targetTag)).map fun f => tagGet f.tag targetTag).Nodup) :
    ∃ c, (whereMultiByStruct h b targetTag arg).2 = .ok c ∧
      conditionsOf (whereMultiByStruct h b targetTag arg).1 c =
        conditionsOf h b ++ (fields.filter (acceptedField targetTag)).map
          (fieldCondition targetTag) ∧
      CondsOK (whereMultiByStruct h b targetTag arg).1 c ∧
      ((whereMultiByStruct h b targetTag arg).1.builders c).placeholderType =
        (h.builders b).placeholderType := by
  obtain ⟨c, h1, h2, h3, h4⟩ := whereMultiByStruct_infos h b targetTag arg _ hok
    (buildBindMap_spec targetTag fields arg harg hnd)
  refine ⟨c, h1, ?_, h3, h4⟩
  rw [h2, List.filter_map, List.map_map, List.filter_filter]
  congr 1
  have hf : (fun a => ((fun i : BindInfo => decide (getOperatorFromTag i.operator ≠ "")) ∘
        fun f : StructField => (⟨tagGet f.tag DBTag, tagGet f.tag OperatorTag,
          tagGet f.tag targetTag⟩ : BindInfo)) a && carriesTags targetTag a) =
      acceptedField targetTag := by
    funext a
    simp only [Function.comp_apply, acceptedField]
    exact Bool.and_comm _ _
  rw [hf]
  rfl

/-! ### `whereSubQuery` -/

theorem whereSubQuery_ok (h : Heap) (b : Nat) (col op : String) (sub : SelectQueryBuilder)
    (hcols : sub.columns.length = 1) (hlim : sub.limitUse ≠ some false) :
    whereSubQuery h b col op (some sub) =
      ((appendCondition h b ⟨col, op, "", "AND", "", TrimRight sub.built⟩).1,
       .ok (appendCondition h b ⟨col, op, "", "AND", "", TrimRight sub.built⟩).2) := by
  have h1 : ¬ (sub.columns.length = 0 ∨ sub.columns.length > 1) := by omega
  have h2 : ¬ (sub.limitUse ≠ none ∧ sub.limitUse = some false) := fun hh => hlim hh.2
  simp only [whereSubQuery, if_neg h1, if_neg h2]
  rfl

theorem TrimRight_spec (s : String) :
    (∃ n, s = TrimRight s ++ ⟨List.replicate n ';'⟩) ∧
    (TrimRight s).data.getLast? ≠ some ';' := by
  constructor
  · refine ⟨(s.data.reverse.takeWhile fun c => c == ';').length, ?_⟩
    apply String.ext
    simp only [TrimRight, String.data_append]
    have h1 := List.takeWhile_append_dropWhile (fun c => c == ';') s.data.reverse
    have h2 : (s.data.reverse.takeWhile fun c => c == ';') =
        List.replicate (s.data.reverse.takeWhile fun c => c == ';').length ';' := by
      rw [List.eq_replicate_iff]
      refine ⟨rfl, ?_⟩
      intro c hc
      have := List.mem_takeWhile_imp hc
      simpa using this
    have h3 : s.data = (s.data.reverse.dropWhile fun c => c == ';').reverse ++
        (s.data.reverse.takeWhile fun c => c == ';').reverse := by
      rw [← List.reverse_append, h1, List.reverse_reverse]
    rw [h2, List.reverse_replicate] at h3
    exact h3
  · simp only [TrimRight, List.getLast?_reverse]
    intro hh
    have := List.head?_dropWhile_not (fun c => c == ';') s.data.reverse
    rw [hh] at this
    simp at this

/-! ### Single fragments of a render -/

theorem paragraphsOf_getElem (mode : Int) :
    ∀ (cs : List Condition) (k : Int) (ps : List String),
      (paragraphsOf mode k cs).1 = .ok ps →
      ∀ (i : Nat) (c : Condition), cs[i]? = some c →
        ∃ k2 p, (paragraphOf mode k2 c).1 = .ok p ∧ ps[i]? = some p := by
  intro cs
  induction cs with
  | nil => intro k ps _ i c hc; simp at hc
  | cons d cs ih =>
    intro k ps hps
    simp only [paragraphsOf] at hps
    cases hp : (paragraphOf mode k d).1 with
    | error e => rw [hp] at hps; simp at hps
    | ok p =>
      rw [hp] at hps
      simp only at hps
      cases hq : (paragraphsOf mode (paragraphOf mode k d).2 cs).1 with
      | error e => rw [hq] at hps; simp at hps
      | ok qs =>
        rw [hq] at hps
        simp only [Except.ok.injEq] at hps
        subst hps
        intro i c hc
        cases i with
        | zero =>
          simp only [List.getElem?_cons_zero, Option.some.injEq] at hc
          subst hc
          exact ⟨k, p, hp, by simp⟩
        | succ i =>
          simp only [List.getElem?_cons_succ] at hc ⊢
          exact ih _ qs hq i c hc

theorem markHead_getElem (cs : List Condition) (i : Nat) (c : Condition)
    (hc : cs[i]? = some c) :
    (markHead cs)[i]? = some (if i = 0 then { c with logical := "WHERE" } else c) := by
  cases cs with
  | nil => simp at hc
  | cons d ds =>
    cases i with
    | zero =>
      simp only [List.getElem?_cons_zero, Option.some.injEq] at hc
      subst hc
      simp [markHead]
    | succ i =>
      simp only [List.getElem?_cons_succ] at hc
      simp [markHead, hc]

theorem paragraphOf_subQuery (mode : Int) (k : Int) (c : Condition) (hs : c.subQuery ≠ "") :
    (paragraphOf mode k c).1 =
      .ok (c.logical ++ " " ++ c.column ++ " " ++ c.operator ++ " (" ++ c.subQuery ++ ")") := by
  simp only [paragraphOf, paragraphWith, if_pos hs]

theorem paragraphOf_null (mode : Int) (k : Int) (c : Condition) (hs : c.subQuery = "")
    (hop : c.operator = IsNull ∨ c.operator = IsNotNull) :
    (paragraphOf mode k c).1 = .ok (c.logical ++ " " ++ c.column ++ " " ++ c.operator) := by
  simp only [paragraphOf, paragraphWith, hs, ne_eq, not_true_eq_false, if_false, if_pos hop]

theorem paragraphsOf_append_error (mode : Int) :
    ∀ (cs ds : List Condition) (k : Int) (e : String),
      (paragraphsOf mode k cs).1 = .error e →
      (paragraphsOf mode k (cs ++ ds)).1 = .error e := by
  intro cs
  induction cs with
  | nil => intro ds k e he; simp [paragraphsOf] at he
  | cons c cs ih =>
    intro ds k e he
    simp only [paragraphsOf] at he
    simp only [List.cons_append, paragraphsOf]
    cases hp : (paragraphOf mode k c).1 with
    | error e2 => rw [hp] at he; simpa using he
    | ok p =>
      rw [hp] at he
      simp only at he ⊢
      cases hq : (paragraphsOf mode (paragraphOf mode k c).2 cs).1 with
      | ok qs => rw [hq] at he; simp at he
      | error e2 =>
        rw [hq] at he
        simp only [Except.error.injEq] at he
        subst he
        rw [List.append_eq, ih ds _ e2 hq]

theorem markHead_snoc (cs : List Condition) (c : Condition) :
    markHead (cs ++ [c]) =
      (if cs = [] then [] else markHead cs) ++
        [if cs = [] then { c with logical := "WHERE" } else c] := by
  cases cs with
  | nil => simp [markHead]
  | cons d ds => simp [markHead]

theorem paragraphsOf_singleton (mode : Int) (k : Int) (c : Condition) :
    (paragraphsOf mode k [c]).1 =
      match (paragraphOf mode k c).1 with
      | .ok p => .ok [p]
      | .error e => .error e := by
  simp only [paragraphsOf]
  cases (paragraphOf mode k c).1 <;> rfl

/-- The fragment of an `IN` / `NOT IN` condition whose stored list length is
`Itoa n`: a panic for a negative `n`, an empty parenthesis pair for 0. -/
theorem paragraphOf_list_length (mode : Int) (k : Int) (c : Condition) (n : Int)
    (hop : c.operator = In ∨ c.operator = NotIn) (hsub : c.subQuery = "")
    (hlen : c.listLength = Itoa n) :
    (n < 0 → (paragraphOf mode k c).1 = .error "makeslice: cap out of range") ∧
    (n = 0 → (paragraphOf mode k c).1 =
      .ok (c.logical ++ " " ++ c.column ++ " " ++ c.operator ++ " " ++ "()")) := by
  have hnull : ¬ (c.operator = IsNull ∨ c.operator = IsNotNull) := by
    rcases hop with e | e <;> rw [e] <;> decide
  have ha : Atoi c.listLength = n := by rw [hlen, Atoi_Itoa]
  constructor
  · intro hn
    simp only [paragraphOf, paragraphWith, hsub, ne_eq, not_true_eq_false, if_false, if_neg hnull,
      if_pos hop, ha, if_pos hn]
  · intro hn
    subst hn
    simp only [paragraphOf, paragraphWith, hsub, ne_eq, not_true_eq_false, if_false, if_neg hnull,
      if_pos hop, ha, lt_irrefl, listBinds]
    rfl

/-! ### Lemmas for the claims on `whereMultiByStruct` and on list lengths -/

theorem resultConditions_of_ok (r : Heap × Except String Nat) (c : Nat) (cs : List Condition)
    (h1 : r.2 = .ok c) (h2 : conditionsOf r.1 c = cs) : resultConditions r = some cs := by
  unfold resultConditions
  rw [h1]
  simp [h2]

theorem labels_nodup_remove (targetTag : String) (pre post : List StructField)
    (f : StructField)
    (hnd : (((pre ++ f :: post).filter (carriesTags targetTag)).map
      fun g => tagGet g.tag targetTag).Nodup) :
    (((pre ++ post).filter (carriesTags targetTag)).map
      fun g => tagGet g.tag targetTag).Nodup := by
  refine List.Nodup.sublist ?_ hnd
  apply List.Sublist.map
  apply List.Sublist.filter
  exact List.Sublist.append_left (List.sublist_cons_self f post) pre

theorem mem_markHead (cs : List Condition) (c : Condition) (hc : c ∈ markHead cs) :
    ∃ d ∈ cs, c.listLength = d.listLength := by
  cases cs with
  | nil => simp [markHead] at hc
  | cons d ds =>
    simp only [markHead, List.mem_cons] at hc
    rcases hc with rfl | hc
    · exact ⟨d, by simp, rfl⟩
    · exact ⟨c, by simp [hc], rfl⟩

/-- The render of the builder returned by `whereIn` / `whereNotIn` with the
list length `n`: a panic for a negative `n`; for `n = 0` it returns when the
receiver's list lengths are non-negative, and its last fragment has an empty
parenthesis pair. -/
theorem render_after_list (h : Heap) (b : Nat) (col op : String) (bind : List String)
    (n : Int) (hok : CondsOK h b) (hop : op = In ∨ op = NotIn) :
    (n < 0 → ∃ e, (getWhereParagraphs
        (appendCondition h b ⟨col, op, bindOf col bind, "AND", Itoa n, ""⟩).1
        (appendCondition h b ⟨col, op, bindOf col bind, "AND", Itoa n, ""⟩).2).2 = .error e) ∧
    (n = 0 →
      ((∀ c ∈ conditionsOf h b, 0 ≤ Atoi c.listLength) → ∃ ps, (getWhereParagraphs
        (appendCondition h b ⟨col, op, bindOf col bind, "AND", Itoa n, ""⟩).1
        (appendCondition h b ⟨col, op, bindOf col bind, "AND", Itoa n, ""⟩).2).2 = .ok ps) ∧
      ∀ ps, (getWhereParagraphs
        (appendCondition h b ⟨col, op, bindOf col bind, "AND", Itoa n, ""⟩).1
        (appendCondition h b ⟨col, op, bindOf col bind, "AND", Itoa n, ""⟩).2).2 = .ok ps →
        ps.getLast? = some ((if conditionsOf h b = [] then "WHERE" else "AND") ++ " " ++ col ++
          " " ++ op ++ " " ++ "()")) := by
  have hok2 := appendCondition_CondsOK h b ⟨col, op, bindOf col bind, "AND", Itoa n, ""⟩ hok
  rw [getWhereParagraphs_eq, conditionsOf_markFirst _ _ hok2.1,
    appendCondition_conditions h b _ hok.2, (appendCondition_builder h b _).2.1, markHead_snoc]
  generalize ((appendCondition h b ⟨col, op, bindOf col bind, "AND", Itoa n, ""⟩).1.builders
    (appendCondition h b ⟨col, op, bindOf col bind, "AND", Itoa n, ""⟩).2).argNum = k
  have hlast : ∀ k2 : Int,
      (n < 0 → (paragraphOf (h.builders b).placeholderType k2
        (if conditionsOf h b = [] then
          { (⟨col, op, bindOf col bind, "AND", Itoa n, ""⟩ : Condition) with logical := "WHERE" }
          else ⟨col, op, bindOf col bind, "AND", Itoa n, ""⟩)).1 =
        .error "makeslice: cap out of range") ∧
      (n = 0 → (paragraphOf (h.builders b).placeholderType k2
        (if conditionsOf h b = [] then
          { (⟨col, op, bindOf col bind, "AND", Itoa n, ""⟩ : Condition) with logical := "WHERE" }
          else ⟨col, op, bindOf col bind, "AND", Itoa n, ""⟩)).1 =
        .ok ((if conditionsOf h b = [] then "WHERE" else "AND") ++ " " ++ col ++
          " " ++ op ++ " " ++ "()")) := by
    intro k2
    by_cases he : conditionsOf h b = []
    · simp only [if_pos he]
      exact paragraphOf_list_length _ k2 _ n hop rfl rfl
    · simp only [if_neg he]
      exact paragraphOf_list_length _ k2 _ n hop rfl rfl
  cases hpre : (paragraphsOf (h.builders b).placeholderType k
      (if conditionsOf h b = [] then [] else markHead (conditionsOf h b))).1 with
  | error e =>
    rw [paragraphsOf_append_error _ _ _ _ e hpre]
    refine ⟨fun _ => ⟨e, rfl⟩, fun _ => ⟨?_, ?_⟩⟩
    · intro hlen
      exfalso
      obtain ⟨ps, hps⟩ := paragraphsOf_total (h.builders b).placeholderType
        (if conditionsOf h b = [] then [] else markHead (conditionsOf h b)) k (by
          intro c hc
          by_cases he : conditionsOf h b = []
          · simp [he] at hc
          · rw [if_neg he] at hc
            obtain ⟨d, hd, hdl⟩ := mem_markHead _ c hc
            rw [hdl]; exact hlen d hd)
      rw [hpre] at hps
      simp at hps
    · intro ps hps
      simp at hps
  | ok ps0 =>
    rw [paragraphsOf_append _ _ _ _ ps0 hpre, paragraphsOf_singleton]
    refine ⟨?_, ?_⟩
    · intro hn
      rw [(hlast _).1 hn]
      exact ⟨_, rfl⟩
    · intro hn
      rw [(hlast _).2 hn]
      refine ⟨fun _ => ⟨_, rfl⟩, ?_⟩
      intro ps hps
      simp only [prependOk, Except.ok.injEq] at hps
      rw [← hps]
      simp

/-! ### Operator codes -/

/-- When the bind labels of the recorded fields are pairwise distinct,
`whereMultiByStruct` appends one condition per accepted field, in field order,
built from that field's own tags. -/
theorem whereMultiByStruct_example :
    resultConditions (whereMultiByStruct (start Named).1 (start Named).2 "search"
        (.structValue threeLabels)) =
      some ((threeLabels.filter (acceptedField "search")).map (fieldCondition "search")) :=
  rfl

/-- The table of `getOperatorFromTag`: the ten codes go to their operators and
every other code to the empty string.  When the bind labels of the fields that
are not absent pointers and carry the three tags are pairwise distinct, a
field whose code is unrecognised contributes no condition and the conditions
of the other fields are appended as they are without it. -/
theorem operator_codes_and_skipping :
    (getOperatorFromTag "eq" = "=" ∧ getOperatorFromTag "gt" = ">" ∧
      getOperatorFromTag "gte" = ">=" ∧ getOperatorFromTag "lt" = "<" ∧
      getOperatorFromTag "lte" = "<=" ∧ getOperatorFromTag "ne" = "!=" ∧
      getOperatorFromTag "like" = "LIKE" ∧ getOperatorFromTag "not-like" = "NOT LIKE" ∧
      getOperatorFromTag "is-null" = "IS NULL" ∧ getOperatorFromTag "not-null" = "IS NOT NULL") ∧
    (∀ tag, tag ∉ ["eq", "gt", "gte", "lt", "lte", "ne", "like", "not-like", "is-null",
        "not-null"] → getOperatorFromTag tag = "") ∧
    ∀ (h : Heap) (b : Nat) (targetTag : String) (pre post : List StructField)
      (f : StructField) (wrap : List StructField → Interface),
      wrap = Interface.structValue ∨ wrap = Interface.structPtr → CondsOK h b →
      (((pre ++ f :: post).filter (carriesTags targetTag)).map
        fun g => tagGet g.tag targetTag).Nodup →
      getOperatorFromTag (tagGet f.tag OperatorTag) = "" →
      resultConditions (whereMultiByStruct h b targetTag (wrap (pre ++ f :: post))) =
        some (conditionsOf h b ++ ((pre ++ post).filter (acceptedField targetTag)).map
          (fieldCondition targetTag)) ∧
      resultConditions (whereMultiByStruct h b targetTag (wrap (pre ++ f :: post))) =
        resultConditions (whereMultiByStruct h b targetTag (wrap (pre ++ post))) := by
  refine ⟨⟨rfl, rfl, rfl, rfl, rfl, rfl, rfl, rfl, rfl, rfl⟩, ?_, ?_⟩
  · intro tag htag
    simp only [List.mem_cons, List.mem_singleton, List.not_mem_nil, or_false, not_or] at htag
    obtain ⟨h1, h2, h3, h4, h5, h6, h7, h8, h9, h10⟩ := htag
    simp [getOperatorFromTag, h1, h2, h3, h4, h5, h6, h7, h8, h9, h10]
  · intro h b targetTag pre post f wrap hwrap hok hnd hf
    have harg1 : wrap (pre ++ f :: post) = .structValue (pre ++ f :: post) ∨
        wrap (pre ++ f :: post) = .structPtr (pre ++ f :: post) := by
      rcases hwrap with rfl | rfl
      · exact Or.inl rfl
      · exact Or.inr rfl
    have harg2 : wrap (pre ++ post) = .structValue (pre ++ post) ∨
        wrap (pre ++ post) = .structPtr (pre ++ post) := by
      rcases hwrap with rfl | rfl
      · exact Or.inl rfl
      · exact Or.inr rfl
    obtain ⟨c1, a1, a2, _, _⟩ := whereMultiByStruct_spec h b targetTag _ _ harg1 hok hnd
    obtain ⟨c2, b1, b2, _, _⟩ := whereMultiByStruct_spec h b targetTag _ _ harg2 hok
      (labels_nodup_remove targetTag pre post f hnd)
    have hfilter : (pre ++ f :: post).filter (acceptedField targetTag) =
        (pre ++ post).filter (acceptedField targetTag) := by
      have hnot : acceptedField targetTag f = false := by simp [acceptedField, hf]
      simp [List.filter_append, List.filter_cons, hnot]
    rw [hfilter] at a2
    rw [resultConditions_of_ok _ c1 _ a1 a2, resultConditions_of_ok _ c2 _ b1 b2]
    exact ⟨rfl, rfl⟩

/-- Three fields with distinct labels: the second, whose code `bogus` is
unrecognised, yields no condition and the two others are appended. -/
theorem operator_codes_and_skipping_example :
    CondsOK (start Named).1 (start Named).2 ∧
    ((threeLabels.filter (carriesTags "search")).map fun g => tagGet g.tag "search").Nodup ∧
    resultConditions (whereMultiByStruct (start Named).1 (start Named).2 "search"
        (.structValue threeLabels)) =
      some [⟨"a", "=", "x", "AND", "", ""⟩, ⟨"c", "IS NOT NULL", "z", "AND", "", ""⟩] :=
  ⟨by decide, by decide,
    (operator_codes_and_skipping.2.2 (start Named).1 (start Named).2 "search"
      [⟨[("db", "a"), ("search", "x"), ("operator", "eq")], .int 1⟩]
      [⟨[("db", "c"), ("search", "z"), ("operator", "not-null")], .int 1⟩]
      ⟨[("db", "b"), ("search", "y"), ("operator", "bogus")], .int 1⟩
      Interface.structValue (Or.inl rfl) (by decide) (by decide) rfl).1⟩

/-! ### The counter of the builder a mutator returns -/

theorem placeholder_argNum (h : Heap) (b : Nat) (mode : Int) :
    ((placeholder h b mode).1.builders (placeholder h b mode).2).argNum = 0 := by
  simp [placeholder, setBuilder, copy, newBuilder]

theorem table_argNum (h : Heap) (b : Nat) (tableName : String) :
    ((table h b tableName).1.builders (table h b tableName).2).argNum = 0 := by
  simp [table, setBuilder, copy, newBuilder]

theorem copy_argNum (h : Heap) (b : Nat) : ((copy h b).1.builders (copy h b).2).argNum = 0 := by
  rw [(copy_spec h b).2.1]

theorem columnLoop_argNum (c : Nat) : ∀ (cols : List String) (h : Heap),
    ((columnLoop c cols h).builders c).argNum = (h.builders c).argNum := by
  intro cols
  induction cols with
  | nil => intro h; rfl
  | cons x rest ih =>
    intro h
    rw [columnLoop, ih]
    simp [setBuilder, (appendStr_frame h (h.builders c).columns x).1]

theorem column_argNum (h : Heap) (b : Nat) (cols : List String) :
    ((column h b cols).1.builders (column h b cols).2).argNum = 0 :=
  (columnLoop_argNum (copy h b).2 cols (copy h b).1).trans (copy_argNum h b)

theorem modelLoop_argNum (b c : Nat) : ∀ (fields : List StructField) (h : Heap),
    ((modelLoop b c fields h).builders c).argNum = (h.builders c).argNum := by
  intro fields
  induction fields with
  | nil => intro h; rfl
  | cons f rest ih =>
    intro h
    rw [modelLoop]
    split
    · exact ih h
    · split
      · exact ih h
      · split
        · exact ih h
        · split
          · exact ih h
          · split
            · exact ih h
            · rw [ih]
              simp [setBuilder,
                (appendStr_frame h (h.builders c).columns (tagGet f.tag DBTag)).1]

theorem model_argNum (h : Heap) (b : Nat) (arg : Interface) (nz : Option (List Bool))
    (c : Nat) (hc : (model h b arg nz).2 = .ok c) :
    ((model h b arg nz).1.builders c).argNum = 0 := by
  have key : ∀ (h0 : Heap) (fields : List StructField),
      ((modelLoop b (copy h0 b).2 fields (copy h0 b).1).builders (copy h0 b).2).argNum = 0 :=
    fun h0 fields => (modelLoop_argNum b (copy h0 b).2 fields (copy h0 b).1).trans
      (copy_argNum h0 b)
  cases nz with
  | none =>
    cases arg with
    | other => simp [model] at hc
    | nilStructPtr tags =>
      cases tags with
      | nil => simp only [model, Except.ok.injEq] at hc; subst hc; exact copy_argNum h b
      | cons t ts => simp [model] at hc
    | structValue fields => simp only [model, Except.ok.injEq] at hc; subst hc; exact key h fields
    | structPtr fields => simp only [model, Except.ok.injEq] at hc; subst hc; exact key h fields
  | some l =>
    cases l with
    | nil => simp [model] at hc
    | cons x rest =>
      cases x with
      | false =>
        cases arg with
        | other => simp [model] at hc
        | nilStructPtr tags =>
          cases tags with
          | nil => simp only [model, Except.ok.injEq] at hc; subst hc; exact copy_argNum h b
          | cons t ts => simp [model] at hc
        | structValue fields =>
          simp only [model, Except.ok.injEq] at hc; subst hc; exact key h fields
        | structPtr fields =>
          simp only [model, Except.ok.injEq] at hc; subst hc; exact key h fields
      | true =>
        cases arg with
        | other => simp [model] at hc
        | nilStructPtr tags =>
          cases tags with
          | nil => simp only [model, Except.ok.injEq] at hc; subst hc; exact copy_argNum _ b
          | cons t ts => simp [model] at hc
        | structValue fields =>
          simp only [model, Except.ok.injEq] at hc; subst hc
          exact key (setBuilder h b { h.builders b with ignoreZeroValue := false }) fields
        | structPtr fields =>
          simp only [model, Except.ok.injEq] at hc; subst hc
          exact key (setBuilder h b { h.builders b with ignoreZeroValue := false }) fields

theorem appendCondition_argNum (h : Heap) (b : Nat) (c : Condition) :
    ((appendCondition h b c).1.builders (appendCondition h b c).2).argNum = 0 :=
  (appendCondition_builder h b c).2.2.2.1

theorem omit_argNum (h : Heap) (b : Nat) (ts : List String) (c : Nat)
    (hc : («omit» h b ts).2 = .ok c) : ((«omit» h b ts).1.builders c).argNum = 0 := by
  rw [omit_eq] at hc ⊢
  by_cases hneg : (((copy h b).1.builders h.nextBuilder).columns.len : Int) -
      (ts.length : Int) < 0
  · rw [if_pos hneg] at hc; simp at hc
  · rw [if_neg hneg] at hc ⊢
    simp only [Except.ok.injEq] at hc
    subst hc
    simp only [setBuilder, if_true]
    rw [(omitCollect_frame _ _ _ _).1]
    exact copy_argNum h b

theorem whereChain_argNum : ∀ (ws : List WhereCall) (h : Heap) (b : Nat),
    (h.builders b).argNum = 0 →
    ((whereChain ws h b).1.builders (whereChain ws h b).2).argNum = 0 := by
  intro ws
  induction ws with
  | nil => intro h b hb; exact hb
  | cons w ws ih =>
    intro h b _
    rw [whereChain]
    exact ih _ _ (appendCondition_argNum h b _)

theorem whereMultiByStruct_argNum (h : Heap) (b : Nat) (targetTag : String) (arg : Interface)
    (c : Nat) (hc : (whereMultiByStruct h b targetTag arg).2 = .ok c) :
    ((whereMultiByStruct h b targetTag arg).1.builders c).argNum = 0 := by
  cases hb : buildBindMap targetTag arg with
  | error e => simp [whereMultiByStruct, hb] at hc
  | ok infos =>
    simp only [whereMultiByStruct, hb, Except.ok.injEq] at hc ⊢
    subst hc
    rw [whereMultiByStructLoop_eq]
    exact whereChain_argNum _ _ _ (copy_argNum h b)

theorem whereSubQuery_argNum (h : Heap) (b : Nat) (col op : String)
    (sub : Option SelectQueryBuilder) (c : Nat)
    (hc : (whereSubQuery h b col op sub).2 = .ok c) :
    ((whereSubQuery h b col op sub).1.builders c).argNum = 0 := by
  cases sub with
  | none => simp [whereSubQuery] at hc
  | some s =>
    by_cases h1 : s.columns.length = 1
    · by_cases h2 : s.limitUse = some false
      · have hh : s.limitUse ≠ none ∧ s.limitUse = some false := ⟨by rw [h2]; simp, h2⟩
        have h0 : ¬ (s.columns.length = 0 ∨ s.columns.length > 1) := by omega
        have he : (whereSubQuery h b col op (some s)).2 = .error SubQueryReturnMultiRowsErr := by
          simp only [whereSubQuery]
          rw [if_neg h0, if_pos hh]
        rw [he] at hc
        cases hc
      · rw [whereSubQuery_ok h b col op s h1 h2] at hc ⊢
        simp only [Except.ok.injEq] at hc
        subst hc
        exact appendCondition_argNum h b _
    · have h0 : s.columns.length = 0 ∨ s.columns.length > 1 := by omega
      have he : (whereSubQuery h b col op (some s)).2 = .error UnspecifiedColumnErr := by
        simp only [whereSubQuery]
        rw [if_pos h0]
      rw [he] at hc
      cases hc

/-- Every mutator returns, whenever it returns, a builder whose counter is 0,
whatever the counter of its receiver. -/
theorem mutators_reset_counter (h : Heap) (b : Nat) :
    (∀ mode, ((placeholder h b mode).1.builders (placeholder h b mode).2).argNum = 0) ∧
    (∀ t, ((table h b t).1.builders (table h b t).2).argNum = 0) ∧
    (∀ cols, ((column h b cols).1.builders (column h b cols).2).argNum = 0) ∧
    (∀ ts c, («omit» h b ts).2 = .ok c → ((«omit» h b ts).1.builders c).argNum = 0) ∧
    (∀ arg nz c, (model h b arg nz).2 = .ok c → ((model h b arg nz).1.builders c).argNum = 0) ∧
    (∀ col op bind,
      ((«where» h b col op bind).1.builders («where» h b col op bind).2).argNum = 0 ∧
      ((or h b col op bind).1.builders (or h b col op bind).2).argNum = 0) ∧
    (∀ col n bind,
      ((whereIn h b col n bind).1.builders (whereIn h b col n bind).2).argNum = 0 ∧
      ((whereNotIn h b col n bind).1.builders (whereNotIn h b col n bind).2).argNum = 0) ∧
    (∀ tag arg c, (whereMultiByStruct h b tag arg).2 = .ok c →
      ((whereMultiByStruct h b tag arg).1.builders c).argNum = 0) ∧
    (∀ col op sub c, (whereSubQuery h b col op sub).2 = .ok c →
      ((whereSubQuery h b col op sub).1.builders c).argNum = 0) :=
  ⟨placeholder_argNum h b, table_argNum h b, column_argNum h b, omit_argNum h b,
    model_argNum h b,
    fun _ _ _ => ⟨appendCondition_argNum h b _, appendCondition_argNum h b _⟩,
    fun _ _ _ => ⟨appendCondition_argNum h b _, appendCondition_argNum h b _⟩,
    whereMultiByStruct_argNum h b, whereSubQuery_argNum h b⟩

/-! ### The heap a render leaves -/

theorem markFirst_strArrays (h : Heap) (b : Nat) : (markFirst h b).strArrays = h.strArrays := by
  unfold markFirst
  split <;> rfl

theorem conditionsOf_setArgNum (h : Heap) (b : Nat) (k : Int) :
    conditionsOf (setArgNum h b k) b = conditionsOf h b := by
  unfold conditionsOf condView mapAddrs
  simp [setArgNum, setBuilder]

theorem columnsOf_setArgNum (h : Heap) (b : Nat) (k : Int) :
    columnsOf (setArgNum h b k) b = columnsOf h b := by
  unfold columnsOf strView
  simp [setArgNum, setBuilder]

theorem columnsOf_markFirst (h : Heap) (b : Nat) :
    columnsOf (markFirst h b) b = columnsOf h b := by
  unfold columnsOf strView
  rw [markFirst_builders, markFirst_strArrays]

/-! ### The counter a render stops at -/

theorem paragraphOf_counter_dollar (k : Int) (c : Condition) (hn : 0 ≤ Atoi c.listLength) :
    (paragraphOf DollarNumber k c).2 = k + counterStep c := by
  have hN : ¬ DollarNumber = Named := by decide
  unfold paragraphOf paragraphWith bindFor counterStep listCounter
  by_cases hop : c.operator ≠ In ∧ c.operator ≠ NotIn
  · have hin : ¬ (c.operator = In ∨ c.operator = NotIn) := by
      rintro (e | e)
      · exact hop.1 e
      · exact hop.2 e
    simp only [if_true, if_pos hop, if_neg hin]
    by_cases hs : c.subQuery ≠ ""
    · simp [if_pos hs]
    · simp only [if_neg hs]
      by_cases hnull : c.operator = IsNull ∨ c.operator = IsNotNull
      · simp [if_pos hnull]
      · simp [if_neg hnull]
  · have hin : c.operator = In ∨ c.operator = NotIn := by
      by_contra hcon
      exact hop ⟨fun e => hcon (Or.inl e), fun e => hcon (Or.inr e)⟩
    have hnull : ¬ (c.operator = IsNull ∨ c.operator = IsNotNull) := by
      rcases hin with e | e <;> rw [e] <;> decide
    have hneg : ¬ Atoi c.listLength < 0 := by omega
    simp only [if_true, if_neg hop]
    by_cases hs : c.subQuery ≠ ""
    · have hs2 : ¬ c.subQuery = "" := hs
      simp [if_pos hs, hs2]
    · have hs2 : c.subQuery = "" := not_not.mp hs
      simp only [if_neg hs, if_neg hnull, if_pos hin, if_neg hneg, if_neg hN, if_pos hs2]
      congr 1
      exact Int.toNat_of_nonneg hn

theorem paragraphsOf_counter_dollar : ∀ (cs : List Condition) (k : Int),
    (∀ c ∈ cs, 0 ≤ Atoi c.listLength) →
    (paragraphsOf DollarNumber k cs).2 = k + (cs.map counterStep).sum := by
  intro cs
  induction cs with
  | nil => intro k _; simp [paragraphsOf]
  | cons c cs ih =>
    intro k hc
    have h1 := paragraphOf_counter_dollar k c (hc c (by simp))
    obtain ⟨p, hp⟩ := paragraphOf_total DollarNumber k c (hc c (by simp))
    have h2 := ih (paragraphOf DollarNumber k c).2 (fun d hd => hc d (by simp [hd]))
    obtain ⟨ps, hps⟩ := paragraphsOf_total DollarNumber cs (paragraphOf DollarNumber k c).2
      (fun d hd => hc d (by simp [hd]))
    rw [h1] at h2 hps
    simp only [paragraphsOf, hp, h1, hps, h2, List.map_cons, List.sum_cons]
    ring

theorem counterStep_sum (cs : List Condition) :
    (cs.map counterStep).sum =
      ((cs.filter fun c => decide (c.operator ≠ In ∧ c.operator ≠ NotIn)).length : Int) +
      ((cs.filter fun c => decide ((c.operator = In ∨ c.operator = NotIn) ∧
          c.subQuery = "")).map fun c => Atoi c.listLength).sum := by
  induction cs with
  | nil => simp
  | cons c cs ih =>
    rw [List.map_cons, List.sum_cons, ih]
    by_cases hop : c.operator ≠ In ∧ c.operator ≠ NotIn
    · have hin : ¬ ((c.operator = In ∨ c.operator = NotIn) ∧ c.subQuery = "") := by
        rintro ⟨e | e, _⟩
        · exact hop.1 e
        · exact hop.2 e
      rw [List.filter_cons_of_pos (by simpa using hop),
        List.filter_cons_of_neg (by simpa using hin), List.length_cons]
      have h1 : counterStep c = 1 := by unfold counterStep; rw [if_pos hop]
      rw [h1]
      push_cast
      ring
    · rw [List.filter_cons_of_neg (by simpa using hop)]
      have hin : c.operator = In ∨ c.operator = NotIn := by
        by_contra hcon
        exact hop ⟨fun e => hcon (Or.inl e), fun e => hcon (Or.inr e)⟩
      by_cases hs : c.subQuery = ""
      · rw [List.filter_cons_of_pos (by simpa using And.intro hin hs), List.map_cons,
          List.sum_cons]
        have h1 : counterStep c = Atoi c.listLength := by
          unfold counterStep; rw [if_neg hop, if_pos hs]
        rw [h1]
        ring
      · have hno : ¬ ((c.operator = In ∨ c.operator = NotIn) ∧ c.subQuery = "") :=
          fun e => hs e.2
        rw [List.filter_cons_of_neg (by simpa using hno)]
        have h1 : counterStep c = 0 := by unfold counterStep; rw [if_neg hop, if_neg hs]
        rw [h1]
        ring

theorem counterStep_markFirst (h : Heap) (b : Nat) :
    (conditionsOf (markFirst h b) b).map counterStep = (conditionsOf h b).map counterStep := by
  unfold markFirst conditionsOf condView
  cases haddr : mapAddrs h (h.builders b).whereConditions with
  | nil => simp [haddr]
  | cons a0 rest =>
    simp only [setLogical_builders, mapAddrs_setLogical, haddr, List.map_map]
    apply List.map_congr_left
    intro a _
    by_cases ha : a = a0
    · subst ha; simp [counterStep, setLogical]
    · simp [counterStep, setLogical, ha]

/-! ### Chains of the methods that add a condition -/

theorem runCall_eq (h : Heap) (b : Nat) (call : AddCall) (b1 : Nat)
    (hr : (runCall h b call).2 = .ok b1) :
    (runCall h b call).1 = (appendCondition h b (addedCondition call)).1 ∧
    b1 = (appendCondition h b (addedCondition call)).2 := by
  cases call with
  | viaWhere col op bind =>
    simp only [runCall, Except.ok.injEq] at hr
    exact ⟨rfl, hr.symm⟩
  | viaOr col op bind =>
    simp only [runCall, Except.ok.injEq] at hr
    exact ⟨rfl, hr.symm⟩
  | viaWhereIn col n bind =>
    simp only [runCall, Except.ok.injEq] at hr
    exact ⟨rfl, hr.symm⟩
  | viaWhereNotIn col n bind =>
    simp only [runCall, Except.ok.injEq] at hr
    exact ⟨rfl, hr.symm⟩
  | viaWhereSubQuery col op sub =>
    simp only [runCall] at hr ⊢
    cases sub with
    | none => simp [whereSubQuery] at hr
    | some s =>
      by_cases h1 : s.columns.length = 1
      · by_cases h2 : s.limitUse = some false
        · have hh : s.limitUse ≠ none ∧ s.limitUse = some false := ⟨by rw [h2]; simp, h2⟩
          have h0 : ¬ (s.columns.length = 0 ∨ s.columns.length > 1) := by omega
          have he : (whereSubQuery h b col op (some s)).2 =
              .error SubQueryReturnMultiRowsErr := by
            simp only [whereSubQuery]
            rw [if_neg h0, if_pos hh]
          rw [he] at hr
          cases hr
        · rw [whereSubQuery_ok h b col op s h1 h2] at hr ⊢
          simp only [Except.ok.injEq] at hr
          exact ⟨rfl, hr.symm⟩
      · have h0 : s.columns.length = 0 ∨ s.columns.length > 1 := by omega
        have he : (whereSubQuery h b col op (some s)).2 = .error UnspecifiedColumnErr := by
          simp only [whereSubQuery]
          rw [if_pos h0]
        rw [he] at hr
        cases hr

theorem addedCondition_logical (call : AddCall) :
    (addedCondition call).logical = claimedConnector call := by
  cases call with
  | viaWhereSubQuery col op sub => cases sub <;> rfl
  | _ => rfl

theorem addChain_spec : ∀ (calls : List AddCall) (h : Heap) (b b2 : Nat), CondsOK h b →
    (addChain calls h b).2 = .ok b2 →
    CondsOK (addChain calls h b).1 b2 ∧
    conditionsOf (addChain calls h b).1 b2 = conditionsOf h b ++ calls.map addedCondition ∧
    ((addChain calls h b).1.builders b2).placeholderType = (h.builders b).placeholderType := by
  intro calls
  induction calls with
  | nil =>
    intro h b b2 hok hr
    simp only [addChain, Except.ok.injEq] at hr
    subst hr
    exact ⟨hok, by simp [addChain], rfl⟩
  | cons call rest ih =>
    intro h b b2 hok hr
    cases hc : (runCall h b call).2 with
    | error e =>
      simp only [addChain, hc] at hr
      cases hr
    | ok b1 =>
      obtain ⟨e1, e2⟩ := runCall_eq h b call b1 hc
      simp only [addChain, hc] at hr ⊢
      rw [e1, e2] at hr ⊢
      obtain ⟨i1, i2, i3⟩ := ih _ _ b2 (appendCondition_CondsOK h b _ hok) hr
      refine ⟨i1, ?_, ?_⟩
      · rw [i2, appendCondition_conditions h b _ hok.2]
        simp
      · rw [i3, (appendCondition_builder h b _).2.1]

/-! ### When a render returns -/

theorem Atoi_empty : Atoi "" = 0 := by decide

theorem paragraphOf_negative (mode : Int) (k : Int) (c : Condition) (hc : negativeList c) :
    (paragraphOf mode k c).1 = .error "makeslice: cap out of range" := by
  obtain ⟨hs, hop, hn⟩ := hc
  have hnull : ¬ (c.operator = IsNull ∨ c.operator = IsNotNull) := by
    rcases hop with e | e <;> rw [e] <;> decide
  simp only [paragraphOf, paragraphWith, hs, ne_eq, not_true_eq_false, if_false, if_neg hnull,
    if_pos hop, if_pos hn]

theorem paragraphOf_returns (mode : Int) (k : Int) (c : Condition) (hc : ¬ negativeList c) :
    ∃ p, (paragraphOf mode k c).1 = .ok p := by
  unfold paragraphOf paragraphWith
  by_cases hs : c.subQuery ≠ ""
  · simp [if_pos hs]
  · simp only [if_neg hs]
    by_cases hnull : c.operator = IsNull ∨ c.operator = IsNotNull
    · simp [if_pos hnull]
    · simp only [if_neg hnull]
      by_cases hin : c.operator = In ∨ c.operator = NotIn
      · have hn : ¬ Atoi c.listLength < 0 := fun hn => hc ⟨not_not.mp hs, hin, hn⟩
        simp [if_pos hin, if_neg hn]
      · simp [if_neg hin]

theorem paragraphsOf_returns (mode : Int) : ∀ (cs : List Condition) (k : Int),
    (∀ c ∈ cs, ¬ negativeList c) → ∃ ps, (paragraphsOf mode k cs).1 = .ok ps := by
  intro cs
  induction cs with
  | nil => intro k _; exact ⟨[], rfl⟩
  | cons c cs ih =>
    intro k hc
    obtain ⟨p, hp⟩ := paragraphOf_returns mode k c (hc c (by simp))
    obtain ⟨ps, hps⟩ := ih (paragraphOf mode k c).2 (fun d hd => hc d (by simp [hd]))
    exact ⟨p :: ps, by simp only [paragraphsOf, hp, hps]⟩

theorem paragraphsOf_negative (mode : Int) : ∀ (cs : List Condition) (k : Int),
    (∃ c ∈ cs, negativeList c) →
    (paragraphsOf mode k cs).1 = .error "makeslice: cap out of range" := by
  intro cs
  induction cs with
  | nil => intro k hc; simp at hc
  | cons c cs ih =>
    intro k hc
    by_cases hn : negativeList c
    · simp only [paragraphsOf, paragraphOf_negative mode k c hn]
    · obtain ⟨p, hp⟩ := paragraphOf_returns mode k c hn
      have hrest : ∃ d ∈ cs, negativeList d := by
        obtain ⟨d, hd, hdn⟩ := hc
        rcases List.mem_cons.mp hd with e | e
        · subst e; exact absurd hdn hn
        · exact ⟨d, e, hdn⟩
      simp only [paragraphsOf, hp, ih (paragraphOf mode k c).2 hrest]

theorem negativeList_markHead (cs : List Condition) :
    (∃ c ∈ markHead cs, negativeList c) ↔ ∃ c ∈ cs, negativeList c := by
  cases cs with
  | nil => simp [markHead]
  | cons d ds =>
    simp only [markHead, List.mem_cons, exists_eq_or_imp]
    exact Iff.rfl

/-- A render returns exactly when no condition of the builder reaches `make`
with a negative length, and panics there otherwise. -/
theorem render_returns_iff (h : Heap) (b : Nat)
    (hnd : (mapAddrs h (h.builders b).whereConditions).Nodup) :
    ((∃ ps, (getWhereParagraphs h b).2 = .ok ps) ↔ ∀ c ∈ conditionsOf h b, ¬ negativeList c) ∧
    ((∃ c ∈ conditionsOf h b, negativeList c) →
      (getWhereParagraphs h b).2 = .error "makeslice: cap out of range") := by
  rw [getWhereParagraphs_eq, conditionsOf_markFirst h b hnd]
  have hneg : (∃ c ∈ conditionsOf h b, negativeList c) →
      (paragraphsOf (h.builders b).placeholderType (h.builders b).argNum
        (markHead (conditionsOf h b))).1 = .error "makeslice: cap out of range" :=
    fun hc => paragraphsOf_negative _ _ _ ((negativeList_markHead _).mpr hc)
  refine ⟨⟨?_, ?_⟩, hneg⟩
  · rintro ⟨ps, hps⟩ c hc hn
    rw [hneg ⟨c, hc, hn⟩] at hps
    cases hps
  · intro hall
    apply paragraphsOf_returns
    intro c hc hn
    obtain ⟨d, hd, hdn⟩ := (negativeList_markHead _).mp ⟨c, hc, hn⟩
    exact hall d hd hdn

/-- The fragment of an `IN` / `NOT IN` condition without subquery text whose
stored list length is `Itoa 0`, at its position in a render that returns. -/
theorem render_zero_list (h : Heap) (b : Nat)
    (hnd : (mapAddrs h (h.builders b).whereConditions).Nodup) (ps : List String)
    (hps : (getWhereParagraphs h b).2 = .ok ps) (i : Nat) (c : Condition)
    (hc : (conditionsOf h b)[i]? = some c) (hop : c.operator = In ∨ c.operator = NotIn)
    (hsub : c.subQuery = "") (hlen : c.listLength = Itoa 0) :
    ps[i]? = some ((if i = 0 then "WHERE" else c.logical) ++ " " ++ c.column ++ " " ++
      c.operator ++ " " ++ "()") := by
  rw [getWhereParagraphs_eq, conditionsOf_markFirst h b hnd] at hps
  obtain ⟨k2, p, hp, hpi⟩ := paragraphsOf_getElem _ _ _ _ hps i _ (markHead_getElem _ i c hc)
  rw [hpi]
  by_cases hi : i = 0
  · simp only [if_pos hi] at hp ⊢
    rw [(paragraphOf_list_length _ k2 { c with logical := "WHERE" } 0 hop hsub hlen).2 rfl] at hp
    exact (Except.ok.inj hp) ▸ rfl
  · simp only [if_neg hi] at hp ⊢
    rw [(paragraphOf_list_length _ k2 c 0 hop hsub hlen).2 rfl] at hp
    exact (Except.ok.inj hp) ▸ rfl

theorem negativeList_addedCondition (call : AddCall) :
    negativeList (addedCondition call) ↔
      ∃ (col : String) (n : Int) (bind : List String), n < 0 ∧
        (call = .viaWhereIn col n bind ∨ call = .viaWhereNotIn col n bind) := by
  cases call with
  | viaWhere col op bind =>
    simp [negativeList, addedCondition, Atoi_empty]
  | viaOr col op bind =>
    simp [negativeList, addedCondition, Atoi_empty]
  | viaWhereIn col n bind =>
    simp only [negativeList, addedCondition, Atoi_Itoa, true_and]
    constructor
    · rintro ⟨_, hn⟩
      exact ⟨col, n, bind, hn, Or.inl rfl⟩
    · rintro ⟨c2, n2, b2, hn, e | e⟩
      · cases e; exact ⟨by simp, hn⟩
      · cases e
  | viaWhereNotIn col n bind =>
    simp only [negativeList, addedCondition, Atoi_Itoa, true_and]
    constructor
    · rintro ⟨_, hn⟩
      exact ⟨col, n, bind, hn, Or.inr rfl⟩
    · rintro ⟨c2, n2, b2, hn, e | e⟩
      · cases e
      · cases e; exact ⟨by simp, hn⟩
  | viaWhereSubQuery col op sub =>
    cases sub <;> simp [negativeList, addedCondition, Atoi_empty]

/-- In a render that returns there is one fragment per condition, the first
beginning with `WHERE ` and every later one with the connector stored on its
condition. -/
theorem render_fragments_shape (h : Heap) (b : Nat)
    (hnd : (mapAddrs h (h.builders b).whereConditions).Nodup) (ps : List String)
    (hps : (getWhereParagraphs h b).2 = .ok ps) :
    ps.length = (conditionsOf h b).length ∧
    ∀ (i : Nat) (c : Condition), (conditionsOf h b)[i]? = some c →
      ∃ t, ps[i]? = some ((if i = 0 then "WHERE" else c.logical) ++ " " ++ t) := by
  rw [getWhereParagraphs_eq, conditionsOf_markFirst h b hnd] at hps
  obtain ⟨h1, h2⟩ := paragraphsOf_shape _ _ _ _ hps
  cases hcs : conditionsOf h b with
  | nil =>
    rw [hcs] at h1
    exact ⟨by simpa [markHead] using h1, by simp⟩
  | cons d ds =>
    rw [hcs] at h1 h2
    refine ⟨by simpa [markHead] using h1, ?_⟩
    intro i c hc
    cases i with
    | zero =>
      simp only [List.getElem?_cons_zero, Option.some.injEq] at hc
      subst hc
      have := h2 0 { d with logical := "WHERE" } (by simp [markHead])
      simpa using this
    | succ i =>
      have := h2 (i + 1) c (by simpa [markHead] using hc)
      simpa using this

/-- The condition of the `j`-th call of a chain, at its position among the
conditions of the builder the chain returns. -/
theorem addChain_getElem (calls : List AddCall) (h : Heap) (b b2 : Nat) (hok : CondsOK h b)
    (hr : (addChain calls h b).2 = .ok b2) (j : Nat) (call : AddCall)
    (hj : calls[j]? = some call) :
    (conditionsOf (addChain calls h b).1 b2)[(conditionsOf h b).length + j]? =
      some (addedCondition call) := by
  rw [(addChain_spec calls h b b2 hok hr).2.1,
    List.getElem?_append_right (Nat.le_add_right _ _), Nat.add_sub_cancel_left,
    List.getElem?_map, hj]
  rfl

/-- The render of the builder a chain returns: it returns exactly when the
receiver holds no condition with a negative list and the chain has no
`whereIn` / `whereNotIn` with a negative length. -/
theorem addChain_returns_iff (calls : List AddCall) (h : Heap) (b b2 : Nat) (hok : CondsOK h b)
    (hr : (addChain calls h b).2 = .ok b2) :
    (∃ ps, (getWhereParagraphs (addChain calls h b).1 b2).2 = .ok ps) ↔
      (∀ c ∈ conditionsOf h b, ¬ negativeList c) ∧
      ∀ (col : String) (n : Int) (bind : List String),
        AddCall.viaWhereIn col n bind ∈ calls ∨ AddCall.viaWhereNotIn col n bind ∈ calls →
        0 ≤ n := by
  obtain ⟨i1, i2, _⟩ := addChain_spec calls h b b2 hok hr
  rw [(render_returns_iff _ b2 i1.1).1, i2]
  constructor
  · intro hall
    refine ⟨fun c hc => hall c (List.mem_append_left _ hc), ?_⟩
    intro col n bind hmem
    by_contra hn
    have hn2 : n < 0 := by omega
    rcases hmem with hm | hm
    · exact hall _ (List.mem_append_right _ (List.mem_map_of_mem addedCondition hm))
        ((negativeList_addedCondition _).mpr ⟨col, n, bind, hn2, Or.inl rfl⟩)
    · exact hall _ (List.mem_append_right _ (List.mem_map_of_mem addedCondition hm))
        ((negativeList_addedCondition _).mpr ⟨col, n, bind, hn2, Or.inr rfl⟩)
  · rintro ⟨h1, h2⟩ c hc hneg
    rcases List.mem_append.mp hc with hc | hc
    · exact h1 c hc hneg
    · obtain ⟨call, hcall, rfl⟩ := List.mem_map.mp hc
      obtain ⟨col, n, bind, hn, e | e⟩ := (negativeList_addedCondition call).mp hneg
      · subst e
        have := h2 col n bind (Or.inl hcall)
        omega
      · subst e
        have := h2 col n bind (Or.inr hcall)
        omega

/-- A `whereIn` / `whereNotIn` call in a chain: with a negative length the
render of the builder the chain returns panics, with the length 0 the fragment
at the position of the call has an empty parenthesis pair. -/
theorem addChain_list_call (calls : List AddCall) (h : Heap) (b b2 : Nat) (hok : CondsOK h b)
    (hr : (addChain calls h b).2 = .ok b2) (j : Nat) (call : AddCall)
    (hj : calls[j]? = some call) (col op : String) (n : Int) (bind : List String)
    (hcall : (call = .viaWhereIn col n bind ∧ op = In) ∨
      (call = .viaWhereNotIn col n bind ∧ op = NotIn)) :
    (n < 0 → (getWhereParagraphs (addChain calls h b).1 b2).2 =
      .error "makeslice: cap out of range") ∧
    (n = 0 → ∀ ps, (getWhereParagraphs (addChain calls h b).1 b2).2 = .ok ps →
      ps[(conditionsOf h b).length + j]? =
        some ((if (conditionsOf h b).length + j = 0 then "WHERE" else "AND") ++ " " ++ col ++
          " " ++ op ++ " " ++ "()")) := by
  obtain ⟨i1, i2, _⟩ := addChain_spec calls h b b2 hok hr
  have hget := addChain_getElem calls h b b2 hok hr j call hj
  constructor
  · intro hn
    apply (render_returns_iff _ b2 i1.1).2
    refine ⟨addedCondition call, List.getElem?_mem hget, ?_⟩
    rcases hcall with ⟨e, _⟩ | ⟨e, _⟩
    · exact (negativeList_addedCondition call).mpr ⟨col, n, bind, hn, Or.inl e⟩
    · exact (negativeList_addedCondition call).mpr ⟨col, n, bind, hn, Or.inr e⟩
  · intro hn ps hps
    subst hn
    rcases hcall with ⟨e, eo⟩ | ⟨e, eo⟩
    · subst e; subst eo
      have hz := render_zero_list _ b2 i1.1 ps hps _ (addedCondition (.viaWhereIn col 0 bind))
        hget (Or.inl rfl) rfl rfl
      simpa only [addedCondition] using hz
    · subst e; subst eo
      have hz := render_zero_list _ b2 i1.1 ps hps _ (addedCondition (.viaWhereNotIn col 0 bind))
        hget (Or.inr rfl) rfl rfl
      simpa only [addedCondition] using hz

/-! # The claims -/

/-- C1: a chain of one or more `where` calls with plain comparison operators on
a builder without conditions renders one fragment per call, in call order,
`WHERE col op tok` for the first and `AND col op tok` for the others; the token
is `?` in Positional mode and `:` followed by the first bind name, or by the
column when no bind name is given, in Named mode, and distinct bind names give
distinct Named tokens. -/
theorem where_chain_renders (h : Heap) (b : Nat) (w : WhereCall) (ws : List WhereCall)
    (hempty : (h.builders b).whereConditions.len = 0)
    (hplain : ∀ x ∈ w :: ws, plainOp x.operator) :
    ((h.builders b).placeholderType ≠ Named → (h.builders b).placeholderType ≠ DollarNumber →
      (getWhereParagraphs (whereChain (w :: ws) h b).1 (whereChain (w :: ws) h b).2).2 =
        .ok (("WHERE" ++ " " ++ w.column ++ " " ++ w.operator ++ " " ++ "?") ::
          ws.map fun x => "AND" ++ " " ++ x.column ++ " " ++ x.operator ++ " " ++ "?")) ∧
    ((h.builders b).placeholderType = Named →
      (getWhereParagraphs (whereChain (w :: ws) h b).1 (whereChain (w :: ws) h b).2).2 =
        .ok (("WHERE" ++ " " ++ w.column ++ " " ++ w.operator ++ " " ++
            (":" ++ w.bind.headD w.column)) ::
          ws.map fun x => "AND" ++ " " ++ x.column ++ " " ++ x.operator ++ " " ++
            (":" ++ x.bind.headD x.column))) ∧
    (∀ x ∈ w :: ws, ∀ y ∈ w :: ws, x.bind.headD x.column ≠ y.bind.headD y.column →
      ":" ++ x.bind.headD x.column ≠ ":" ++ y.bind.headD y.column) := by
  obtain ⟨hc, hok, hmode⟩ := whereChain_spec (w :: ws) h b (CondsOK_of_empty h b hempty)
  rw [conditionsOf_of_empty h b hempty, List.nil_append] at hc
  have hmf := conditionsOf_markFirst _ _ hok.1
  rw [hc] at hmf
  simp only [List.map_cons, markHead] at hmf
  have hpl : ∀ c ∈ ({ whereCondition w with logical := "WHERE" } : Condition) ::
      ws.map whereCondition, plainOp c.operator ∧ c.subQuery = "" := by
    intro c hc'
    rcases List.mem_cons.mp hc' with rfl | hc'
    · exact ⟨hplain w (by simp), rfl⟩
    · obtain ⟨x, hx, rfl⟩ := List.mem_map.mp hc'
      exact ⟨hplain x (by simp [hx]), rfl⟩
  have hN : Named ≠ DollarNumber := by decide
  refine ⟨?_, ?_, ?_⟩
  · intro h1 h2
    rw [getWhereParagraphs_eq, hmf, hmode, paragraphsOf_plain _ h2 _ _ hpl]
    simp [h1, whereCondition, List.map_map, Function.comp_def]
  · intro h1
    rw [getWhereParagraphs_eq, hmf, hmode, paragraphsOf_plain _ (h1 ▸ hN) _ _ hpl]
    simp [h1, whereCondition, List.map_map, Function.comp_def, bindOf_eq]
  · intro x _ y _ hxy
    exact colon_append_injective _ _ hxy

/-- The custom bind names of `Test_SelectQueryBuilder_Where` under Named
mode. -/
theorem where_chain_renders_witness :
    ((start Named).1.builders (start Named).2).whereConditions.len = 0 ∧
    (∀ x ∈ [(⟨"name", "=", []⟩ : WhereCall), ⟨"age", ">=", ["age1"]⟩, ⟨"age", "<=", ["age2"]⟩],
      plainOp x.operator) ∧
    (getWhereParagraphs
      (whereChain [⟨"name", "=", []⟩, ⟨"age", ">=", ["age1"]⟩, ⟨"age", "<=", ["age2"]⟩]
        (start Named).1 (start Named).2).1
      (whereChain [⟨"name", "=", []⟩, ⟨"age", ">=", ["age1"]⟩, ⟨"age", "<=", ["age2"]⟩]
        (start Named).1 (start Named).2).2).2 =
      .ok ["WHERE name = :name", "AND age >= :age1", "AND age <= :age2"] :=
  ⟨by decide, by decide,
    (where_chain_renders (start Named).1 (start Named).2 ⟨"name", "=", []⟩
      [⟨"age", ">=", ["age1"]⟩, ⟨"age", "<=", ["age2"]⟩] (by decide) (by decide)).2.1
      (by decide)⟩

/-- C2: after `whereIn(col, n, bind...)` (resp. `whereNotIn`) on a builder
whose conditions render to `ps`, the render is `ps` followed by
`<connector> col IN (t1, ..., tn)` (resp. `NOT IN`), the connector being
`WHERE` when the receiver had no condition and `AND` otherwise; the `n` tokens,
separated by `, `, are `?` in Positional mode and `:<bind><i>` for
`i = 1..n` in Named mode, `<bind>` being the first bind name or else the
column. -/
theorem whereIn_renders (h : Heap) (b : Nat) (col : String) (n : Nat) (bind : List String)
    (ps : List String) (hok : CondsOK h b)
    (hD : (h.builders b).placeholderType ≠ DollarNumber)
    (hps : (getWhereParagraphs h b).2 = .ok ps) :
    (getWhereParagraphs (whereIn h b col n bind).1 (whereIn h b col n bind).2).2 =
      .ok (ps ++ [(if conditionsOf h b = [] then "WHERE" else "AND") ++ " " ++ col ++ " " ++
        "IN" ++ " " ++ ("(" ++ ", ".intercalate ((List.range n).map fun (i : Nat) =>
          if (h.builders b).placeholderType = Named
          then ":" ++ bind.headD col ++ Itoa ((i : Int) + 1) else "?") ++ ")")]) ∧
    (getWhereParagraphs (whereNotIn h b col n bind).1 (whereNotIn h b col n bind).2).2 =
      .ok (ps ++ [(if conditionsOf h b = [] then "WHERE" else "AND") ++ " " ++ col ++ " " ++
        "NOT IN" ++ " " ++ ("(" ++ ", ".intercalate ((List.range n).map fun (i : Nat) =>
          if (h.builders b).placeholderType = Named
          then ":" ++ bind.headD col ++ Itoa ((i : Int) + 1) else "?") ++ ")")]) ∧
    ((List.range n).map fun (i : Nat) =>
          if (h.builders b).placeholderType = Named
          then ":" ++ bind.headD col ++ Itoa ((i : Int) + 1) else "?").length = n := by
  have hps2 : (paragraphsOf (h.builders b).placeholderType (h.builders b).argNum
      (markHead (conditionsOf h b))).1 = .ok ps := by
    rw [← conditionsOf_markFirst h b hok.1, ← hps, getWhereParagraphs_eq]
  have key : ∀ op : String, op = In ∨ op = NotIn →
      (getWhereParagraphs
        (appendCondition h b ⟨col, op, bindOf col bind, "AND", Itoa n, ""⟩).1
        (appendCondition h b ⟨col, op, bindOf col bind, "AND", Itoa n, ""⟩).2).2 =
      .ok (ps ++ [(if conditionsOf h b = [] then "WHERE" else "AND") ++ " " ++ col ++ " " ++
        op ++ " " ++ ("(" ++ ", ".intercalate ((List.range n).map fun (i : Nat) =>
          if (h.builders b).placeholderType = Named
          then ":" ++ bind.headD col ++ Itoa ((i : Int) + 1) else "?") ++ ")")]) := by
    intro op hop
    have hok2 := appendCondition_CondsOK h b ⟨col, op, bindOf col bind, "AND", Itoa n, ""⟩ hok
    rw [getWhereParagraphs_eq, conditionsOf_markFirst _ _ hok2.1,
      appendCondition_conditions h b _ hok.2, (appendCondition_builder h b _).2.1]
    apply paragraphsOf_snoc_nonDollar _ hD _ _ _ _ _ _ hps2
    by_cases he : conditionsOf h b = []
    · rw [if_pos he, if_pos he]
      rw [paragraphOf_list_nonDollar _ hD _ _ n hop rfl rfl, bindOf_eq]
    · rw [if_neg he, if_neg he]
      rw [paragraphOf_list_nonDollar _ hD _ _ n hop rfl rfl, bindOf_eq]
  exact ⟨key In (Or.inl rfl), key NotIn (Or.inr rfl), by simp⟩

/-- The Named case of `Test_SelectQueryBuilder_WhereIn`. -/
theorem whereIn_renders_witness :
    CondsOK userName.1 userName.2 ∧
    (userName.1.builders userName.2).placeholderType ≠ DollarNumber ∧
    (getWhereParagraphs userName.1 userName.2).2 = .ok ["WHERE user_name = :user_name"] ∧
    (getWhereParagraphs (whereIn userName.1 userName.2 "user_id" 3 []).1
      (whereIn userName.1 userName.2 "user_id" 3 []).2).2 =
      .ok ["WHERE user_name = :user_name", "AND user_id IN (:user_id1, :user_id2, :user_id3)"] :=
  ⟨by decide, by decide, rfl,
    (whereIn_renders userName.1 userName.2 "user_id" 3 [] ["WHERE user_name = :user_name"]
      (by decide) (by decide) rfl).1⟩

/-- C3: in Sequential mode, when the predicates before `whereIn("c", 2)` are a
scalar, which emitted `$1`, and a null check, which emitted no token, the list
renders `($3, $4)` and the scalar that follows `$5`, not `($2, $3)` and
`$4`. -/
theorem list_after_null_check_skips_number :
    (getWhereParagraphs nullThenList.1 nullThenList.2).2 =
      .ok ["WHERE b = $1", "AND a IS NULL", "AND c IN ($3, $4)", "AND d = $5"] := rfl

/-- C4: in Sequential mode a null check increments the counter: after
`where("a", IsNull)` the scalar `where("b", "=")` renders `$2`, not `$1`. -/
theorem null_check_consumes_number :
    (getWhereParagraphs nullThenScalar.1 nullThenScalar.2).2 =
      .ok ["WHERE a IS NULL", "AND b = $2"] := rfl

/-- C5, amended: the render does not initialise the counter, it numbers from
the counter stored on the builder.  In Positional and Named modes two
successive renders of a builder return the same result.  In Sequential mode a
render returns whenever no stored list length is negative, and when the first
condition is a plain comparison without subquery its fragment carries the
token `$(c+1)`, `c` being the counter of the builder when the render starts:
`$1` for a counter of 0. -/
theorem render_numbers_from_stored_counter (h : Heap) (b : Nat) :
    ((h.builders b).placeholderType ≠ DollarNumber →
      (getWhereParagraphs (getWhereParagraphs h b).1 b).2 = (getWhereParagraphs h b).2) ∧
    ((h.builders b).placeholderType = DollarNumber →
      ((∀ c ∈ conditionsOf h b, 0 ≤ Atoi c.listLength) →
        ∃ ps, (getWhereParagraphs h b).2 = .ok ps) ∧
      ∀ (a0 : Nat) (rest : List Nat),
        mapAddrs h (h.builders b).whereConditions = a0 :: rest →
        plainOp (h.maps a0).operator → (h.maps a0).subQuery = "" →
        ∀ ps, (getWhereParagraphs h b).2 = .ok ps →
          ps.head? = some ("WHERE" ++ " " ++ (h.maps a0).column ++ " " ++
            (h.maps a0).operator ++ " " ++ ("$" ++ Itoa ((h.builders b).argNum + 1)))) := by
  refine ⟨?_, ?_⟩
  · intro hD
    rw [render_nonDollar_heap h b hD, getWhereParagraphs_eq (markFirst h b) b,
      markFirst_markFirst, markFirst_builders, getWhereParagraphs_eq h b]
  · intro hD
    refine ⟨?_, ?_⟩
    · intro hlen
      rw [getWhereParagraphs_eq]
      apply paragraphsOf_total
      intro c hc
      obtain ⟨d, hd, he⟩ := mem_conditionsOf_markFirst h b c hc
      rw [he]; exact hlen d hd
    · intro a0 rest haddr hplain hsub ps hps
      obtain ⟨hIn, hNotIn, hNull, hNotNull⟩ := hplain
      rw [getWhereParagraphs_eq] at hps
      simp only [markFirst, conditionsOf, condView, haddr, setLogical_builders,
        mapAddrs_setLogical, List.map_cons, setLogical_maps_self, paragraphsOf] at hps
      have hp : paragraphOf (h.builders b).placeholderType (h.builders b).argNum
          { h.maps a0 with logical := "WHERE" } =
          (.ok ("WHERE" ++ " " ++ (h.maps a0).column ++ " " ++ (h.maps a0).operator ++ " " ++
            ("$" ++ Itoa ((h.builders b).argNum + 1))), (h.builders b).argNum + 1) := by
        simp [paragraphOf, paragraphWith, bindFor, hD, hsub, hIn, hNotIn, hNull, hNotNull]
      rw [hp] at hps
      simp only at hps
      cases hq : (paragraphsOf (h.builders b).placeholderType ((h.builders b).argNum + 1)
          (rest.map (setLogical h a0 "WHERE").maps)).1 with
      | error e => rw [hq] at hps; simp at hps
      | ok qs =>
        rw [hq] at hps
        simp only [Except.ok.injEq] at hps
        rw [← hps]; rfl

/-- On `start(DollarNumber).where("a", "=")`, whose counter is 0, the first
render numbers the token `$1`. -/
theorem render_numbers_from_stored_counter_witness :
    (oneScalar.1.builders oneScalar.2).placeholderType = DollarNumber ∧
    mapAddrs oneScalar.1 (oneScalar.1.builders oneScalar.2).whereConditions = [0] ∧
    plainOp (oneScalar.1.maps 0).operator ∧ (oneScalar.1.maps 0).subQuery = "" ∧
    (oneScalar.1.builders oneScalar.2).argNum = 0 ∧
    (getWhereParagraphs oneScalar.1 oneScalar.2).2 = .ok ["WHERE a = $1"] ∧
    ["WHERE a = $1"].head? = some ("WHERE" ++ " " ++ (oneScalar.1.maps 0).column ++ " " ++
      (oneScalar.1.maps 0).operator ++ " " ++
      ("$" ++ Itoa ((oneScalar.1.builders oneScalar.2).argNum + 1))) :=
  ⟨rfl, rfl, by decide, rfl, rfl, rfl,
    ((render_numbers_from_stored_counter oneScalar.1 oneScalar.2).2 rfl).2 0 [] rfl
      (by decide) rfl ["WHERE a = $1"] rfl⟩

/-- C5: in Sequential mode the second render of the same builder does not
start at `$1` again: the claim as stated fails on
`newQueryBuilder().placeholder(DollarNumber).where("a", "=")`. -/
theorem second_render_continues_numbering :
    (getWhereParagraphs oneScalar.1 oneScalar.2).2 = .ok ["WHERE a = $1"] ∧
    (getWhereParagraphs (getWhereParagraphs oneScalar.1 oneScalar.2).1 oneScalar.2).2 =
      .ok ["WHERE a = $2"] ∧
    (getWhereParagraphs (getWhereParagraphs oneScalar.1 oneScalar.2).1 oneScalar.2).2 ≠
      (getWhereParagraphs oneScalar.1 oneScalar.2).2 := by
  have h1 : (getWhereParagraphs oneScalar.1 oneScalar.2).2 = .ok ["WHERE a = $1"] := rfl
  have h2 : (getWhereParagraphs (getWhereParagraphs oneScalar.1 oneScalar.2).1 oneScalar.2).2 =
      .ok ["WHERE a = $2"] := rfl
  refine ⟨h1, h2, ?_⟩
  rw [h1, h2]
  intro he
  have hl := Except.ok.inj he
  revert hl
  decide

/-- C6: the render of a builder without conditions is empty; a render returns
whenever no stored list length is negative; in every render that returns
there is one fragment per condition, the first beginning with `WHERE ` whatever
connector is stored on the first condition and every later one beginning with
the connector stored on its condition followed by a space; and after a chain
of calls of `where`, `or`, `whereIn`, `whereNotIn` and `whereSubQuery` on the
builder, the condition of each call is stored with `OR` for `or` and `AND` for
the four others, and its fragment begins with `WHERE ` at the first position
of the sequence and with that connector followed by a space elsewhere. -/
theorem fragments_begin_with_connector (h : Heap) (b : Nat)
    (hnd : (mapAddrs h (h.builders b).whereConditions).Nodup) :
    (conditionsOf h b = [] → (getWhereParagraphs h b).2 = .ok []) ∧
    ((∀ c ∈ conditionsOf h b, 0 ≤ Atoi c.listLength) →
      ∃ ps, (getWhereParagraphs h b).2 = .ok ps) ∧
    (∀ ps, (getWhereParagraphs h b).2 = .ok ps →
      ps.length = (conditionsOf h b).length ∧
      ∀ (i : Nat) (c : Condition), (conditionsOf h b)[i]? = some c →
        ∃ t, ps[i]? = some ((if i = 0 then "WHERE" else c.logical) ++ " " ++ t)) ∧
    (CondsOK h b → ∀ (calls : List AddCall) (b2 : Nat), (addChain calls h b).2 = .ok b2 →
      (∀ (j : Nat) (call : AddCall), calls[j]? = some call →
        ∃ c, (conditionsOf (addChain calls h b).1 b2)[(conditionsOf h b).length + j]? = some c ∧
          c.logical = claimedConnector call) ∧
      ∀ ps, (getWhereParagraphs (addChain calls h b).1 b2).2 = .ok ps →
        ps.length = (conditionsOf h b).length + calls.length ∧
        (∀ (i : Nat) (c : Condition), (conditionsOf h b)[i]? = some c →
          ∃ t, ps[i]? = some ((if i = 0 then "WHERE" else c.logical) ++ " " ++ t)) ∧
        ∀ (j : Nat) (call : AddCall), calls[j]? = some call →
          ∃ t, ps[(conditionsOf h b).length + j]? =
            some ((if (conditionsOf h b).length + j = 0 then "WHERE"
              else claimedConnector call) ++ " " ++ t)) := by
  refine ⟨?_, ?_, render_fragments_shape h b hnd, ?_⟩
  · intro he
    rw [getWhereParagraphs_eq, conditionsOf_markFirst h b hnd, he]; rfl
  · intro hlen
    rw [getWhereParagraphs_eq, conditionsOf_markFirst h b hnd]
    apply paragraphsOf_total
    intro c hc
    obtain ⟨d, hd, e⟩ := mem_markHead _ c hc
    rw [e]
    exact hlen d hd
  · intro hok calls b2 hr
    obtain ⟨i1, i2, _⟩ := addChain_spec calls h b b2 hok hr
    refine ⟨fun j call hj => ⟨addedCondition call, addChain_getElem calls h b b2 hok hr j call hj,
      addedCondition_logical call⟩, ?_⟩
    intro ps hps
    obtain ⟨s1, s2⟩ := render_fragments_shape _ b2 i1.1 ps hps
    refine ⟨by rw [s1, i2]; simp, ?_, ?_⟩
    · intro i c hc
      apply s2 i c
      rw [i2, List.getElem?_append_left (by
        by_contra hlt
        rw [List.getElem?_eq_none (by omega)] at hc
        cases hc)]
      exact hc
    · intro j call hj
      have := s2 _ _ (addChain_getElem calls h b b2 hok hr j call hj)
      rw [addedCondition_logical] at this
      exact this

/-- C6, at a first condition added with `or`, which renders with `WHERE`
while the second renders with its stored `OR`, and at the chain
`or("a", "=").where("b", ">").whereIn("c", 2).or("d", "<")
.whereSubQuery("e", "IN", sub).whereNotIn("f", 1)` on a new builder. -/
theorem fragments_begin_with_connector_witness :
    (mapAddrs orFirst.1 (orFirst.1.builders orFirst.2).whereConditions).Nodup ∧
    (getWhereParagraphs orFirst.1 orFirst.2).2 = .ok ["WHERE a = ?", "OR b > ?"] ∧
    (["WHERE a = ?", "OR b > ?"].length = (conditionsOf orFirst.1 orFirst.2).length ∧
      ∀ (i : Nat) (c : Condition), (conditionsOf orFirst.1 orFirst.2)[i]? = some c →
        ∃ t, ["WHERE a = ?", "OR b > ?"][i]? =
          some ((if i = 0 then "WHERE" else c.logical) ++ " " ++ t)) ∧
    CondsOK (start Question).1 (start Question).2 ∧
    (addChain sixCalls (start Question).1 (start Question).2).2 = .ok 7 ∧
    (getWhereParagraphs (addChain sixCalls (start Question).1 (start Question).2).1 7).2 =
      .ok ["WHERE a = ?", "AND b > ?", "AND c IN (?, ?)", "OR d < ?",
        "AND e IN (SELECT t.e FROM t)", "AND f NOT IN (?)"] ∧
    sixCalls.map claimedConnector = ["OR", "AND", "AND", "OR", "AND", "AND"] ∧
    ∀ (j : Nat) (call : AddCall), sixCalls[j]? = some call →
      ∃ t, ["WHERE a = ?", "AND b > ?", "AND c IN (?, ?)", "OR d < ?",
          "AND e IN (SELECT t.e FROM t)", "AND f NOT IN (?)"][
            (conditionsOf (start Question).1 (start Question).2).length + j]? =
        some ((if (conditionsOf (start Question).1 (start Question).2).length + j = 0
          then "WHERE" else claimedConnector call) ++ " " ++ t) :=
  ⟨by decide, rfl,
    (fragments_begin_with_connector orFirst.1 orFirst.2 (by decide)).2.2.1
      ["WHERE a = ?", "OR b > ?"] rfl,
    by decide, rfl, rfl, rfl,
    ((((fragments_begin_with_connector (start Question).1 (start Question).2
      (by decide)).2.2.2 (by decide) sixCalls 7 rfl).2
      ["WHERE a = ?", "AND b > ?", "AND c IN (?, ?)", "OR d < ?",
        "AND e IN (SELECT t.e FROM t)", "AND f NOT IN (?)"] rfl).2.2)⟩

/-- C7: `where`, `or`, `whereIn` and `whereNotIn` each return a builder that
holds the receiver's conditions followed by one new condition and has the
receiver's table, columns, placeholder mode and zero-value-skip flag; the new
condition has the column, the first bind name or else the column as bind,
connector `AND` (`OR` for `or`), the given operator for `where` and `or`,
and `IN` / `NOT IN` with a list length that reads back as `n` for `whereIn` /
`whereNotIn`. -/
theorem where_family_appends_one (h : Heap) (b : Nat) (col op : String) (n : Int)
    (bind : List String) (hok : CondsOK h b) :
    AppendsOne h b («where» h b col op bind) ⟨col, op, bind.headD col, "AND", "", ""⟩ ∧
    AppendsOne h b (or h b col op bind) ⟨col, op, bind.headD col, "OR", "", ""⟩ ∧
    (∃ len, AppendsOne h b (whereIn h b col n bind) ⟨col, "IN", bind.headD col, "AND", len, ""⟩ ∧
      Atoi len = n) ∧
    (∃ len, AppendsOne h b (whereNotIn h b col n bind)
        ⟨col, "NOT IN", bind.headD col, "AND", len, ""⟩ ∧ Atoi len = n) := by
  refine ⟨?_, ?_, ⟨Itoa n, ?_, Atoi_Itoa n⟩, ⟨Itoa n, ?_, Atoi_Itoa n⟩⟩
  · rw [← bindOf_eq]; exact appendCondition_appendsOne h b _ hok
  · rw [← bindOf_eq]; exact appendCondition_appendsOne h b _ hok
  · rw [← bindOf_eq]; exact appendCondition_appendsOne h b _ hok
  · rw [← bindOf_eq]; exact appendCondition_appendsOne h b _ hok

/-- The second `where` of `Test_SelectQueryBuilder_Where` with a custom bind
name. -/
theorem where_family_appends_one_witness :
    CondsOK userName.1 userName.2 ∧
    AppendsOne userName.1 userName.2 («where» userName.1 userName.2 "age" ">=" ["age1"])
      ⟨"age", ">=", "age1", "AND", "", ""⟩ :=
  ⟨by decide, (where_family_appends_one userName.1 userName.2 "age" ">=" 3 ["age1"]
    (by decide)).1⟩

/-- C8: two `column` calls on the same base share its backing array: once
`B2 = B.column("y")` is made, `B1 = B.column("x")` holds `y` in place of its own
`x`. -/
theorem sibling_columns_overwritten :
    columnsOf threeColumns.1 threeColumns.2 = ["a", "b", "c"] ∧
    columnsOf siblingX.1 siblingX.2 = ["a", "b", "c", "x"] ∧
    columnsOf siblingY.1 siblingY.2 = ["a", "b", "c", "y"] ∧
    columnsOf siblingY.1 siblingX.2 = ["a", "b", "c", "y"] ∧
    columnsOf siblingY.1 threeColumns.2 = ["a", "b", "c"] := by
  decide

/-- C9: `model` with the force flag clears the zero-value-skip flag of its
receiver: on `B = newQueryBuilder().table("users")`, after
`B.model(User{}, true)` the flag of `B` is false, and a later `B.model(User{})`
returns all four columns where `B.model(User{})` before returned none. -/
theorem model_clears_receiver_flag :
    (usersTable.1.builders usersTable.2).ignoreZeroValue = true ∧
    (model usersTable.1 usersTable.2 (.structValue (User "" "" 0 "")) none).2 = .ok 2 ∧
    columnsOf (model usersTable.1 usersTable.2 (.structValue (User "" "" 0 "")) none).1 2 = [] ∧
    ((model usersTable.1 usersTable.2 (.structValue (User "" "" 0 "")) (some [true])).1.builders
      usersTable.2).ignoreZeroValue = false ∧
    (model (model usersTable.1 usersTable.2 (.structValue (User "" "" 0 ""))
      (some [true])).1 usersTable.2 (.structValue (User "" "" 0 "")) none).2 = .ok 3 ∧
    columnsOf (model (model usersTable.1 usersTable.2 (.structValue (User "" "" 0 ""))
      (some [true])).1 usersTable.2 (.structValue (User "" "" 0 "")) none).1 3 =
      ["user_id", "name", "age", "sex"] :=
  ⟨rfl, rfl, rfl, rfl, rfl, rfl⟩

/-- C10: on a struct value or a pointer to one whose fields are all
non-pointer typed, `model` returns a builder whose columns are the receiver's
columns followed by the `db` tag values, in field declaration order, of the
fields whose `db` tag is non-empty, whose `table` tag equals the receiver's
table name, and whose value is non-zero unless the force flag is passed or the
receiver's zero-value-skip flag is off. -/
theorem model_columns (h : Heap) (b : Nat) (fields : List StructField)
    (nz : Option (List Bool)) (arg : Interface)
    (harg : arg = .structValue fields ∨ arg = .structPtr fields)
    (hnp : ∀ f ∈ fields, f.value.kindIsPtr = false) (hnz : nz ≠ some []) :
    ∃ c, (model h b arg nz).2 = .ok c ∧
      columnsOf (model h b arg nz).1 c =
        columnsOf h b ++ (fields.filter fun f =>
            decide (tagGet f.tag DBTag ≠ "") &&
            decide (tagGet f.tag TableTag = (h.builders b).tableName) &&
            (!f.value.IsZero || forceFlag nz || !(h.builders b).ignoreZeroValue)).map
          fun f => tagGet f.tag DBTag := by
  have key : ∀ h0 : Heap, (h0.builders b).tableName = (h.builders b).tableName →
      (h0.builders b).ignoreZeroValue = ((h.builders b).ignoreZeroValue && !forceFlag nz) →
      columnsOf h0 b = columnsOf h b →
      columnsOf (modelLoop b (copy h0 b).2 fields (copy h0 b).1) (copy h0 b).2 =
        columnsOf h b ++ (fields.filter fun f =>
            decide (tagGet f.tag DBTag ≠ "") &&
            decide (tagGet f.tag TableTag = (h.builders b).tableName) &&
            (!f.value.IsZero || forceFlag nz || !(h.builders b).ignoreZeroValue)).map
          fun f => tagGet f.tag DBTag := by
    intro h0 ht hz hcol
    obtain ⟨_, c2, c3, c4, c5⟩ := copy_spec h0 b
    rw [modelLoop_spec b _ fields _ hnp, c3, c4, ht, hz]
    have hc : columnsOf (copy h0 b).1 (copy h0 b).2 = columnsOf h b := by
      rw [← hcol]; unfold columnsOf strView; rw [c2, c5]
    rw [hc]
    have hp : (fun f : StructField =>
            decide (tagGet f.tag DBTag ≠ "") &&
            decide (tagGet f.tag TableTag = (h.builders b).tableName) &&
            (!f.value.IsZero || !((h.builders b).ignoreZeroValue && !forceFlag nz))) =
        (fun f : StructField =>
            decide (tagGet f.tag DBTag ≠ "") &&
            decide (tagGet f.tag TableTag = (h.builders b).tableName) &&
            (!f.value.IsZero || forceFlag nz || !(h.builders b).ignoreZeroValue)) := by
      funext f
      cases f.value.IsZero <;> cases forceFlag nz <;> cases (h.builders b).ignoreZeroValue <;> rfl
    rw [hp]
  have hset : ∀ q : queryBuilder, q.columns = (h.builders b).columns →
      columnsOf (setBuilder h b q) b = columnsOf h b := by
    intro q hq
    unfold columnsOf strView
    simp [setBuilder, hq]
  cases nz with
  | none =>
    rcases harg with rfl | rfl
    · exact ⟨_, rfl, key h rfl (by simp [forceFlag]) rfl⟩
    · exact ⟨_, rfl, key h rfl (by simp [forceFlag]) rfl⟩
  | some l =>
    cases l with
    | nil => exact absurd rfl hnz
    | cons x rest =>
      cases x with
      | false =>
        rcases harg with rfl | rfl
        · exact ⟨_, rfl, key h rfl (by simp [forceFlag]) rfl⟩
        · exact ⟨_, rfl, key h rfl (by simp [forceFlag]) rfl⟩
      | true =>
        rcases harg with rfl | rfl
        · exact ⟨_, rfl, key (setBuilder h b { h.builders b with ignoreZeroValue := false })
            (by simp [setBuilder]) (by simp [setBuilder, forceFlag]) (hset _ rfl)⟩
        · exact ⟨_, rfl, key (setBuilder h b { h.builders b with ignoreZeroValue := false })
            (by simp [setBuilder]) (by simp [setBuilder, forceFlag]) (hset _ rfl)⟩

/-- The first case of `Test_UpdateQueryBuilder_Model`: `User{Name: "hoge"}` on
table `users` yields the column `name`. -/
theorem model_columns_witness :
    (∀ f ∈ User "" "hoge" 0 "", f.value.kindIsPtr = false) ∧
    ∃ c, (model usersTable.1 usersTable.2 (.structValue (User "" "hoge" 0 "")) none).2 = .ok c ∧
      columnsOf (model usersTable.1 usersTable.2 (.structValue (User "" "hoge" 0 "")) none).1 c =
        ["name"] :=
  ⟨by decide, model_columns usersTable.1 usersTable.2 (User "" "hoge" 0 "") none
    (.structValue (User "" "hoge" 0 "")) (Or.inl rfl) (by decide) (by simp)⟩

/-- C11: `model` skips every pointer-typed field, the non-nil ones too: on
table `users`, a struct whose field `db:"name" table:"users"` is a non-nil
pointer yields no column. -/
theorem model_skips_present_pointer :
    (model usersTable.1 usersTable.2 (.structValue pointerName) none).2 = .ok 2 ∧
    columnsOf (model usersTable.1 usersTable.2 (.structValue pointerName) none).1 2 = [] ∧
    (model usersTable.1 usersTable.2 (.structValue pointerName) (some [true])).2 = .ok 2 ∧
    columnsOf (model usersTable.1 usersTable.2 (.structValue pointerName) (some [true])).1 2 =
      [] :=
  ⟨rfl, rfl, rfl, rfl⟩

/-- C12: `omit` returns when there are at most as many targets as columns, and
whenever it returns the result's columns are the receiver's columns that are
not among the targets, in their order and with their repetitions, and the
table, conditions, placeholder mode and zero-value-skip flag are the
receiver's. -/
theorem omit_keeps_other_columns (h : Heap) (b : Nat) (ts : List String) :
    (ts.length ≤ (columnsOf h b).length → ∃ c, («omit» h b ts).2 = .ok c) ∧
    ∀ c, («omit» h b ts).2 = .ok c →
      columnsOf («omit» h b ts).1 c = (columnsOf h b).filter (fun x => decide (x ∉ ts)) ∧
      ((«omit» h b ts).1.builders c).tableName = (h.builders b).tableName ∧
      conditionsOf («omit» h b ts).1 c = conditionsOf h b ∧
      ((«omit» h b ts).1.builders c).placeholderType = (h.builders b).placeholderType ∧
      ((«omit» h b ts).1.builders c).ignoreZeroValue = (h.builders b).ignoreZeroValue := by
  have hl : (columnsOf h b).length = (h.builders b).columns.len := strView_length h _
  constructor
  · intro hlen
    exact ⟨_, (omit_spec h b ts (hl ▸ hlen)).1⟩
  · intro c hc
    by_cases hlen : ts.length ≤ (h.builders b).columns.len
    · obtain ⟨s1, s2, s3, s4, s5, s6⟩ := omit_spec h b ts hlen
      rw [s1] at hc
      simp only [Except.ok.injEq] at hc
      subst hc
      exact ⟨s2, s3, s4, s5, s6⟩
    · rw [omit_panics h b ts (by omega)] at hc
      simp at hc

/-- `Model(&User{}, true).Omit("user_id")` of `Test_UpdateQueryBuilder_Model`,
on the four columns of `User`. -/
theorem omit_keeps_other_columns_witness :
    ∃ c, («omit» userColumns.1 userColumns.2 ["user_id"]).2 = .ok c ∧
      columnsOf («omit» userColumns.1 userColumns.2 ["user_id"]).1 c = ["name", "age", "sex"] :=
  ⟨3, rfl, ((omit_keeps_other_columns userColumns.1 userColumns.2 ["user_id"]).2 3 rfl).1⟩

/-- C13: `omit` with more targets than the receiver has columns panics, also
when no target is a column: on a builder without columns `omit("x")` panics,
and so does `omit("x", "y")` on the single column `a`. -/
theorem omit_panics_on_more_targets :
    («omit» (newQueryBuilder emptyHeap).1 (newQueryBuilder emptyHeap).2 ["x"]).2 =
      .error "makeslice: cap out of range" ∧
    («omit» (column (newQueryBuilder emptyHeap).1 (newQueryBuilder emptyHeap).2 ["a"]).1
      (column (newQueryBuilder emptyHeap).1 (newQueryBuilder emptyHeap).2 ["a"]).2
      ["x", "y"]).2 = .error "makeslice: cap out of range" :=
  ⟨rfl, rfl⟩

/-- C14: two accepted fields with the same bind label `x`, the first with the
column `a` and the code `eq`, the second with the column `b` and the code `gt`,
both yield the condition of the second field, not one condition from each
field's own tags. -/
theorem shared_bind_label_repeats_last_field :
    (sharedLabel "gt").map (acceptedField "search") = [true, true] ∧
    (sharedLabel "gt").map (fieldCondition "search") =
      [⟨"a", "=", "x", "AND", "", ""⟩, ⟨"b", ">", "x", "AND", "", ""⟩] ∧
    resultConditions (whereMultiByStruct (start Named).1 (start Named).2 "search"
      (.structValue (sharedLabel "gt"))) =
      some [⟨"b", ">", "x", "AND", "", ""⟩, ⟨"b", ">", "x", "AND", "", ""⟩] :=
  ⟨rfl, rfl, rfl⟩

/-- C15: a field with an unrecognised code that shares its bind label with an
accepted field takes that field's condition away: no condition is appended,
though the first field is accepted. -/
theorem unrecognised_code_drops_shared_label :
    (sharedLabel "bogus").map (acceptedField "search") = [true, false] ∧
    resultConditions (whereMultiByStruct (start Named).1 (start Named).2 "search"
      (.structValue (sharedLabel "bogus"))) = some [] ∧
    resultConditions (whereMultiByStruct (start Named).1 (start Named).2 "search"
      (.structValue ((sharedLabel "bogus").take 1))) =
      some [⟨"a", "=", "x", "AND", "", ""⟩] :=
  ⟨rfl, rfl, rfl⟩

/-- C16: `whereSubQuery` fails with `SubQueryEmptyErr` on an absent
sub-builder, else with `UnspecifiedColumnErr` when the sub-builder does not
select exactly one column, else with `SubQueryReturnMultiRowsErr` when its
`limit["use"]` is present and false, and in no other case; then it returns a
builder whose conditions are the receiver's followed by the condition with the
column, the operator, the connector `AND` and, as subquery text, the built
statement without its trailing `;` characters. -/
theorem whereSubQuery_checks (h : Heap) (b : Nat) (col op : String) (hok : CondsOK h b) :
    (whereSubQuery h b col op none).2 = .error SubQueryEmptyErr ∧
    (∀ sub : SelectQueryBuilder, sub.columns.length ≠ 1 →
      (whereSubQuery h b col op (some sub)).2 = .error UnspecifiedColumnErr) ∧
    (∀ sub : SelectQueryBuilder, sub.columns.length = 1 → sub.limitUse = some false →
      (whereSubQuery h b col op (some sub)).2 = .error SubQueryReturnMultiRowsErr) ∧
    (∀ sub : SelectQueryBuilder, sub.columns.length = 1 → sub.limitUse ≠ some false →
      ∃ c, (whereSubQuery h b col op (some sub)).2 = .ok c ∧
        conditionsOf (whereSubQuery h b col op (some sub)).1 c =
          conditionsOf h b ++ [⟨col, op, "", "AND", "", TrimRight sub.built⟩]) ∧
    (∀ sub : Option SelectQueryBuilder,
      (∃ e, (whereSubQuery h b col op sub).2 = .error e) ↔
        (sub = none ∨ ∃ s, sub = some s ∧ (s.columns.length ≠ 1 ∨ s.limitUse = some false))) ∧
    ∀ s : String, (∃ n, s = TrimRight s ++ ⟨List.replicate n ';'⟩) ∧
      (TrimRight s).data.getLast? ≠ some ';' := by
  have e1 : (whereSubQuery h b col op none).2 = .error SubQueryEmptyErr := rfl
  have e2 : ∀ sub : SelectQueryBuilder, sub.columns.length ≠ 1 →
      (whereSubQuery h b col op (some sub)).2 = .error UnspecifiedColumnErr := by
    intro sub hs
    have : sub.columns.length = 0 ∨ sub.columns.length > 1 := by omega
    simp only [whereSubQuery, if_pos this]
  have e3 : ∀ sub : SelectQueryBuilder, sub.columns.length = 1 → sub.limitUse = some false →
      (whereSubQuery h b col op (some sub)).2 = .error SubQueryReturnMultiRowsErr := by
    intro sub hs hl
    have h1 : ¬ (sub.columns.length = 0 ∨ sub.columns.length > 1) := by omega
    have h2 : sub.limitUse ≠ none ∧ sub.limitUse = some false := ⟨by rw [hl]; simp, hl⟩
    simp only [whereSubQuery, if_neg h1, if_pos h2]
  have e4 : ∀ sub : SelectQueryBuilder, sub.columns.length = 1 → sub.limitUse ≠ some false →
      ∃ c, (whereSubQuery h b col op (some sub)).2 = .ok c ∧
        conditionsOf (whereSubQuery h b col op (some sub)).1 c =
          conditionsOf h b ++ [⟨col, op, "", "AND", "", TrimRight sub.built⟩] := by
    intro sub hs hl
    rw [whereSubQuery_ok h b col op sub hs hl]
    exact ⟨_, rfl, appendCondition_conditions h b _ hok.2⟩
  refine ⟨e1, e2, e3, e4, ?_, TrimRight_spec⟩
  intro sub
  constructor
  · rintro ⟨e, he⟩
    cases sub with
    | none => exact Or.inl rfl
    | some s =>
      refine Or.inr ⟨s, rfl, ?_⟩
      by_contra hcon
      simp only [not_or, not_not] at hcon
      obtain ⟨c, hc, _⟩ := e4 s hcon.1 hcon.2
      rw [hc] at he
      simp at he
  · rintro (rfl | ⟨s, rfl, hs | hs⟩)
    · exact ⟨_, e1⟩
    · exact ⟨_, e2 s hs⟩
    · by_cases hc : s.columns.length = 1
      · exact ⟨_, e3 s hc hs⟩
      · exact ⟨_, e2 s hc⟩

/-- A sub-builder with one column and `limit["use"]` true on a builder with one
condition. -/
theorem whereSubQuery_checks_witness :
    CondsOK userName.1 userName.2 ∧
    ∃ c, (whereSubQuery userName.1 userName.2 "task_id" "="
        (some ⟨["id"], some true, "SELECT tasks.id FROM tasks LIMIT ?;"⟩)).2 = .ok c ∧
      conditionsOf (whereSubQuery userName.1 userName.2 "task_id" "="
        (some ⟨["id"], some true, "SELECT tasks.id FROM tasks LIMIT ?;"⟩)).1 c =
        [⟨"user_name", "=", "user_name", "AND", "", ""⟩,
         ⟨"task_id", "=", "", "AND", "", "SELECT tasks.id FROM tasks LIMIT ?"⟩] :=
  ⟨by decide,
    (whereSubQuery_checks userName.1 userName.2 "task_id" "=" (by decide)).2.2.2.1
      ⟨["id"], some true, "SELECT tasks.id FROM tasks LIMIT ?;"⟩ rfl (by decide)⟩

/-- C17: a sub-builder on which no limit was set is accepted: `whereSubQuery`
returns and appends the subquery condition. -/
theorem unlimited_subquery_accepted :
    (whereSubQuery (start Question).1 (start Question).2 "task_id" "="
      (some unlimitedSub)).2 = .ok 2 ∧
    conditionsOf (whereSubQuery (start Question).1 (start Question).2 "task_id" "="
      (some unlimitedSub)).1 2 =
      [⟨"task_id", "=", "", "AND", "", "SELECT tasks.id FROM tasks"⟩] ∧
    (getWhereParagraphs (whereSubQuery (start Question).1 (start Question).2 "task_id" "="
      (some unlimitedSub)).1 2).2 = .ok ["WHERE task_id = (SELECT tasks.id FROM tasks)"] :=
  ⟨rfl, rfl, rfl⟩

/-- C18: under every placeholder mode `getWhereParagraph` renders a condition
with subquery text as `<connector> <column> <operator> (<subquery text>)`
whatever its operator, and a condition without subquery text whose operator is
`IS NULL` or `IS NOT NULL` as `<connector> <column> <operator>`, in both cases
whatever bind it is given and without touching the heap; in a render that
returns, the fragment of such a condition is that text with the connector
`WHERE` for the first condition and the stored connector for the others. -/
theorem null_check_and_subquery_fragments (h : Heap) (b : Nat)
    (hnd : (mapAddrs h (h.builders b).whereConditions).Nodup) :
    (∀ (a : Nat) (bind : String), (h.maps a).subQuery ≠ "" →
      getWhereParagraph h b a bind =
        (h, .ok ((h.maps a).logical ++ " " ++ (h.maps a).column ++ " " ++ (h.maps a).operator ++
          " (" ++ (h.maps a).subQuery ++ ")"))) ∧
    (∀ (a : Nat) (bind : String), (h.maps a).subQuery = "" →
      (h.maps a).operator = IsNull ∨ (h.maps a).operator = IsNotNull →
      getWhereParagraph h b a bind =
        (h, .ok ((h.maps a).logical ++ " " ++ (h.maps a).column ++ " " ++ (h.maps a).operator))) ∧
    ∀ ps, (getWhereParagraphs h b).2 = .ok ps →
      ∀ (i : Nat) (c : Condition), (conditionsOf h b)[i]? = some c →
        (c.subQuery ≠ "" →
          ps[i]? = some ((if i = 0 then "WHERE" else c.logical) ++ " " ++ c.column ++ " " ++
            c.operator ++ " (" ++ c.subQuery ++ ")")) ∧
        (c.subQuery = "" → c.operator = IsNull ∨ c.operator = IsNotNull →
          ps[i]? = some ((if i = 0 then "WHERE" else c.logical) ++ " " ++ c.column ++ " " ++
            c.operator)) := by
  refine ⟨?_, ?_, ?_⟩
  · intro a bind hs
    simp only [getWhereParagraph, if_pos hs]
  · intro a bind hs hop
    simp only [getWhereParagraph, hs, ne_eq, not_true_eq_false, if_false, if_pos hop]
  · intro ps hps i c hc
    rw [getWhereParagraphs_eq, conditionsOf_markFirst h b hnd] at hps
    obtain ⟨k2, p, hp, hpi⟩ := paragraphsOf_getElem _ _ _ _ hps i _ (markHead_getElem _ i c hc)
    rw [hpi]
    constructor
    · intro hs
      by_cases hi : i = 0
      · simp only [if_pos hi] at hp ⊢
        rw [paragraphOf_subQuery _ _ { c with logical := "WHERE" } hs] at hp
        exact (Except.ok.inj hp) ▸ rfl
      · simp only [if_neg hi] at hp ⊢
        rw [paragraphOf_subQuery _ _ _ hs] at hp
        exact (Except.ok.inj hp) ▸ rfl
    · intro hs hop
      by_cases hi : i = 0
      · simp only [if_pos hi] at hp ⊢
        rw [paragraphOf_null _ _ { c with logical := "WHERE" } hs hop] at hp
        exact (Except.ok.inj hp) ▸ rfl
      · simp only [if_neg hi] at hp ⊢
        rw [paragraphOf_null _ _ _ hs hop] at hp
        exact (Except.ok.inj hp) ▸ rfl

/-- A null check followed by a subquery under the operator `IN`, in Sequential
mode. -/
theorem null_check_and_subquery_fragments_witness :
    (mapAddrs nullThenSub.1 (nullThenSub.1.builders nullThenSub.2).whereConditions).Nodup ∧
    (getWhereParagraphs nullThenSub.1 nullThenSub.2).2 =
      .ok ["WHERE a IS NULL", "AND b IN (SELECT t.b FROM t)"] ∧
    ["WHERE a IS NULL", "AND b IN (SELECT t.b FROM t)"][1]? =
      some ((if 1 = 0 then "WHERE" else "AND") ++ " " ++ "b" ++ " " ++ "IN" ++ " (" ++
        "SELECT t.b FROM t" ++ ")") :=
  ⟨by decide, rfl,
    (((null_check_and_subquery_fragments nullThenSub.1 nullThenSub.2 (by decide)).2.2
      ["WHERE a IS NULL", "AND b IN (SELECT t.b FROM t)"] rfl) 1
      ⟨"b", "IN", "", "AND", "", "SELECT t.b FROM t"⟩ rfl).1 (by decide)⟩

/-- C19, amended: after `whereIn(col, 0)` (resp. `whereNotIn(col, 0)`) the
render, in every placeholder mode, returns whenever the receiver's list lengths
are non-negative, and its last fragment is `<connector> col IN ()` (resp.
`NOT IN`); after `whereIn(col, n)` or `whereNotIn(col, n)` with a negative `n`
the render panics.  More generally, for the builder returned by a chain of
calls of `where`, `or`, `whereIn`, `whereNotIn` and `whereSubQuery` that
contains `whereIn(col, n)` or `whereNotIn(col, n)` at any position: the render
returns exactly when the receiver holds no `IN` / `NOT IN` condition with a
negative list length and no `whereIn` / `whereNotIn` of the chain has a
negative length; for a negative `n` it panics in `make`; and for `n = 0` every
render that returns has the fragment `<connector> col IN ()` (resp. `NOT IN`)
at the position of the call, the connector being `WHERE` at the first position
and `AND` elsewhere. -/
theorem list_length_zero_and_negative (h : Heap) (b : Nat) (col : String)
    (bind : List String) (hok : CondsOK h b) :
    (((∀ c ∈ conditionsOf h b, 0 ≤ Atoi c.listLength) →
        ∃ ps, (getWhereParagraphs (whereIn h b col 0 bind).1 (whereIn h b col 0 bind).2).2 =
          .ok ps) ∧
      ∀ ps, (getWhereParagraphs (whereIn h b col 0 bind).1 (whereIn h b col 0 bind).2).2 =
          .ok ps →
        ps.getLast? = some ((if conditionsOf h b = [] then "WHERE" else "AND") ++ " " ++ col ++
          " " ++ "IN" ++ " " ++ "()")) ∧
    (((∀ c ∈ conditionsOf h b, 0 ≤ Atoi c.listLength) →
        ∃ ps, (getWhereParagraphs (whereNotIn h b col 0 bind).1
          (whereNotIn h b col 0 bind).2).2 = .ok ps) ∧
      ∀ ps, (getWhereParagraphs (whereNotIn h b col 0 bind).1
          (whereNotIn h b col 0 bind).2).2 = .ok ps →
        ps.getLast? = some ((if conditionsOf h b = [] then "WHERE" else "AND") ++ " " ++ col ++
          " " ++ "NOT IN" ++ " " ++ "()")) ∧
    (∀ n : Int, n < 0 →
      (∃ e, (getWhereParagraphs (whereIn h b col n bind).1 (whereIn h b col n bind).2).2 =
        .error e) ∧
      (∃ e, (getWhereParagraphs (whereNotIn h b col n bind).1
        (whereNotIn h b col n bind).2).2 = .error e)) ∧
    ∀ (calls : List AddCall) (b2 : Nat), (addChain calls h b).2 = .ok b2 →
      ((∃ ps, (getWhereParagraphs (addChain calls h b).1 b2).2 = .ok ps) ↔
        (∀ c ∈ conditionsOf h b, ¬ negativeList c) ∧
        ∀ (col2 : String) (m : Int) (bind2 : List String),
          AddCall.viaWhereIn col2 m bind2 ∈ calls ∨ AddCall.viaWhereNotIn col2 m bind2 ∈ calls →
          0 ≤ m) ∧
      ∀ (j : Nat) (n : Int),
        (calls[j]? = some (.viaWhereIn col n bind) →
          (n < 0 → (getWhereParagraphs (addChain calls h b).1 b2).2 =
            .error "makeslice: cap out of range") ∧
          (n = 0 → ∀ ps, (getWhereParagraphs (addChain calls h b).1 b2).2 = .ok ps →
            ps[(conditionsOf h b).length + j]? =
              some ((if (conditionsOf h b).length + j = 0 then "WHERE" else "AND") ++ " " ++
                col ++ " " ++ "IN" ++ " " ++ "()"))) ∧
        (calls[j]? = some (.viaWhereNotIn col n bind) →
          (n < 0 → (getWhereParagraphs (addChain calls h b).1 b2).2 =
            .error "makeslice: cap out of range") ∧
          (n = 0 → ∀ ps, (getWhereParagraphs (addChain calls h b).1 b2).2 = .ok ps →
            ps[(conditionsOf h b).length + j]? =
              some ((if (conditionsOf h b).length + j = 0 then "WHERE" else "AND") ++ " " ++
                col ++ " " ++ "NOT IN" ++ " " ++ "()"))) :=
  ⟨(render_after_list h b col In bind 0 hok (Or.inl rfl)).2 rfl,
   (render_after_list h b col NotIn bind 0 hok (Or.inr rfl)).2 rfl,
   fun n hn => ⟨(render_after_list h b col In bind n hok (Or.inl rfl)).1 hn,
     (render_after_list h b col NotIn bind n hok (Or.inr rfl)).1 hn⟩,
   fun calls b2 hr => ⟨addChain_returns_iff calls h b b2 hok hr, fun j n =>
     ⟨fun hj => addChain_list_call calls h b b2 hok hr j _ hj col In n bind
        (Or.inl ⟨rfl, rfl⟩),
      fun hj => addChain_list_call calls h b b2 hok hr j _ hj col NotIn n bind
        (Or.inr ⟨rfl, rfl⟩)⟩⟩⟩

/-- C19, at `whereIn("user_id", 0)` after `where("user_name", "=")` under
Named mode, and at the chain `where("a", "=").whereIn("c", 0).or("d", "<")` on
a new builder, where the list is followed by another condition. -/
theorem list_length_zero_and_negative_witness :
    CondsOK userName.1 userName.2 ∧
    (getWhereParagraphs (whereIn userName.1 userName.2 "user_id" 0 []).1
      (whereIn userName.1 userName.2 "user_id" 0 []).2).2 =
      .ok ["WHERE user_name = :user_name", "AND user_id IN ()"] ∧
    ["WHERE user_name = :user_name", "AND user_id IN ()"].getLast? =
      some ((if conditionsOf userName.1 userName.2 = [] then "WHERE" else "AND") ++ " " ++
        "user_id" ++ " " ++ "IN" ++ " " ++ "()") ∧
    CondsOK (start Named).1 (start Named).2 ∧
    (addChain zeroListCalls (start Named).1 (start Named).2).2 = .ok 4 ∧
    zeroListCalls[1]? = some (.viaWhereIn "c" 0 []) ∧
    (getWhereParagraphs (addChain zeroListCalls (start Named).1 (start Named).2).1 4).2 =
      .ok ["WHERE a = :a", "AND c IN ()", "OR d < :d"] ∧
    ["WHERE a = :a", "AND c IN ()", "OR d < :d"][
        (conditionsOf (start Named).1 (start Named).2).length + 1]? =
      some ((if (conditionsOf (start Named).1 (start Named).2).length + 1 = 0 then "WHERE"
        else "AND") ++ " " ++ "c" ++ " " ++ "IN" ++ " " ++ "()") :=
  ⟨by decide, rfl,
    (list_length_zero_and_negative userName.1 userName.2 "user_id" [] (by decide)).1.2
      ["WHERE user_name = :user_name", "AND user_id IN ()"] rfl,
    by decide, rfl, rfl, rfl,
    ((((list_length_zero_and_negative (start Named).1 (start Named).2 "c" []
      (by decide)).2.2.2 zeroListCalls 4 rfl).2 1 0).1 rfl).2 rfl
      ["WHERE a = :a", "AND c IN ()", "OR d < :d"] rfl⟩

/-- C19: the render of a builder that contains `whereIn("c", -1)` or
`whereNotIn("c", -1)` panics in `make([]string, 0, listLength)`, also when the
list is followed by another condition. -/
theorem negative_list_length_panics :
    (getWhereParagraphs (whereIn (start Question).1 (start Question).2 "c" (-1) []).1
      (whereIn (start Question).1 (start Question).2 "c" (-1) []).2).2 =
      .error "makeslice: cap out of range" ∧
    (getWhereParagraphs (whereNotIn (start Named).1 (start Named).2 "c" (-1) []).1
      (whereNotIn (start Named).1 (start Named).2 "c" (-1) []).2).2 =
      .error "makeslice: cap out of range" ∧
    (addChain negativeListCalls (start Question).1 (start Question).2).2 = .ok 3 ∧
    (getWhereParagraphs
      (addChain negativeListCalls (start Question).1 (start Question).2).1 3).2 =
      .error "makeslice: cap out of range" :=
  ⟨rfl, rfl, rfl, rfl⟩

/-- C20: on the struct of the example no fragment is rendered: the fields
carry no `db` tag, which `buildBindMap` requires; with the tags `db:"price"`
and `db:"owner"` added only the first fragment is rendered, the code `not` not
being in the table of `getOperatorFromTag`. -/
theorem example_struct_renders_no_owner :
    resultParagraphs (whereMultiByStruct (start Named).1 (start Named).2 "search"
      (.structValue (priceOwner false))) = some (.ok []) ∧
    resultParagraphs (whereMultiByStruct (start Named).1 (start Named).2 "search"
      (.structValue (priceOwner true))) = some (.ok ["WHERE price > :price"]) ∧
    getOperatorFromTag "not" = "" ∧ getOperatorFromTag "ne" = "!=" :=
  ⟨rfl, rfl, rfl, rfl⟩

/-- C21: the builder `B = start(DollarNumber).where("a", IsNull)` has counter 1
after one render, and the builder `B.where("b", "=")` derived from it has
counter 0, as every builder a mutator returns; yet the first Sequential-mode
token of its first render is `$2`, not `$1`: the null check, which renders no
token, consumes the number 1.  The same fragments are rendered when `B` was
never rendered. -/
theorem derived_render_starts_at_two :
    (renderedNull.1.builders renderedNull.2).placeholderType = DollarNumber ∧
    (renderedNull.1.builders renderedNull.2).argNum = 1 ∧
    (derivedScalar.1.builders derivedScalar.2).argNum = 0 ∧
    (getWhereParagraphs derivedScalar.1 derivedScalar.2).2 =
      .ok ["WHERE a IS NULL", "AND b = $2"] ∧
    (getWhereParagraphs nullThenScalar.1 nullThenScalar.2).2 =
      .ok ["WHERE a IS NULL", "AND b = $2"] :=
  ⟨rfl, rfl, rfl, rfl, rfl⟩

/-- C22: a render leaves the table, the columns, the placeholder mode and the
flag of the builder as they were, also when it panics, and every stored
condition as it was except the first, whose `logical` entry it overwrites with
`WHERE`; the references of the conditions are supposed distinct, as they are
in every builder made by the mutators. -/
theorem render_keeps_state_but_first_connector (h : Heap) (b : Nat)
    (hnd : (mapAddrs h (h.builders b).whereConditions).Nodup) :
    ((getWhereParagraphs h b).1.builders b).tableName = (h.builders b).tableName ∧
    columnsOf (getWhereParagraphs h b).1 b = columnsOf h b ∧
    ((getWhereParagraphs h b).1.builders b).placeholderType = (h.builders b).placeholderType ∧
    ((getWhereParagraphs h b).1.builders b).ignoreZeroValue = (h.builders b).ignoreZeroValue ∧
    conditionsOf (getWhereParagraphs h b).1 b = markHead (conditionsOf h b) ∧
    ∀ (i : Nat) (c : Condition), (conditionsOf h b)[i]? = some c →
      (conditionsOf (getWhereParagraphs h b).1 b)[i]? =
        some (if i = 0 then { c with logical := "WHERE" } else c) := by
  have hc : conditionsOf (getWhereParagraphs h b).1 b = markHead (conditionsOf h b) := by
    rw [getWhereParagraphs_eq, conditionsOf_setArgNum, conditionsOf_markFirst h b hnd]
  refine ⟨?_, ?_, ?_, ?_, hc, ?_⟩
  · rw [getWhereParagraphs_eq, setArgNum_builders, markFirst_builders]
  · rw [getWhereParagraphs_eq, columnsOf_setArgNum, columnsOf_markFirst]
  · rw [getWhereParagraphs_eq, setArgNum_builders, markFirst_builders]
  · rw [getWhereParagraphs_eq, setArgNum_builders, markFirst_builders]
  · intro i c hi
    rw [hc]
    exact markHead_getElem _ i c hi

/-- C22, at the chain `start(Question).or("a", "=").or("b", ">")`: the second
condition is stored after the render as before, the first with `WHERE`. -/
theorem render_keeps_state_but_first_connector_witness :
    (mapAddrs orFirst.1 (orFirst.1.builders orFirst.2).whereConditions).Nodup ∧
    conditionsOf orFirst.1 orFirst.2 =
      [⟨"a", "=", "a", "OR", "", ""⟩, ⟨"b", ">", "b", "OR", "", ""⟩] ∧
    conditionsOf (getWhereParagraphs orFirst.1 orFirst.2).1 orFirst.2 =
      markHead (conditionsOf orFirst.1 orFirst.2) ∧
    markHead (conditionsOf orFirst.1 orFirst.2) =
      [⟨"a", "=", "a", "WHERE", "", ""⟩, ⟨"b", ">", "b", "OR", "", ""⟩] :=
  ⟨by decide, rfl,
    (render_keeps_state_but_first_connector orFirst.1 orFirst.2 (by decide)).2.2.2.2.1, rfl⟩

/-- C22, as stated: the connector stored on the first condition of
`start(Question).or("a", "=").or("b", ">")` is `OR` before the render and
`WHERE` after it. -/
theorem render_rewrites_first_connector :
    (conditionsOf orFirst.1 orFirst.2).map (fun c => c.logical) = ["OR", "OR"] ∧
    (conditionsOf (getWhereParagraphs orFirst.1 orFirst.2).1 orFirst.2).map
      (fun c => c.logical) = ["WHERE", "OR"] ∧
    conditionsOf (getWhereParagraphs orFirst.1 orFirst.2).1 orFirst.2 ≠
      conditionsOf orFirst.1 orFirst.2 := by
  refine ⟨rfl, rfl, ?_⟩
  intro he
  have hl := congrArg (fun l => l.map (fun c => c.logical)) he
  revert hl
  decide

/-- C23: when the list lengths are non-negative the render returns; in
Sequential mode it leaves the counter at its value before the render plus the
number of conditions whose operator is neither `IN` nor `NOT IN` plus the sum
of the list lengths of the `IN` / `NOT IN` conditions without subquery text;
in every other mode it leaves the counter as it was. -/
theorem render_counter_accounting (h : Heap) (b : Nat)
    (hn : ∀ c ∈ conditionsOf h b, 0 ≤ Atoi c.listLength) :
    (∃ ps, (getWhereParagraphs h b).2 = .ok ps) ∧
    ((h.builders b).placeholderType = DollarNumber →
      ((getWhereParagraphs h b).1.builders b).argNum =
        (h.builders b).argNum +
        (((conditionsOf h b).filter fun c =>
            decide (c.operator ≠ In ∧ c.operator ≠ NotIn)).length : Int) +
        (((conditionsOf h b).filter fun c =>
            decide ((c.operator = In ∨ c.operator = NotIn) ∧ c.subQuery = "")).map
          fun c => Atoi c.listLength).sum) ∧
    ((h.builders b).placeholderType ≠ DollarNumber →
      ((getWhereParagraphs h b).1.builders b).argNum = (h.builders b).argNum) := by
  have hn2 : ∀ c ∈ conditionsOf (markFirst h b) b, 0 ≤ Atoi c.listLength := by
    intro c hc
    obtain ⟨d, hd, e⟩ := mem_conditionsOf_markFirst h b c hc
    rw [e]
    exact hn d hd
  rw [getWhereParagraphs_eq]
  refine ⟨paragraphsOf_total _ _ _ hn2, ?_, ?_⟩
  · intro hD
    rw [setArgNum_builders, hD]
    show (paragraphsOf DollarNumber (h.builders b).argNum (conditionsOf (markFirst h b) b)).2 = _
    rw [paragraphsOf_counter_dollar _ _ hn2, counterStep_markFirst, counterStep_sum]
    ring
  · intro hD
    rw [setArgNum_builders]
    exact (paragraphsOf_nonDollar _ hD _ _ 0).1

/-- C23, at the chain `start(DollarNumber).where("a", IsNull).whereIn("c", 2)
.where("d", "=").whereSubQuery("e", "IN", sub)`: two conditions are neither
`IN` nor `NOT IN`, the one list has length 2 and the counter goes from 0 to 4. -/
theorem render_counter_accounting_witness :
    (∀ c ∈ conditionsOf mixedConditions.1 mixedConditions.2, 0 ≤ Atoi c.listLength) ∧
    (mixedConditions.1.builders mixedConditions.2).placeholderType = DollarNumber ∧
    (getWhereParagraphs mixedConditions.1 mixedConditions.2).2 =
      .ok ["WHERE a IS NULL", "AND c IN ($2, $3)", "AND d = $4",
        "AND e IN (SELECT t.e FROM t)"] ∧
    (mixedConditions.1.builders mixedConditions.2).argNum = 0 ∧
    (((conditionsOf mixedConditions.1 mixedConditions.2).filter fun c =>
        decide (c.operator ≠ In ∧ c.operator ≠ NotIn)).length : Int) = 2 ∧
    (((conditionsOf mixedConditions.1 mixedConditions.2).filter fun c =>
        decide ((c.operator = In ∨ c.operator = NotIn) ∧ c.subQuery = "")).map
      fun c => Atoi c.listLength).sum = 2 ∧
    ((getWhereParagraphs mixedConditions.1 mixedConditions.2).1.builders
        mixedConditions.2).argNum =
      (mixedConditions.1.builders mixedConditions.2).argNum +
      (((conditionsOf mixedConditions.1 mixedConditions.2).filter fun c =>
          decide (c.operator ≠ In ∧ c.operator ≠ NotIn)).length : Int) +
      (((conditionsOf mixedConditions.1 mixedConditions.2).filter fun c =>
          decide ((c.operator = In ∨ c.operator = NotIn) ∧ c.subQuery = "")).map
        fun c => Atoi c.listLength).sum ∧
    ((getWhereParagraphs mixedConditions.1 mixedConditions.2).1.builders
        mixedConditions.2).argNum = 4 :=
  ⟨by decide, rfl, rfl, rfl, by decide, by decide,
    (render_counter_accounting mixedConditions.1 mixedConditions.2 (by decide)).2.1 rfl, rfl⟩

end QueryBuilder
